import Mathlib

/-!
# Verification of the hybrid Shopify reconciliation engine

Shallow embedding of `upload_shopify_hybrid.py` (the authoritative "hybrid"
variant of the sync engine): the batch loader's grouping, the change
classifier (`compare_variants_structure`, `compare_prices`,
`compare_inventory`, the per-variant diff of `update_product_smart`), the
reconciler loop (`process_csv_hybrid`), the existing-state cache, the pruner
(`prune_missing_scraper_products`) and the driver (`run`).

Modelling conventions:
* Python dict rows become structures with `String` fields; a missing key and
  an empty value both read back as `""`, exactly as every access site in the
  source uses `row.get(k, "")` or `(... or "")`.
* Python `float` arithmetic on price strings is modelled as IEEE-754
  binary64: `_to_float` parses the decimal literal exactly (`Dec`) and
  rounds it to the nearest double (`Dbl`, a dyadic value with a 53-bit
  significand, round to nearest, ties to even); subtraction rounds the
  exact difference, and the `0.01` tolerance literal is the double nearest
  `0.01`, which is strictly greater than `1/100`.  Exponents are unbounded,
  which coincides with binary64 on its whole normal range — overflow and
  subnormal underflow are unreachable at the price magnitudes the pipeline
  handles.
* The remote platform is modelled as an explicit product store; every
  mutating API call is recorded in a `MutCall` trace.  Remote calls succeed
  unless a failure oracle injects a `ShopifyUploaderError` at one of the
  points where the source's `try/except` boundaries can observe one.
* Python `sorted` is modelled by the stable `List.insertionSort`.
-/

namespace Hybrid

set_option maxRecDepth 8192

/-- Strip ASCII whitespace from both ends of a char list. -/
def py_trim_chars (l : List Char) : List Char :=
  ((l.dropWhile Char.isWhitespace).reverse.dropWhile Char.isWhitespace).reverse

/-- Python `str.strip` (kernel-evaluable implementation). -/
def pystrip (s : String) : String := String.mk (py_trim_chars s.toList)

/-- Python `str.lower` (ASCII). -/
def pylower (s : String) : String := String.mk (s.toList.map Char.toLower)

/-- Exact literal match at the head of a char list; returns the remainder. -/
def matches_exact (p : List Char) (l : List Char) : Option (List Char) :=
  match p, l with
  | [], rest => some rest
  | _ :: _, [] => none
  | pc :: ps, c :: cs => if pc = c then matches_exact ps cs else none

/-- Splitting worker: fuel-driven scan emitting a part at each separator. -/
def split_chars : Nat → List Char → List Char → List Char → List (List Char)
  | _, _, acc, [] => [acc.reverse]
  | 0, _, acc, rest => [acc.reverse ++ rest]
  | fuel + 1, sep, acc, c :: cs =>
    match matches_exact sep (c :: cs) with
    | some rest => acc.reverse :: split_chars fuel sep [] rest
    | none => split_chars fuel sep (c :: acc) cs

/-- Python `s.split(sep)` for a non-empty separator. -/
def py_split (s sep : String) : List String :=
  if sep = "" then [s]
  else (split_chars (s.toList.length + 1) sep.toList [] s.toList).map String.mk

/-- Replacement worker: fuel-driven scan replacing each occurrence. -/
def replace_chars : Nat → List Char → List Char → List Char → List Char
  | _, _, _, [] => []
  | 0, _, _, rest => rest
  | fuel + 1, pat, repl, c :: cs =>
    match matches_exact pat (c :: cs) with
    | some rest => repl ++ replace_chars fuel pat repl rest
    | none => c :: replace_chars fuel pat repl cs

/-- Python `s.replace(pat, repl)` for a non-empty pattern. -/
def py_replace (s pat repl : String) : String :=
  if pat = "" then s
  else String.mk (replace_chars (s.toList.length + 1) pat.toList repl.toList s.toList)

/-- Python `sep.join(parts)`. -/
def py_join (sep : String) (parts : List String) : String :=
  match parts with
  | [] => ""
  | p :: ps => ps.foldl (fun acc q => acc ++ sep ++ q) p

/-- Lexicographic code-point comparison of char lists (Python string
order). -/
def chars_le : List Char → List Char → Bool
  | [], _ => true
  | _ :: _, [] => false
  | a :: as, b :: bs =>
    if a.toNat < b.toNat then true
    else if b.toNat < a.toNat then false
    else chars_le as bs

/-- Python `a <= b` on strings. -/
def str_le (a b : String) : Bool := chars_le a.toList b.toList

/-- `str_le` as a relation for sorting. -/
def StrLe (a b : String) : Prop := str_le a b = true

instance : DecidableRel StrLe := fun a b => instDecidableEqBool (str_le a b) true

/-- Python `sorted` on strings (stable; code-point order). -/
def py_sorted_str (l : List String) : List String := l.insertionSort StrLe

/-- Python `needle in haystack` substring test. -/
def contains_sub (hay needle : String) : Bool := (py_split hay needle).length > 1

/-- `_split_tags`: split a comma-separated tag string, strip the parts, drop
empties.  The source returns a Python `set`; we return the deduplicated list
(first occurrences), which supports the same membership / union / sorted-join
operations. -/
def split_tags (tags_raw : String) : List String :=
  (((py_split tags_raw ",").map pystrip).filter (fun t => t ≠ "")).dedup

/-- `_has_ignore_tag`: any tag whose lowercase form is in the configured
ignore set. -/
def has_ignore_tag (ignoreTags : List String) (tags : List String) : Bool :=
  tags.any (fun t => ignoreTags.contains (pylower t))

/-- Case-insensitive literal match at the head of a char list; returns the
remainder after the match. -/
def matches_at (p : List Char) (l : List Char) : Option (List Char) :=
  match p, l with
  | [], rest => some rest
  | _ :: _, [] => none
  | pc :: ps, c :: cs => if pc.toLower = c.toLower then matches_at ps cs else none

/-- Remove every occurrence of `pat` (ASCII, case-insensitive) from `s`.
Fuel-driven scan; the fuel is the input length, which is always enough since
every step consumes at least one character. -/
def remove_all_ci (pat : String) (s : String) : String :=
  String.mk (go s.toList.length s.toList)
where
  go : Nat → List Char → List Char
  | 0, l => l
  | _, [] => []
  | fuel + 1, c :: cs =>
    if pat = "" then c :: cs
    else match matches_at pat.toList (c :: cs) with
    | some rest => go fuel rest
    | none => c :: go fuel cs

/-- `<br\s*/?>` matcher: given the chars after the `<br` prefix, consume
whitespace, an optional `/`, then `>`. -/
def br_tail_match : List Char → Option (List Char)
  | [] => none
  | c :: cs =>
    if c.isWhitespace then br_tail_match cs
    else if c = '/' then (match cs with | '>' :: rest => some rest | _ => none)
    else if c = '>' then some cs
    else none

/-- Remove every occurrence of the regex `<br\s*/?>` (case-insensitive). -/
def remove_br (s : String) : String :=
  String.mk (go s.toList.length s.toList)
where
  go : Nat → List Char → List Char
  | 0, l => l
  | _, [] => []
  | fuel + 1, c :: cs =>
    match matches_at ['<', 'b', 'r'] (c :: cs) with
    | some rest =>
      match br_tail_match rest with
      | some rem => go fuel rem
      | none => c :: go fuel cs
    | none => c :: go fuel cs

/-- Skip leading whitespace. -/
def after_ws : List Char → List Char
  | [] => []
  | c :: cs => if c.isWhitespace then after_ws cs else c :: cs

/-- Remove every `opening`-whitespace-`closing` (case-insensitive)
occurrence, e.g. the regex `<p>\s*</p>`. -/
def remove_empty_pair (opening closing : String) (s : String) : String :=
  String.mk (go s.toList.length s.toList)
where
  go : Nat → List Char → List Char
  | 0, l => l
  | _, [] => []
  | fuel + 1, c :: cs =>
    match matches_at opening.toList (c :: cs) with
    | some rest =>
      match matches_at closing.toList (after_ws rest) with
      | some rem => go fuel rem
      | none => c :: go fuel cs
    | none => c :: go fuel cs

/-- `_is_description_empty`: empty after stripping, after removing `<br>`
variants, empty `<p></p>` / `<div></div>` pairs, `&nbsp;` entities and all
whitespace. -/
def is_description_empty (html : String) : Bool :=
  if html = "" then true
  else
    let text := pystrip html
    if text = "" then true
    else
      let c1 := remove_br text
      let c2 := remove_empty_pair "<p>" "</p>" c1
      let c3 := remove_empty_pair "<div>" "</div>" c2
      let c4 := remove_all_ci "&nbsp;" c3
      let c5 := String.mk (c4.toList.filter (fun c => ¬ c.isWhitespace))
      c5.length = 0

/-- `clean_price`: strip currency markers and whitespace, `,` becomes `.`,
keep only digits and dots, collapse extra dots (thousands separators). -/
def clean_price (value : String) : Option String :=
  if value = "" then none
  else
    let c := py_replace (py_replace (py_replace (py_replace (py_replace value "€" "") "EUR" "") "euros" "") " " "") "," "."
    let c := String.mk (c.toList.filter (fun ch => ch.isDigit ∨ ch = '.'))
    if c = "" then none
    else if (c.toList.filter (fun ch => ch = '.')).length > 1 then
      let parts := py_split c "."
      some (py_join "" (parts.dropLast) ++ "." ++ parts.getLastI)
    else some c

/-- Value of a digit string (empty means 0). -/
def digits_val (l : List Char) : Nat :=
  l.foldl (fun acc c => acc * 10 + c.toNat - 48) 0

/-- An exact decimal number `num / 10 ^ exp`: the value of a price literal
before its conversion to floating point. -/
structure Dec where
  num : Int
  exp : Nat
deriving DecidableEq, Repr

/-- The rational value of a decimal. -/
def Dec.toRat (a : Dec) : ℚ := Rat.divInt a.num ((10 : Int) ^ a.exp)

/-- An IEEE-754 binary64 value `num * 2 ^ exp` with `|num| < 2 ^ 53`: the
number a Python `float` holds.  The exponent is unbounded, which agrees
with binary64 on its whole normal range — overflow and subnormal underflow
are unreachable at the price magnitudes this pipeline handles. -/
structure Dbl where
  num : Int
  exp : Int
deriving DecidableEq, Repr

/-- The exact rational value of a binary64 number. -/
def Dbl.toRat (a : Dbl) : ℚ := (a.num : ℚ) * (2 : ℚ) ^ a.exp

/-- Binary-digit counting worker (fuel-driven, kernel-evaluable). -/
def bitlen_go : Nat → Nat → Nat
  | 0, _ => 0
  | fuel + 1, n => if n = 0 then 0 else bitlen_go fuel (n / 2) + 1

/-- Number of binary digits of `n` (`0` for `0`). -/
def bitlen (n : Nat) : Nat := bitlen_go (n + 1) n

/-- `round(n / d)` with ties to even, for `d > 0`. -/
def ndiv_even (n d : Nat) : Nat :=
  let q := n / d
  let r := n % d
  if 2 * r < d then q
  else if d < 2 * r then q + 1
  else if q % 2 = 0 then q else q + 1

/-- `round(q / d / 2 ^ e)` with ties to even. -/
def scaled_div (q d : Nat) (e : Int) : Nat :=
  if 0 ≤ e then ndiv_even q (d * 2 ^ e.toNat)
  else ndiv_even (q * 2 ^ (-e).toNat) d

/-- Round the positive rational `q / d` to the nearest binary64 value
(round to nearest, ties to even): choose the exponent that puts the
significand into `[2 ^ 52, 2 ^ 53)`, adjusting once more when rounding at
the guessed exponent lands outside that range or crosses a binade. -/
def dbl_round_pos (q d : Nat) : Dbl :=
  let e : Int := (bitlen q : Int) - (bitlen d : Int) - 53
  let m := scaled_div q d e
  if m < 2 ^ 52 then
    let m2 := scaled_div q d (e - 1)
    if 2 ^ 53 ≤ m2 then ⟨(2 : Int) ^ 52, e⟩ else ⟨(m2 : Int), e - 1⟩
  else if 2 ^ 53 ≤ m then
    let m2 := scaled_div q d (e + 1)
    if 2 ^ 53 ≤ m2 then ⟨(2 : Int) ^ 52, e + 2⟩ else ⟨(m2 : Int), e + 1⟩
  else ⟨(m : Int), e⟩

/-- The binary64 value nearest a decimal: what Python's correctly rounded
`float(str)` yields.  For instance `0.01` becomes
`5764607523034235 * 2 ^ (-59)`, strictly greater than `1/100`. -/
def dbl_of_dec (a : Dec) : Dbl :=
  if a.num = 0 then ⟨0, 0⟩
  else
    let r := dbl_round_pos a.num.natAbs (10 ^ a.exp)
    if a.num < 0 then ⟨-r.num, r.exp⟩ else r

/-- Round the exact dyadic `m * 2 ^ e` to 53 significant bits, ties to
even. -/
def dbl_round_int (m : Int) (e : Int) : Dbl :=
  if m = 0 then ⟨0, 0⟩
  else
    let q := m.natAbs
    let bl := bitlen q
    if bl ≤ 53 then ⟨m, e⟩
    else
      let k := bl - 53
      let m2 := ndiv_even q (2 ^ k)
      let r : Dbl :=
        if 2 ^ 53 ≤ m2 then ⟨(2 : Int) ^ 52, e + (k : Int) + 1⟩
        else ⟨(m2 : Int), e + (k : Int)⟩
      if m < 0 then ⟨-r.num, r.exp⟩ else r

/-- Binary64 subtraction: the exact difference, correctly rounded — the
IEEE-754 semantics of Python's `a - b` on floats. -/
def dbl_sub (a b : Dbl) : Dbl :=
  dbl_round_int
    (a.num * 2 ^ (a.exp - min a.exp b.exp).toNat
      - b.num * 2 ^ (b.exp - min a.exp b.exp).toNat)
    (min a.exp b.exp)

/-- `abs` on a binary64 value (exact in IEEE-754). -/
def dbl_abs (a : Dbl) : Dbl := ⟨|a.num|, a.exp⟩

/-- Exact value comparison `a > b` of two binary64 numbers. -/
def dbl_gt (a b : Dbl) : Bool :=
  decide (b.num * 2 ^ (b.exp - min a.exp b.exp).toNat
          < a.num * 2 ^ (a.exp - min a.exp b.exp).toNat)

/-- The source's tolerance test `abs(a - b) > 0.01`, in binary64 arithmetic:
the correctly rounded difference compared against the double nearest `0.01`.
Binary rounding decides the threshold: `8.21 - 8.20` gives
`0.010000000000001563`, which is above `0.01`, while `10.01 - 10.00` gives
`0.009999999999999787`, which is not. -/
def abs_diff_gt_tol (a b : Dbl) : Bool :=
  dbl_gt (dbl_abs (dbl_sub a b)) (dbl_of_dec ⟨1, 2⟩)

/-- The decimal-parsing step of `_to_float`: an optionally signed plain
decimal literal read exactly into a `Dec`; anything unparsable (including
the scientific notation this pipeline never produces), `None` and `""`
give `0`. -/
def parse_decimal (value : String) : Dec :=
  let s := pystrip value
  if s = "" then ⟨0, 0⟩
  else
    let (neg, body) :=
      match s.toList with
      | c :: cs => if c = '-' then (true, cs) else if c = '+' then (false, cs) else (false, s.toList)
      | [] => (false, [])
    let ok := body.all (fun c => c.isDigit ∨ c = '.') ∧
              (body.filter (fun c => c = '.')).length ≤ 1 ∧
              (body.filter Char.isDigit).length ≥ 1
    if ok then
      let intPart := body.takeWhile (fun c => c ≠ '.')
      let fracPart := (body.dropWhile (fun c => c ≠ '.')).drop 1
      let n : Int := (digits_val intPart : Int) * (10 : Int) ^ fracPart.length + (digits_val fracPart : Int)
      ⟨if neg then -n else n, fracPart.length⟩
    else ⟨0, 0⟩

/-- `_to_float`: Python `float(...)` on a price string — the parsed decimal
literal, correctly rounded to binary64. -/
def to_float (value : String) : Dbl := dbl_of_dec (parse_decimal value)

/-- `normalize_barcode`: strip, drop a leading apostrophe, remove spaces,
keep only `[0-9A-Za-z_-]`. -/
def normalize_barcode (s : String) : String :=
  let s := pystrip s
  let l := s.toList
  let l := match l with
           | c :: cs => if c = '\'' then cs else l
           | [] => l
  let l := l.filter (fun c => c ≠ ' ')
  String.mk (l.filter (fun c => c.isDigit ∨ c.isAlpha ∨ c = '_' ∨ c = '-'))

/-- `parse_inventory_quantity`: keep digits and `-`; `""` and `"-"` give 0;
a malformed remainder (stray `-`) gives 0; otherwise `max 0 (int value)`. -/
def parse_inventory_quantity (value : String) : Int :=
  if value = "" then 0
  else
    let cleaned := value.toList.filter (fun c => c.isDigit ∨ c = '-')
    if cleaned = [] ∨ cleaned = ['-'] then 0
    else
      let (neg, digits) :=
        match cleaned with
        | c :: cs => if c = '-' then (true, cs) else (false, cleaned)
        | [] => (false, cleaned)
      if digits ≠ [] ∧ digits.all Char.isDigit then
        let v : Int := (digits_val digits : Int)
        max 0 (if neg then -v else v)
      else 0

/-! ## Data model -/

/-- One CSV row (`Dict[str, str]`): a missing key reads as `""`, matching
every `row.get(...)` access in the source. -/
structure Row where
  urlHandle : String := ""
  title : String := ""
  description : String := ""
  vendor : String := ""
  ptype : String := ""
  tags : String := ""
  status : String := ""
  sku : String := ""
  barcode : String := ""
  option1Name : String := ""
  option1Value : String := ""
  price : String := ""
  compareAtPrice : String := ""
  inventoryQuantity : String := ""
  productImageUrl : String := ""
deriving DecidableEq, Repr, Inhabited

/-- A CSV-side variant as built by `build_product_data_from_csv` /
`create_product_from_csv`: keys absent from the dict read back as `""`
(`sku`, `barcode`, `compare_at_price` are only set when non-empty). -/
structure CsvVariant where
  option1 : String
  price : String
  compareAtPrice : String := ""
  sku : String := ""
  barcode : String := ""
  inventoryQuantity : Int
deriving DecidableEq, Repr, Inhabited

/-- Result of `build_product_data_from_csv`. -/
structure CsvData where
  title : String
  bodyHtml : String
  imageUrl : String
  optionName : String
  variants : List CsvVariant
deriving DecidableEq, Repr, Inhabited

/-- A remote (Shopify-side) variant.  `compareAtPrice` `""` models `null`;
all sites read it through `(... or "")` / `_to_float(None) = 0`. -/
structure RVariant where
  vid : Nat
  option1 : String
  price : String
  compareAtPrice : String := ""
  sku : String := ""
  barcode : String := ""
  inventoryQuantity : Int
  inventoryItemId : Nat
deriving DecidableEq, Repr, Inhabited

/-- A remote product image. -/
structure RImage where
  iid : Nat
  src : String
  position : Nat
deriving DecidableEq, Repr, Inhabited

/-- A remote product.  `tags` is the comma-joined tag string exactly as the
REST API returns it. -/
structure RProduct where
  pid : Nat
  handle : String
  title : String
  bodyHtml : String := ""
  vendor : String := ""
  ptype : String := ""
  tags : String := ""
  status : String
  variants : List RVariant
  images : List RImage := []
deriving DecidableEq, Repr, Inhabited

/-- The remote store: product list in listing (id) order, plus a fresh-id
counter used when the platform assigns identifiers at creation. -/
structure Store where
  products : List RProduct
  nextId : Nat
deriving DecidableEq, Repr, Inhabited

/-- Process-wide configuration (environment in the source). `ignoreTags`
holds the already-lowercased ignore aliases, as the env parsing lowercases
them. -/
structure Config where
  scraperTag : String := "padel-scraper-1"
  keepDraftTag : String := "scraper:keep-draft"
  ignoreTags : List String := ["scraper:ignore", "no tocar"]
  locationId : Option Nat := some 77
deriving DecidableEq, Repr, Inhabited

/-! ## Batch loader -/

/-- Append a row to its handle group, preserving dict insertion order. -/
def upsert_row (acc : List (String × List Row)) (h : String) (r : Row) :
    List (String × List Row) :=
  match acc with
  | [] => [(h, [r])]
  | (k, rs) :: rest =>
    if k = h then (k, rs ++ [r]) :: rest else (k, rs) :: upsert_row rest h r

/-- `group_rows_by_handle`: group rows by stripped handle, dropping rows
whose handle strips to empty. -/
def group_rows_by_handle (rows : List Row) : List (String × List Row) :=
  rows.foldl
    (fun acc r =>
      let h := pystrip r.urlHandle
      if h = "" then acc else upsert_row acc h r)
    []

/-- `build_product_data_from_csv`. -/
def build_product_data_from_csv (rows : List Row) : CsvData :=
  let base := rows.headI
  { title := pystrip base.title
    bodyHtml := base.description
    imageUrl := pystrip base.productImageUrl
    optionName := if pystrip base.option1Name = "" then "Title" else pystrip base.option1Name
    variants := rows.map build_variant }
where
  /-- One CSV variant, shared shape between `build_product_data_from_csv`
  and `create_product_from_csv`. -/
  build_variant (r : Row) : CsvVariant :=
    { option1 := if pystrip r.option1Value = "" then "Default Title" else pystrip r.option1Value
      price := (clean_price r.price).getD "0.00"
      compareAtPrice := (clean_price r.compareAtPrice).getD ""
      sku := if pystrip r.sku ≠ "" then pystrip r.sku else ""
      barcode := normalize_barcode r.barcode
      inventoryQuantity := parse_inventory_quantity r.inventoryQuantity }

/-! ## Change classifier -/

/-- Structural normalisation of an option value: `strip().lower()`. -/
def norm_opt (s : String) : String := pylower (pystrip s)

/-- `compare_variants_structure`: `True` when the variant count differs or
the sorted, normalised option values differ.  SKU/barcode are deliberately
not structural. -/
def compare_variants_structure (shopifyVariants : List RVariant)
    (csvVariants : List CsvVariant) : Bool :=
  if shopifyVariants.length ≠ csvVariants.length then true
  else
    let so := py_sorted_str (shopifyVariants.map (fun v => norm_opt v.option1))
    let co := py_sorted_str (csvVariants.map (fun v => norm_opt v.option1))
    decide (so ≠ co)

/-- Stable sort of remote variants by `option1.lower()` (no strip — exactly
the sort key `compare_prices` / `compare_inventory` use). -/
def sort_rvariants (l : List RVariant) : List RVariant :=
  l.insertionSort (fun a b => StrLe (pylower a.option1) (pylower b.option1))

/-- Stable sort of CSV variants by `option1.lower()`. -/
def sort_cvariants (l : List CsvVariant) : List CsvVariant :=
  l.insertionSort (fun a b => StrLe (pylower a.option1) (pylower b.option1))

/-- `compare_prices`: pair by sorted lowercase option value; `True` when some
pair differs by strictly more than 0.01 in price or compare-at price. -/
def compare_prices (shopifyVariants : List RVariant)
    (csvVariants : List CsvVariant) : Bool :=
  if shopifyVariants.length ≠ csvVariants.length then true
  else
    ((sort_rvariants shopifyVariants).zip (sort_cvariants csvVariants)).any
      (fun pr =>
        abs_diff_gt_tol (to_float pr.1.price) (to_float pr.2.price) ||
        abs_diff_gt_tol (to_float pr.1.compareAtPrice) (to_float pr.2.compareAtPrice))

/-- `compare_inventory`: pair by sorted lowercase option value; `True` when
some pair's quantities differ. -/
def compare_inventory (shopifyVariants : List RVariant)
    (csvVariants : List CsvVariant) : Bool :=
  if shopifyVariants.length ≠ csvVariants.length then true
  else
    ((sort_rvariants shopifyVariants).zip (sort_cvariants csvVariants)).any
      (fun pr => pr.1.inventoryQuantity ≠ pr.2.inventoryQuantity)

/-- `_find_csv_variant`: first CSV variant whose stripped lowercase option
value matches. -/
def find_csv_variant (csvVariants : List CsvVariant) (option1 : String) :
    Option CsvVariant :=
  csvVariants.find? (fun v => norm_opt v.option1 = norm_opt option1)

/-- The fields `update_product_smart` decides to send for one variant pair
(`to_update` minus the `id`); `none` means the field is left untouched. -/
structure VariantUpdate where
  price : Option String := none
  compareAtPrice : Option String := none
  sku : Option String := none
  barcode : Option String := none
deriving DecidableEq, Repr

/-- Per-variant diff of `update_product_smart`: price / compare-at beyond
the 0.01 tolerance, SKU and barcode on exact string inequality.  `""`
models the `or None` the source sends to clear a field. -/
def variant_update_fields (sv : RVariant) (cv : CsvVariant) : VariantUpdate :=
  { price := if abs_diff_gt_tol (to_float sv.price) (to_float cv.price)
             then some cv.price else none
    compareAtPrice := if abs_diff_gt_tol (to_float sv.compareAtPrice) (to_float cv.compareAtPrice)
                      then some cv.compareAtPrice else none
    sku := if sv.sku ≠ cv.sku then some cv.sku else none
    barcode := if sv.barcode ≠ cv.barcode then some cv.barcode else none }

/-- Does this variant diff carry any field (so that a PUT is issued)? -/
def VariantUpdate.nonempty (u : VariantUpdate) : Bool :=
  u.price.isSome ∨ u.compareAtPrice.isSome ∨ u.sku.isSome ∨ u.barcode.isSome

/-- Does this diff set either price field (the `updates["precio"]` flag)? -/
def VariantUpdate.touches_price (u : VariantUpdate) : Bool :=
  u.price.isSome ∨ u.compareAtPrice.isSome

/-- Does this diff set SKU or barcode (the `updates["otros"]` flag)? -/
def VariantUpdate.touches_other (u : VariantUpdate) : Bool :=
  u.sku.isSome ∨ u.barcode.isSome

/-! ## Remote store semantics and call trace -/

/-- A mutating remote API call, as issued by the engine. -/
inductive MutCall
  | putHandle (pid : Nat) (handle : String)
  | postRedirect (oldHandle newHandle : String)
  | putTags (pid : Nat) (tags : String)
  | postProduct (pid : Nat)
  | deleteProduct (pid : Nat)
  | putVariant (vid : Nat) (u : VariantUpdate)
  | setInventoryLevel (locationId invItemId : Nat) (available : Int)
  | postImage (pid : Nat) (src : String)
  | deleteImage (pid : Nat) (iid : Nat)
  | putProduct (pid : Nat) (title bodyHtml : Option String)
deriving DecidableEq, Repr

/-- A (read-only) paginated listing request, with its `since_id` cursor and
the `status` filter parameter (the hybrid loader never sets one). -/
structure ReadCall where
  sinceId : Option Nat
  statusFilter : Option String
deriving DecidableEq, Repr

/-- `fetch_product`: lookup by product id. -/
def Store.fetch (s : Store) (pid : Nat) : Option RProduct :=
  s.products.find? (fun p => p.pid = pid)

/-- `delete_product`: remove by product id. -/
def Store.delete_pid (s : Store) (pid : Nat) : Store :=
  { s with products := s.products.filter (fun p => p.pid ≠ pid) }

/-- Lookup by handle (the platform's handle index). -/
def Store.find_by_handle (s : Store) (h : String) : Option RProduct :=
  s.products.find? (fun p => p.handle = h)

/-- Apply `f` to the product with the given id. -/
def Store.map_pid (s : Store) (pid : Nat) (f : RProduct → RProduct) : Store :=
  { s with products := s.products.map (fun p => if p.pid = pid then f p else p) }

/-- Apply `f` to the variant with the given variant id (a `PUT variants/id`). -/
def Store.map_variant (s : Store) (vid : Nat) (f : RVariant → RVariant) : Store :=
  { s with products := s.products.map (fun p =>
      { p with variants := p.variants.map (fun v => if v.vid = vid then f v else v) }) }

/-- Set the available quantity of the variant with the given inventory item
id (a `POST inventory_levels/set`). -/
def Store.set_inventory (s : Store) (invItemId : Nat) (qty : Int) : Store :=
  { s with products := s.products.map (fun p =>
      { p with variants := p.variants.map (fun v =>
          if v.inventoryItemId = invItemId then { v with inventoryQuantity := qty } else v) }) }

/-- Server effect of a variant `PUT`: overwrite exactly the sent fields. -/
def apply_variant_update (u : VariantUpdate) (v : RVariant) : RVariant :=
  { v with
    price := u.price.getD v.price
    compareAtPrice := u.compareAtPrice.getD v.compareAtPrice
    sku := u.sku.getD v.sku
    barcode := u.barcode.getD v.barcode }

/-- Server effect of `POST products/pid/images`: the new image takes
position 1, existing images shift back. -/
def Store.add_image (s : Store) (pid : Nat) (src : String) : Store :=
  { products := s.products.map (fun p =>
      if p.pid = pid then
        { p with images :=
            ⟨s.nextId, src, 1⟩ :: p.images.map (fun im => { im with position := im.position + 1 }) }
      else p)
    nextId := s.nextId + 1 }

/-- Server effect of `DELETE products/pid/images/iid`. -/
def Store.delete_image (s : Store) (pid : Nat) (iid : Nat) : Store :=
  { s with products := s.products.map (fun p =>
      if p.pid = pid then { p with images := p.images.filter (fun im => im.iid ≠ iid) } else p) }

/-! ## Existing-state cache -/

/-- The handle → product-id mapping (`_existing_products_cache`). -/
abbrev Cache := List (String × Nat)

/-- Dict lookup. -/
def cache_lookup (c : Cache) (h : String) : Option Nat :=
  (c.find? (fun e => e.1 = h)).map (fun e => e.2)

/-- Dict `setdefault`: insert only when absent. -/
def cache_insert_if_absent (c : Cache) (h : String) (pid : Nat) : Cache :=
  if (cache_lookup c h).isSome then c else c ++ [(h, pid)]

/-- Dict assignment: replace in place when present, else append. -/
def cache_set (c : Cache) (h : String) (pid : Nat) : Cache :=
  if (cache_lookup c h).isSome then
    c.map (fun e => if e.1 = h then (h, pid) else e)
  else c ++ [(h, pid)]

/-- Dict `pop(h, None)`. -/
def cache_pop (c : Cache) (h : String) : Cache :=
  c.filter (fun e => e.1 ≠ h)

/-- `_update_products_cache`: a no-op while the cache is unloaded. -/
def update_products_cache (c : Option Cache) (h : String) (pid? : Option Nat) :
    Option Cache :=
  match c with
  | none => none
  | some m => some (match pid? with
    | none => cache_pop m h
    | some pid => cache_set m h pid)

/-- The paginated full scan shared by `_load_existing_products_cache` and
`list_scraper_products`: pages of 250 in listing order; the loop stops after
a short page, an empty page, or a page whose last id is falsy. -/
def scan_pages (l : List RProduct) (sinceId : Option Nat) :
    List RProduct × List ReadCall :=
  go (l.length + 1) l sinceId
where
  /-- Fuel-driven so the kernel can evaluate it; each step consumes at least
  250 products, so `length + 1` fuel always suffices. -/
  go : Nat → List RProduct → Option Nat → List RProduct × List ReadCall
  | 0, _, _ => ([], [])
  | fuel + 1, l, sinceId =>
    let page := l.take 250
    let call : ReadCall := ⟨sinceId, none⟩
    if page = [] then ([], [call])
    else
      let lastId := (page.getLastI).pid
      if l.length < 250 ∨ lastId = 0 then (page, [call])
      else
        let r := go fuel (l.drop 250) (some lastId)
        (page ++ r.1, call :: r.2)

/-- One listed product's contribution to the cache being built: `setdefault`
under the source's truthiness guard. -/
def cache_build_step (acc : Cache) (p : RProduct) : Cache :=
  if p.handle ≠ "" ∧ p.pid ≠ 0 then cache_insert_if_absent acc p.handle p.pid else acc

/-- `_load_existing_products_cache`: build the handle → id map once (first
occurrence wins, entries need a truthy handle and id); later calls return
the cached map with no listing calls. -/
def load_existing_products_cache (s : Store) (c : Option Cache) :
    Cache × List ReadCall :=
  match c with
  | some m => (m, [])
  | none =>
    let scanned := scan_pages s.products none
    (scanned.1.foldl cache_build_step [], scanned.2)

/-- `find_existing_product_id`: `None` short-circuit on an empty handle,
otherwise a lookup in the (lazily loaded) cache. -/
def find_existing_product_id (s : Store) (c : Option Cache) (handle : String) :
    Option Nat × Option Cache × List ReadCall :=
  if handle = "" then (none, c, [])
  else
    let loaded := load_existing_products_cache s c
    (cache_lookup loaded.1 handle, some loaded.1, loaded.2)

/-- `find_product_by_barcode_or_sku`: the GraphQL secondary-key lookup,
barcode first, else SKU; returns the owning product's id and handle. -/
def find_product_by_barcode_or_sku (s : Store) (barcode sku : String) :
    Option (Nat × String) :=
  if barcode ≠ "" then
    (s.products.find? (fun p => p.variants.any (fun v => v.barcode = barcode))).map
      (fun p => (p.pid, p.handle))
  else if sku ≠ "" then
    (s.products.find? (fun p => p.variants.any (fun v => v.sku = sku))).map
      (fun p => (p.pid, p.handle))
  else none

/-! ## Image URL heuristics -/

/-- `_norm`: URL without query string, stripped and lowercased. -/
def norm_url (u : String) : String := pylower (pystrip ((py_split u "?").headI))

/-- The path component of a URL (fragment and query removed, scheme and
authority dropped), as `urlparse(u).path` yields on the pipeline's URLs. -/
def url_path (u : String) : String :=
  let noFrag := (py_split u "#").headI
  let noQuery := (py_split noFrag "?").headI
  if contains_sub noQuery "://" then
    let rest := py_join "://" ((py_split noQuery "://").drop 1)
    match py_split rest "/" with
    | [] => ""
    | [_] => ""
    | _ :: ps => "/" ++ py_join "/" ps
  else noQuery

/-- `_filename`: lowercased basename of the URL path. -/
def url_filename (u : String) : String :=
  pylower (py_split (url_path u) "/").getLastI

/-- `_is_placeholder`: the normalised URL contains one of the fixed
placeholder keywords. -/
def is_placeholder (url : String) : Bool :=
  let u := norm_url url
  ["no-image", "placeholder", "sin-imagen", "default"].any (fun x => contains_sub u x)

/-! ## Selective update (`update_product_smart`) -/

/-- The `updates` dict returned by `update_product_smart`. -/
structure Updates where
  precio : Bool := false
  stock : Bool := false
  imagen : Bool := false
  otros : Bool := false
deriving DecidableEq, Repr

/-- Accumulator of the per-variant update loop. -/
structure SmartAcc where
  store : Store
  muts : List MutCall
  precio : Bool := false
  otros : Bool := false

/-- One iteration of `update_product_smart`'s variant loop: find the CSV
variant pairing this remote variant (case-insensitively), and PUT exactly
the diffed fields, if any. -/
def smart_variant_step (d : CsvData) (a : SmartAcc) (sv : RVariant) : SmartAcc :=
  match find_csv_variant d.variants sv.option1 with
  | none => a
  | some cv =>
    let u := variant_update_fields sv cv
    { store := if u.nonempty then a.store.map_variant sv.vid (apply_variant_update u) else a.store
      muts := if u.nonempty then a.muts ++ [MutCall.putVariant sv.vid u] else a.muts
      precio := a.precio || u.touches_price
      otros := a.otros || u.touches_other }

/-- One iteration of `update_product_smart`'s inventory loop: set the
matched CSV quantity on this remote variant's inventory item. -/
def smart_inventory_step (loc : Nat) (d : CsvData) (b : Store × List MutCall)
    (sv : RVariant) : Store × List MutCall :=
  match find_csv_variant d.variants sv.option1 with
  | none => b
  | some cv =>
    if sv.inventoryItemId ≠ 0 then
      (b.1.set_inventory sv.inventoryItemId cv.inventoryQuantity,
       b.2 ++ [MutCall.setInventoryLevel loc sv.inventoryItemId cv.inventoryQuantity])
    else b

/-- Inventory phase of `update_product_smart`: when `compare_inventory`
reports a difference and a location is available, set every matched
variant's quantity. -/
def smart_inventory_phase (cfg : Config) (p : RProduct) (d : CsvData)
    (σ : Store) (muts : List MutCall) : Store × List MutCall × Bool :=
  if compare_inventory p.variants d.variants then
    match cfg.locationId with
    | none => (σ, muts, false)
    | some loc =>
      let r := p.variants.foldl (smart_inventory_step loc d) (σ, muts)
      (r.1, r.2, true)
  else (σ, muts, false)

/-- Image phase of `update_product_smart`: add the CSV image only when no
equivalent is already in the gallery, and only onto an empty gallery or over
a placeholder main image (which is then removed). -/
def smart_image_phase (skipImages : Bool) (productId : Nat) (p : RProduct)
    (d : CsvData) (σ : Store) (muts : List MutCall) : Store × List MutCall × Bool :=
  if skipImages then (σ, muts, false)
  else
    let csvImage := pystrip d.imageUrl
    if csvImage = "" then (σ, muts, false)
    else
      let csvName := url_filename csvImage
      let alreadyPresent := p.images.any (fun img =>
        norm_url csvImage = norm_url img.src ∨ csvName = url_filename img.src)
      if alreadyPresent then (σ, muts, false)
      else if p.images = [] then
        (Store.add_image σ productId csvImage,
         muts ++ [MutCall.postImage productId csvImage], true)
      else
        let mainImage := (p.images.find? (fun im => im.position = 1)).getD p.images.headI
        if is_placeholder mainImage.src then
          let sAdd := Store.add_image σ productId csvImage
          let mAdd := muts ++ [MutCall.postImage productId csvImage]
          if mainImage.iid ≠ 0 then
            (sAdd.delete_image productId mainImage.iid,
             mAdd ++ [MutCall.deleteImage productId mainImage.iid], true)
          else (sAdd, mAdd, true)
        else (σ, muts, false)

/-- Title/description phase of `update_product_smart`: one partial product
PUT when the title changed or an empty remote description can be filled. -/
def smart_title_phase (productId : Nat) (p : RProduct) (d : CsvData)
    (σ : Store) (muts : List MutCall) : Store × List MutCall × Bool :=
  let titleChanged : Bool := decide (p.title ≠ d.title)
  let descFill : Bool := is_description_empty p.bodyHtml && !is_description_empty d.bodyHtml
  if titleChanged || descFill then
    (Store.map_pid σ productId (fun q =>
       { q with
         title := if titleChanged then d.title else q.title
         bodyHtml := if descFill then d.bodyHtml else q.bodyHtml }),
     muts ++ [MutCall.putProduct productId
       (if titleChanged then some d.title else none)
       (if descFill then some d.bodyHtml else none)],
     true)
  else (σ, muts, false)

/-- `update_product_smart`: apply only the diffed fields of the fetched
snapshot `p` against the CSV data `d` — per-variant price/compare-at/SKU/
barcode PUTs, one inventory-set per matched variant when quantities differ,
the image add/placeholder-swap heuristic, and a single partial product PUT
for title / description fill-in.  Returns the `updates` flags, the new
store, and the mutating calls issued. -/
def update_product_smart (cfg : Config) (s : Store) (productId : Nat)
    (p : RProduct) (d : CsvData) (skipImages : Bool) :
    Updates × Store × List MutCall :=
  let acc1 := p.variants.foldl (smart_variant_step d) { store := s, muts := [] }
  let r2 := smart_inventory_phase cfg p d acc1.store acc1.muts
  let r3 := smart_image_phase skipImages productId p d r2.1 r2.2.1
  let r4 := smart_title_phase productId p d r3.1 r3.2.1
  ({ precio := acc1.precio
     stock := r2.2.2
     imagen := r3.2.2
     otros := acc1.otros || r4.2.2 },
   r4.1, r4.2.1)

/-! ## Creation (`create_product_from_csv`) -/

/-- `create_product_from_csv`: build the product payload (deduplicated
sorted tags always including the scraper tag, status active only on an
explicit `active`, one variant per row), POST it (the platform assigns
fresh ids from `nextId`), then attach the image unless skipped.  Returns
the new product id. -/
def create_product_from_csv (cfg : Config) (s : Store) (rows : List Row)
    (skipImages : Bool) : Nat × Store × List MutCall :=
  let base := rows.headI
  let n := rows.length
  let pid := s.nextId
  let variants : List RVariant := rows.enum.map (fun ir =>
    let cv := build_product_data_from_csv.build_variant ir.2
    { vid := s.nextId + 1 + 2 * ir.1
      option1 := cv.option1
      price := cv.price
      compareAtPrice := cv.compareAtPrice
      sku := cv.sku
      barcode := cv.barcode
      inventoryQuantity := cv.inventoryQuantity
      inventoryItemId := s.nextId + 2 + 2 * ir.1 })
  let tagsStr := py_join ", "
    (py_sorted_str ((split_tags base.tags ++ [cfg.scraperTag]).dedup))
  let status := if pylower (pystrip base.status) = "active" then "active" else "draft"
  let product : RProduct :=
    { pid := pid
      handle := base.urlHandle
      title := pystrip base.title
      bodyHtml := base.description
      vendor := base.vendor
      ptype := base.ptype
      tags := tagsStr
      status := status
      variants := variants
      images := [] }
  let s1 : Store := { products := s.products ++ [product], nextId := s.nextId + 2 * n + 2 }
  let imgUrl := pystrip base.productImageUrl
  if skipImages = false ∧ imgUrl ≠ "" ∧ pid ≠ 0 then
    (pid, Store.add_image s1 pid imgUrl, [MutCall.postProduct pid, MutCall.postImage pid imgUrl])
  else
    (pid, s1, [MutCall.postProduct pid])

/-! ## Pruner -/

/-- One entry of `list_scraper_products`. -/
structure ScraperMeta where
  handle : String
  pid : Nat
  tags : List String
  status : String
deriving DecidableEq, Repr

/-- Dict assignment preserving the original insertion position. -/
def upsert_meta (acc : List ScraperMeta) (m : ScraperMeta) : List ScraperMeta :=
  match acc with
  | [] => [m]
  | x :: rest => if x.handle = m.handle then m :: rest else x :: upsert_meta rest m

/-- The scraper-product metadata of one listed product. -/
def scraper_meta_of (p : RProduct) : ScraperMeta :=
  ⟨p.handle, p.pid, split_tags p.tags, pylower p.status⟩

/-- One iteration of the `list_scraper_products` loop. -/
def scraper_step (cfg : Config) (acc : List ScraperMeta) (p : RProduct) :
    List ScraperMeta :=
  if p.handle = "" then acc
  else if cfg.scraperTag ∈ split_tags p.tags then upsert_meta acc (scraper_meta_of p)
  else acc

/-- `list_scraper_products`: handle → (id, tags, lowercased status) for
products carrying the scraper tag, via the full paginated scan. -/
def list_scraper_products (cfg : Config) (s : Store) : List ScraperMeta :=
  (scan_pages s.products none).1.foldl (scraper_step cfg) []

/-- The pruner's per-product keep/delete decision, exactly in source order:
keep current handles, keep archived, keep ignore-tagged or keep-draft-tagged
ones; everything else is deleted. -/
def prune_candidate (cfg : Config) (currentHandles : List String) (m : ScraperMeta) : Bool :=
  decide (m.handle ∉ currentHandles ∧ m.status ≠ "archived" ∧
    ¬(has_ignore_tag cfg.ignoreTags m.tags = true ∨ cfg.keepDraftTag ∈ m.tags))

/-- One deletion of the pruner's loop: delete the product, invalidate its
cache entry, count it. -/
def prune_delete_step (a : Nat × Store × Option Cache × List MutCall)
    (m : ScraperMeta) : Nat × Store × Option Cache × List MutCall :=
  (a.1 + 1, Store.delete_pid a.2.1 m.pid,
   update_products_cache a.2.2.1 m.handle none,
   a.2.2.2 ++ [MutCall.deleteProduct m.pid])

/-- `prune_missing_scraper_products`: dry-run deletes nothing; otherwise
delete every candidate, keeping the cache in sync.  Returns the deleted
count. -/
def prune_missing_scraper_products (cfg : Config) (s : Store) (c : Option Cache)
    (currentHandles : List String) (dryRun : Bool) :
    Nat × Store × Option Cache × List MutCall :=
  if dryRun then (0, s, c, [])
  else
    let toDelete := (list_scraper_products cfg s).filter (prune_candidate cfg currentHandles)
    toDelete.foldl prune_delete_step (0, s, c, [])

/-! ## Reconciler (`process_csv_hybrid`) -/

/-- The points at which the failure oracle can inject a
`ShopifyUploaderError` that the per-group `try/except` boundaries observe. -/
inductive FailPoint
  | during_create
  | during_fetch
  | during_recreate_delete
  | during_recreate_create
  | during_update
deriving DecidableEq, Repr

/-- CLI options relevant to the engine. -/
structure Opts where
  dryRun : Bool := false
  skipImages : Bool := false
deriving DecidableEq, Repr

/-- The run summary counters. -/
structure Summary where
  created : Nat := 0
  recreated : Nat := 0
  updated : Nat := 0
  skipped : Nat := 0
  pruned : Nat := 0
  updated_precio : Nat := 0
  updated_stock : Nat := 0
  updated_imagen : Nat := 0
deriving DecidableEq, Repr

/-- Pointwise sum of summaries. -/
def Summary.add (a b : Summary) : Summary :=
  { created := a.created + b.created
    recreated := a.recreated + b.recreated
    updated := a.updated + b.updated
    skipped := a.skipped + b.skipped
    pruned := a.pruned + b.pruned
    updated_precio := a.updated_precio + b.updated_precio
    updated_stock := a.updated_stock + b.updated_stock
    updated_imagen := a.updated_imagen + b.updated_imagen }

/-- Reconciler state: the remote store plus the lazily loaded cache. -/
structure PState where
  store : Store
  cache : Option Cache
deriving DecidableEq, Repr

/-- What processing one group produced: the summary increments the source
performs in that branch, the mutating calls, the handle recorded into the
processed set, and whether a remote error was (injected and) caught. -/
structure GroupResult where
  delta : Summary
  muts : List MutCall
  handleDone : String
  failed : Bool := false
deriving DecidableEq, Repr

/-- Rows for a draft-protected recreation: force status draft and append the
keep-draft tag (no dedup — the source appends to the raw list). -/
def draft_rows (cfg : Config) (rows : List Row) : List Row :=
  match rows with
  | [] => []
  | r :: rest =>
    let tagList := ((py_split r.tags ",").map pystrip).filter (fun t => t ≠ "")
    let tagList := if cfg.keepDraftTag ∈ tagList then tagList else tagList ++ [cfg.keepDraftTag]
    { r with status := "draft", tags := py_join ", " tagList } :: rest

/-- Carry the existing remote description into the rows used for recreation. -/
def set_head_description (rows : List Row) (desc : String) : List Row :=
  match rows with
  | [] => []
  | r :: rest => { r with description := desc } :: rest

/-- Result of the IDENTIFY phase: secondary-key lookup first (with handle
rename propagation and 422-collision fallback), then handle lookup through
the existing-state cache. -/
structure IdentifyResult where
  existingId : Option Nat
  handle : String
  state : PState
  muts : List MutCall

/-- IDENTIFY: resolve by barcode, then SKU, then handle.  When the
secondary-key match lives under a different handle, rename it remotely and
record a redirect; on a handle collision (the platform rejects the rename
with a 422) fall back to keeping the old handle. -/
def identify_phase (st : PState) (handle : String)
    (rows : List Row) : IdentifyResult :=
  let base := rows.headI
  let keyBarcode := normalize_barcode base.barcode
  let keySku := pystrip base.sku
  let foundByEan :=
    if keyBarcode ≠ "" ∨ keySku ≠ "" then
      find_product_by_barcode_or_sku st.store keyBarcode keySku
    else none
  match foundByEan with
  | some pr =>
    let pid := pr.1
    let oldHandle := pr.2
    if oldHandle ≠ "" ∧ oldHandle ≠ handle then
      if st.store.products.any (fun q => q.handle = handle ∧ q.pid ≠ pid) then
        { existingId := some pid, handle := oldHandle, state := st, muts := [] }
      else
        { existingId := some pid
          handle := handle
          state :=
            { store := Store.map_pid st.store pid (fun p => { p with handle := handle })
              cache := update_products_cache
                (update_products_cache st.cache oldHandle none) handle (some pid) }
          muts := [MutCall.putHandle pid handle, MutCall.postRedirect oldHandle handle] }
    else { existingId := some pid, handle := handle, state := st, muts := [] }
  | none =>
    let r := find_existing_product_id st.store st.cache handle
    { existingId := r.1, handle := handle
      state := { store := st.store, cache := r.2.1 }, muts := [] }

/-- Process one local group: the IDENTIFY / PROTECT-CHECK / CLASSIFY /
EXECUTE state machine of the source's per-group loop body, with the
failure oracle standing in for `ShopifyUploaderError`s raised by remote
calls and caught at the per-group boundaries. -/
def process_group (cfg : Config) (opts : Opts) (oracle : String → Option FailPoint)
    (st0 : PState) (g : String × List Row) : PState × GroupResult :=
  let origHandle := g.1
  let rows := g.2
  if opts.dryRun then
    (st0, { delta := { skipped := 1 }, muts := [], handleDone := origHandle })
  else
    let d := build_product_data_from_csv rows
    let idr := identify_phase st0 origHandle rows
    let handle := idr.handle
    let st1 := idr.state
    match idr.existingId with
    | none =>
      match oracle origHandle with
      | some FailPoint.during_create =>
        (st1, { delta := { skipped := 1 }, muts := idr.muts, handleDone := handle, failed := true })
      | _ =>
        let cr := create_product_from_csv cfg st1.store rows opts.skipImages
        ({ store := cr.2.1, cache := update_products_cache st1.cache handle (some cr.1) },
         { delta := { created := 1 }, muts := idr.muts ++ cr.2.2, handleDone := handle })
    | some pid =>
      match oracle origHandle with
      | some FailPoint.during_fetch =>
        (st1, { delta := { skipped := 1 }, muts := idr.muts, handleDone := handle, failed := true })
      | _ =>
        match Store.fetch st1.store pid with
        | none =>
          (st1, { delta := { skipped := 1 }, muts := idr.muts, handleDone := handle, failed := true })
        | some p =>
          let existingTags := split_tags p.tags
          if has_ignore_tag cfg.ignoreTags existingTags then
            (st1, { delta := { skipped := 1 }, muts := idr.muts, handleDone := handle })
          else
            let existingStatus := pylower p.status
            if existingStatus = "archived" then
              (st1, { delta := { skipped := 1 }, muts := idr.muts, handleDone := handle })
            else
              let tagStep :=
                if (existingStatus = "draft" ∨ cfg.keepDraftTag ∈ existingTags) ∧
                    cfg.keepDraftTag ∉ existingTags then
                  let newTags := py_join ", "
                    (py_sorted_str ((existingTags ++ [cfg.keepDraftTag]).dedup))
                  (({ store := Store.map_pid st1.store pid (fun q => { q with tags := newTags })
                      cache := st1.cache } : PState),
                   [MutCall.putTags pid newTags])
                else (st1, ([] : List MutCall))
              let st2 := tagStep.1
              let tagMuts := tagStep.2
              if compare_variants_structure p.variants d.variants then
                let forceDraft := existingStatus = "draft" ∨ cfg.keepDraftTag ∈ existingTags
                match oracle origHandle with
                | some FailPoint.during_recreate_delete =>
                  (st2, { delta := { skipped := 1 }, muts := idr.muts ++ tagMuts,
                          handleDone := handle, failed := true })
                | some FailPoint.during_recreate_create =>
                  ({ store := Store.delete_pid st2.store pid
                     cache := update_products_cache st2.cache handle none },
                   { delta := { skipped := 1 }
                     muts := idr.muts ++ tagMuts ++ [MutCall.deleteProduct pid]
                     handleDone := handle, failed := true })
                | _ =>
                  let stDel : PState :=
                    { store := Store.delete_pid st2.store pid
                      cache := update_products_cache st2.cache handle none }
                  let rows1 := if forceDraft then draft_rows cfg rows else rows
                  let rows2 :=
                    if p.bodyHtml ≠ "" ∧ is_description_empty p.bodyHtml = false then
                      set_head_description rows1 p.bodyHtml
                    else rows1
                  let cr := create_product_from_csv cfg stDel.store rows2 opts.skipImages
                  ({ store := cr.2.1, cache := update_products_cache stDel.cache handle (some cr.1) },
                   { delta := { recreated := 1 }
                     muts := idr.muts ++ tagMuts ++ [MutCall.deleteProduct pid] ++ cr.2.2
                     handleDone := handle })
              else
                match oracle origHandle with
                | some FailPoint.during_update =>
                  (st2, { delta := { skipped := 1 }, muts := idr.muts ++ tagMuts,
                          handleDone := handle, failed := true })
                | _ =>
                  let up := update_product_smart cfg st2.store pid p d opts.skipImages
                  let u := up.1
                  let delta : Summary :=
                    if u.precio || u.stock || u.imagen || u.otros then
                      { updated := 1
                        updated_precio := if u.precio then 1 else 0
                        updated_stock := if u.stock then 1 else 0
                        updated_imagen := if u.imagen then 1 else 0 }
                    else { skipped := 1 }
                  ({ store := up.2.1, cache := st2.cache },
                   { delta := delta, muts := idr.muts ++ tagMuts ++ up.2.2, handleDone := handle })

/-- Result of processing one CSV (or a whole run's worth of groups). -/
structure CsvResult where
  state : PState
  summary : Summary := {}
  processedHandles : List String := []
  muts : List MutCall := []
  results : List GroupResult := []
deriving Repr

/-- Sequentially process a list of groups, accumulating summary, processed
handles, mutation trace and per-group results. -/
def process_groups (cfg : Config) (opts : Opts) (oracle : String → Option FailPoint) :
    PState → List (String × List Row) → CsvResult
  | st, [] => { state := st }
  | st, g :: gs =>
    let r := process_group cfg opts oracle st g
    let rest := process_groups cfg opts oracle r.1 gs
    { state := rest.state
      summary := Summary.add r.2.delta rest.summary
      processedHandles := r.2.handleDone :: rest.processedHandles
      muts := r.2.muts ++ rest.muts
      results := r.2 :: rest.results }

/-- `process_csv_hybrid`: group the rows by handle and process each group. -/
def process_csv_hybrid (cfg : Config) (opts : Opts) (oracle : String → Option FailPoint)
    (st : PState) (rows : List Row) : CsvResult :=
  process_groups cfg opts oracle st (group_rows_by_handle rows)

/-- Result of a full `run`. -/
structure RunResult where
  summary : Summary
  store : Store
  muts : List MutCall
  processed : List String
deriving Repr

/-- The per-file loop of `run`: thread the process-wide state through every
CSV file, accumulating summaries, processed handles and the call trace. -/
def run_files (cfg : Config) (opts : Opts) (oracle : String → Option FailPoint) :
    PState → List (List Row) → PState × Summary × List String × List MutCall
  | st, [] => (st, {}, [], [])
  | st, rows :: rest =>
    let cr := process_csv_hybrid cfg opts oracle st rows
    let r := run_files cfg opts oracle cr.state rest
    (r.1, Summary.add cr.summary r.2.1, cr.processedHandles ++ r.2.2.1, cr.muts ++ r.2.2.2)

/-- `run`: process every CSV file in order against one process-wide cache,
then prune the scraper-managed products absent from the union of processed
handles — unless pruning is disabled or nothing was processed. -/
def run (cfg : Config) (opts : Opts) (oracle : String → Option FailPoint)
    (disablePrune : Bool) (files : List (List Row)) (s0 : Store) : RunResult :=
  if files = [] then { summary := {}, store := s0, muts := [], processed := [] }
  else
    let folded := run_files cfg opts oracle { store := s0, cache := none } files
    let stF := folded.1
    let sumF := folded.2.1
    let handles := folded.2.2.1
    let muts := folded.2.2.2
    if disablePrune = false ∧ handles ≠ [] then
      let pr := prune_missing_scraper_products cfg stF.store stF.cache handles opts.dryRun
      { summary := { sumF with pruned := pr.1 }
        store := pr.2.1
        muts := muts ++ pr.2.2.2
        processed := handles }
    else
      { summary := sumF, store := stF.store, muts := muts, processed := handles }

/-! ## General lemmas about the engine -/

/-- The number of per-group outcomes a summary counts. -/
def Summary.outcomes (s : Summary) : Nat :=
  s.created + s.recreated + s.updated + s.skipped

theorem Summary.outcomes_add (a b : Summary) :
    (a.add b).outcomes = a.outcomes + b.outcomes := by
  simp [Summary.outcomes, Summary.add]; omega

/-- Every branch of the per-group state machine increments exactly one of
the four outcome counters. -/
theorem process_group_outcomes (cfg : Config) (opts : Opts)
    (oracle : String → Option FailPoint) (st : PState) (g : String × List Row) :
    (process_group cfg opts oracle st g).2.delta.outcomes = 1 := by
  unfold process_group
  dsimp only
  repeat' split
  all_goals rfl

/-- A group whose injected remote failure was caught is counted as one SKIP
and nothing else. -/
theorem process_group_failed_skip (cfg : Config) (opts : Opts)
    (oracle : String → Option FailPoint) (st : PState) (g : String × List Row)
    (h : (process_group cfg opts oracle st g).2.failed = true) :
    (process_group cfg opts oracle st g).2.delta = { skipped := 1 } := by
  revert h
  unfold process_group
  dsimp only
  repeat' split
  all_goals intro h
  all_goals first
    | rfl
    | exact Bool.noConfusion h

theorem process_groups_results_length (cfg : Config) (opts : Opts)
    (oracle : String → Option FailPoint) (st : PState) (gs : List (String × List Row)) :
    (process_groups cfg opts oracle st gs).results.length = gs.length := by
  induction gs generalizing st with
  | nil => rfl
  | cons g gs ih => simp [process_groups, ih]

theorem process_groups_processed_map (cfg : Config) (opts : Opts)
    (oracle : String → Option FailPoint) (st : PState) (gs : List (String × List Row)) :
    (process_groups cfg opts oracle st gs).processedHandles
      = (process_groups cfg opts oracle st gs).results.map GroupResult.handleDone := by
  induction gs generalizing st with
  | nil => rfl
  | cons g gs ih => simp [process_groups, ih]

theorem process_groups_outcomes (cfg : Config) (opts : Opts)
    (oracle : String → Option FailPoint) (st : PState) (gs : List (String × List Row)) :
    (process_groups cfg opts oracle st gs).summary.outcomes = gs.length := by
  induction gs generalizing st with
  | nil => rfl
  | cons g gs ih =>
    simp [process_groups, Summary.outcomes_add, ih,
      process_group_outcomes cfg opts oracle st g]
    omega

theorem process_groups_results_mem (cfg : Config) (opts : Opts)
    (oracle : String → Option FailPoint) (st : PState) (gs : List (String × List Row))
    (r : GroupResult) (hr : r ∈ (process_groups cfg opts oracle st gs).results) :
    ∃ st1 g, g ∈ gs ∧ r = (process_group cfg opts oracle st1 g).2 := by
  induction gs generalizing st with
  | nil => simp [process_groups] at hr
  | cons g gs ih =>
    simp only [process_groups, List.mem_cons] at hr
    rcases hr with h | h
    · exact ⟨st, g, by simp, h⟩
    · obtain ⟨st1, g1, hg1, he⟩ := ih _ h
      exact ⟨st1, g1, by simp [hg1], he⟩

/-- A run that records no processed handle did nothing at all: every file
grouped to nothing, so no state change, no calls, empty summary. -/
theorem run_files_no_handles (cfg : Config) (opts : Opts)
    (oracle : String → Option FailPoint) (st : PState) (files : List (List Row))
    (h : (run_files cfg opts oracle st files).2.2.1 = []) :
    run_files cfg opts oracle st files = (st, {}, [], []) := by
  induction files generalizing st with
  | nil => rfl
  | cons rows rest ih =>
    simp only [run_files] at h ⊢
    rcases List.append_eq_nil.mp h with ⟨h1, h2⟩
    have hempty : group_rows_by_handle rows = [] := by
      have hlen : (process_csv_hybrid cfg opts oracle st rows).processedHandles.length
          = (group_rows_by_handle rows).length := by
        rw [process_csv_hybrid, process_groups_processed_map, List.length_map,
          process_groups_results_length]
      rw [h1] at hlen
      exact List.length_eq_zero.mp hlen.symm
    have hcr : process_csv_hybrid cfg opts oracle st rows = { state := st } := by
      rw [process_csv_hybrid, hempty]; rfl
    rw [hcr] at h2 ⊢
    rw [ih st h2]
    rfl

/-! ## Claim theorems -/

/-- C1: for every local product group, the per-group state machine
increments exactly one of the four outcome counters
created/recreated/updated/skipped (a per-group failure counts as SKIP), so
classification is total and mutually exclusive; over a whole CSV the four
counters sum to the number of groups and every group records exactly one
handle into the processed set. -/
theorem claim_c1_classification_total_and_exclusive :
    (∀ cfg opts oracle st g,
      (process_group cfg opts oracle st g).2.delta.outcomes = 1) ∧
    (∀ cfg opts oracle st rows,
      (process_csv_hybrid cfg opts oracle st rows).summary.outcomes
          = (group_rows_by_handle rows).length ∧
      (process_csv_hybrid cfg opts oracle st rows).processedHandles.length
          = (group_rows_by_handle rows).length) := by
  refine ⟨process_group_outcomes, fun cfg opts oracle st rows => ⟨?_, ?_⟩⟩
  · exact process_groups_outcomes cfg opts oracle st _
  · rw [process_csv_hybrid, process_groups_processed_map, List.length_map]
    exact process_groups_results_length cfg opts oracle st _

/-- C9: a Remote Client error raised while executing one group's action is
caught at the per-group boundary and counted as exactly one SKIP, and no
matter which groups fail, every group of the batch is still processed (one
result and one processed handle per group). -/
theorem claim_c9_group_isolation :
    (∀ cfg opts oracle st g,
      (process_group cfg opts oracle st g).2.failed = true →
      (process_group cfg opts oracle st g).2.delta = { skipped := 1 }) ∧
    (∀ cfg opts oracle st rows,
      (process_csv_hybrid cfg opts oracle st rows).results.length
          = (group_rows_by_handle rows).length ∧
      ∀ r ∈ (process_csv_hybrid cfg opts oracle st rows).results,
        r.failed = true → r.delta = { skipped := 1 }) := by
  refine ⟨process_group_failed_skip, fun cfg opts oracle st rows =>
    ⟨process_groups_results_length cfg opts oracle st _, fun r hr hf => ?_⟩⟩
  obtain ⟨st1, g, _, he⟩ := process_groups_results_mem cfg opts oracle st _ r hr
  subst he
  exact process_group_failed_skip cfg opts oracle st1 g hf

/-- Witness for C9: a concrete group whose create call is made to fail is
counted as a SKIP. -/
theorem claim_c9_witness :
    (process_group { } { } (fun _ => some FailPoint.during_create)
      { store := { products := [], nextId := 1 }, cache := none }
      ("pala-x", [{ urlHandle := "pala-x", title := "Pala X" }])).2.delta
      = { skipped := 1 } :=
  claim_c9_group_isolation.1 _ _ _ _ _ (by decide)

/-- C10: when a run ends with an empty processed-handle set (no CSV files,
or no row carried a handle), the pruner is never invoked — in fact the run
makes no remote call at all, leaves the store untouched, and reports an
all-zero summary (in particular `pruned = 0`) — regardless of the
disable-prune flag. -/
theorem claim_c10_empty_processed_no_prune (cfg : Config) (opts : Opts)
    (oracle : String → Option FailPoint) (disablePrune : Bool)
    (files : List (List Row)) (s0 : Store)
    (h : (Hybrid.run cfg opts oracle disablePrune files s0).processed = []) :
    (Hybrid.run cfg opts oracle disablePrune files s0).summary = { } ∧
    (Hybrid.run cfg opts oracle disablePrune files s0).muts = [] ∧
    (Hybrid.run cfg opts oracle disablePrune files s0).store = s0 := by
  unfold Hybrid.run at h ⊢
  by_cases hf : files = []
  · simp [hf]
  · simp only [if_neg hf] at h ⊢
    split at h
    next hcond =>
      simp only [RunResult.processed] at h
      exact absurd h hcond.2
    next hcond =>
      simp only [RunResult.processed] at h
      have hrf := run_files_no_handles cfg opts oracle
        { store := s0, cache := none } files h
      split
      · next hcond2 => exact absurd hcond2 hcond
      · simp [hrf]

/-! ### The paginated scan and the pruner (C5, C8) -/

/-- The improper last element of a non-empty list is a member. -/
theorem getLastI_mem {α : Type} [Inhabited α] (l : List α) (h : l ≠ []) :
    l.getLastI ∈ l := by
  rw [List.getLastI_eq_getLast?, List.getLast?_eq_getLast l h]
  exact List.getLast_mem h

/-- With enough fuel and no falsy product id, the paginated scan returns the
whole listing. -/
theorem scan_go_full (fuel : Nat) :
    ∀ (l : List RProduct) (sinceId : Option Nat), l.length < fuel →
    (∀ p ∈ l, p.pid ≠ 0) → (scan_pages.go fuel l sinceId).1 = l := by
  induction fuel with
  | zero => intro l _ h _; omega
  | succ fuel ih =>
    intro l sinceId hlen hnz
    rw [scan_pages.go]
    dsimp only
    split
    · next hpage =>
      have : l = [] := by
        cases l with
        | nil => rfl
        | cons a as => simp [List.take_succ_cons] at hpage
      simp [this]
    · next hpage =>
      split
      · next hcond =>
        rcases hcond with hshort | hzero
        · exact List.take_of_length_le (by omega)
        · exact absurd hzero
            (hnz _ (List.mem_of_mem_take (getLastI_mem (l.take 250) hpage)))
      · next hcond =>
        have hge : 250 ≤ l.length := by
          by_contra hlt
          exact hcond (Or.inl (by omega))
        have hih := ih (l.drop 250) (some (l.take 250).getLastI.pid) (by
          rw [List.length_drop]; omega) (fun p hp => hnz p (List.mem_of_mem_drop hp))
        dsimp only
        rw [hih]
        exact List.take_append_drop 250 l

/-- The full scan with the store's real listing. -/
theorem scan_pages_full (l : List RProduct) (hnz : ∀ p ∈ l, p.pid ≠ 0) :
    (scan_pages l none).1 = l :=
  scan_go_full (l.length + 1) l none (by omega) hnz

/-- Upserting a fresh handle appends. -/
theorem upsert_meta_append (acc : List ScraperMeta) (m : ScraperMeta)
    (h : ∀ x ∈ acc, x.handle ≠ m.handle) : upsert_meta acc m = acc ++ [m] := by
  induction acc with
  | nil => rfl
  | cons x rest ih =>
    rw [upsert_meta, if_neg (h x (by simp))]
    rw [ih (fun y hy => h y (by simp [hy]))]
    rfl

/-- With pairwise-distinct handles, the scraper listing is the filtered,
projected product list. -/
theorem scraper_fold_eq (cfg : Config) (ps : List RProduct) (acc : List ScraperMeta)
    (hdisj : ∀ m ∈ acc, ∀ p ∈ ps, p.handle ≠ m.handle)
    (hnodup : (ps.map RProduct.handle).Nodup) :
    ps.foldl (scraper_step cfg) acc
      = acc ++ (ps.filter (fun p =>
          decide (p.handle ≠ "" ∧ cfg.scraperTag ∈ split_tags p.tags))).map scraper_meta_of := by
  induction ps generalizing acc with
  | nil => simp
  | cons p ps ih =>
    rw [List.map_cons, List.nodup_cons] at hnodup
    by_cases h1 : p.handle = ""
    · rw [List.foldl_cons]
      rw [show scraper_step cfg acc p = acc from by rw [scraper_step, if_pos h1]]
      rw [ih acc (fun m hm q hq => hdisj m hm q (by simp [hq])) hnodup.2]
      simp [h1]
    · by_cases h2 : cfg.scraperTag ∈ split_tags p.tags
      · rw [List.foldl_cons]
        rw [show scraper_step cfg acc p = acc ++ [scraper_meta_of p] from by
          rw [scraper_step, if_neg h1, if_pos h2]
          exact upsert_meta_append acc (scraper_meta_of p)
            (fun x hx => (hdisj x hx p (by simp)).symm)]
        rw [ih (acc ++ [scraper_meta_of p]) ?_ hnodup.2]
        · simp [List.filter_cons, h1, h2]
        · intro m hm q hq
          rcases List.mem_append.mp hm with hmem | hmem
          · exact hdisj m hmem q (by simp [hq])
          · have hme : m = scraper_meta_of p := by simpa using hmem
            subst hme
            intro hqh
            apply hnodup.1
            have hq' : q.handle ∈ List.map RProduct.handle ps :=
              List.mem_map_of_mem RProduct.handle hq
            have hpq : p.handle = q.handle := by
              simpa [scraper_meta_of] using hqh.symm
            rw [hpq]
            exact hq'
      · rw [List.foldl_cons]
        rw [show scraper_step cfg acc p = acc from by rw [scraper_step, if_neg h1, if_neg h2]]
        rw [ih acc (fun m hm q hq => hdisj m hm q (by simp [hq])) hnodup.2]
        simp [List.filter_cons, h2]

/-- `list_scraper_products` on a well-formed store. -/
theorem list_scraper_products_eq (cfg : Config) (s : Store)
    (hnz : ∀ p ∈ s.products, p.pid ≠ 0)
    (hnodup : (s.products.map RProduct.handle).Nodup) :
    list_scraper_products cfg s
      = (s.products.filter (fun p =>
          decide (p.handle ≠ "" ∧ cfg.scraperTag ∈ split_tags p.tags))).map scraper_meta_of := by
  rw [list_scraper_products, scan_pages_full s.products hnz]
  exact scraper_fold_eq cfg s.products [] (by simp) hnodup

/-- The deletion loop's store: everything whose id is not among the deleted
ones. -/
theorem prune_fold_products (ms : List ScraperMeta)
    (a : Nat × Store × Option Cache × List MutCall) (p : RProduct) :
    (p ∈ (ms.foldl prune_delete_step a).2.1.products ↔
      p ∈ a.2.1.products ∧ p.pid ∉ ms.map ScraperMeta.pid) := by
  induction ms generalizing a with
  | nil => simp
  | cons m ms ih =>
    rw [List.foldl_cons, ih]
    simp only [prune_delete_step, Store.delete_pid, List.mem_filter, List.map_cons,
      List.mem_cons]
    constructor
    · rintro ⟨⟨hmem, hne⟩, hnin⟩
      exact ⟨hmem, by
        intro h
        rcases h with h | h
        · exact absurd (decide_eq_true h) (by simpa using hne)
        · exact hnin h⟩
    · rintro ⟨hmem, hnin⟩
      refine ⟨⟨hmem, ?_⟩, fun h => hnin (Or.inr h)⟩
      simp only [decide_eq_true_eq]
      exact fun h => hnin (Or.inl h)

/-- The deletion loop's count and call trace. -/
theorem prune_fold_count_muts (ms : List ScraperMeta)
    (a : Nat × Store × Option Cache × List MutCall) :
    (ms.foldl prune_delete_step a).1 = a.1 + ms.length ∧
    (ms.foldl prune_delete_step a).2.2.2
      = a.2.2.2 ++ ms.map (fun m => MutCall.deleteProduct m.pid) := by
  induction ms generalizing a with
  | nil => simp
  | cons m ms ih =>
    rw [List.foldl_cons]
    obtain ⟨h1, h2⟩ := ih (prune_delete_step a m)
    constructor
    · rw [h1]; simp [prune_delete_step]; omega
    · rw [h2]; simp [prune_delete_step]

/-- C5 (amended): the live pruner deletes exactly those remote products
that carry the scraper-identity tag (and a non-empty handle), whose handle
is absent from the run's processed-handle set, and that are not archived,
not ignore-flagged and do not carry the keep-draft tag.  The claim as
frozen also protects products that are merely in status draft; the code
checks only the keep-draft tag, so an untagged draft is deleted — see the
counterexample. -/
theorem claim_c5_prune_exactness (cfg : Config) (s : Store) (c : Option Cache)
    (current : List String) (p : RProduct)
    (hnz : ∀ q ∈ s.products, q.pid ≠ 0)
    (hnodupH : (s.products.map RProduct.handle).Nodup)
    (hnodupP : (s.products.map RProduct.pid).Nodup)
    (hmem : p ∈ s.products) :
    (p ∉ (prune_missing_scraper_products cfg s c current false).2.1.products ↔
      (cfg.scraperTag ∈ split_tags p.tags ∧ p.handle ≠ "" ∧ p.handle ∉ current ∧
       pylower p.status ≠ "archived" ∧
       ¬(has_ignore_tag cfg.ignoreTags (split_tags p.tags) = true ∨
         cfg.keepDraftTag ∈ split_tags p.tags))) := by
  have hm := list_scraper_products_eq cfg s hnz hnodupH
  dsimp only [prune_missing_scraper_products]
  rw [if_neg (by simp)]
  rw [prune_fold_products, hm]
  constructor
  · intro h
    have hpin : p.pid ∈ ((((s.products.filter (fun q =>
        decide (q.handle ≠ "" ∧ cfg.scraperTag ∈ split_tags q.tags))).map
          scraper_meta_of).filter (prune_candidate cfg current)).map ScraperMeta.pid) := by
      by_contra hno
      exact h ⟨hmem, hno⟩
    rcases List.mem_map.mp hpin with ⟨m, hmF, hmp⟩
    rcases List.mem_filter.mp hmF with ⟨hmM, hcand⟩
    rcases List.mem_map.mp hmM with ⟨q, hqF, hqm⟩
    rcases List.mem_filter.mp hqF with ⟨hqmem, hqbase⟩
    have hqp : q = p := by
      apply List.inj_on_of_nodup_map hnodupP hqmem hmem
      rw [← hmp, ← hqm]
      rfl
    subst hqp
    simp only [decide_eq_true_eq] at hqbase
    rw [← hqm] at hcand
    unfold prune_candidate scraper_meta_of at hcand
    simp only [decide_eq_true_eq] at hcand
    exact ⟨hqbase.2, hqbase.1, hcand.1, hcand.2.1, hcand.2.2⟩
  · intro hconds
    rintro ⟨_, hno⟩
    apply hno
    refine List.mem_map.mpr ⟨scraper_meta_of p, List.mem_filter.mpr ⟨?_, ?_⟩, rfl⟩
    · exact List.mem_map.mpr ⟨p, List.mem_filter.mpr
        ⟨hmem, by simp [hconds.1, hconds.2.1]⟩, rfl⟩
    · unfold prune_candidate scraper_meta_of
      simp only [decide_eq_true_eq]
      exact ⟨hconds.2.2.1, hconds.2.2.2.1, hconds.2.2.2.2⟩

/-- Witness for C5 (amended): a concrete scraper-tagged, active product
absent from the processed set is characterised as deleted. -/
theorem claim_c5_witness :
    ({ pid := 50, handle := "pala-old", title := "Old", tags := "padel-scraper-1",
       status := "active", variants := [] } : RProduct) ∉
      (prune_missing_scraper_products { }
        { products := [{ pid := 50, handle := "pala-old", title := "Old",
                         tags := "padel-scraper-1", status := "active", variants := [] }],
          nextId := 100 } none ["pala-x"] false).2.1.products ↔
      ((({ } : Config).scraperTag ∈ split_tags "padel-scraper-1") ∧ "pala-old" ≠ "" ∧
       "pala-old" ∉ ["pala-x"] ∧ pylower "active" ≠ "archived" ∧
       ¬(has_ignore_tag ({ } : Config).ignoreTags (split_tags "padel-scraper-1") = true ∨
         ({ } : Config).keepDraftTag ∈ split_tags "padel-scraper-1")) :=
  claim_c5_prune_exactness { } _ none ["pala-x"] _ (by decide) (by decide) (by decide)
    (by decide)

/-- Counterexample for C5 as frozen: a scraper-tagged product in status
draft WITHOUT the keep-draft tag is draft-locked per the claim, yet the
pruner deletes it. -/
theorem claim_c5_counterexample :
    (prune_missing_scraper_products { }
      { products := [{ pid := 50, handle := "pala-old", title := "Old",
                       tags := "padel-scraper-1", status := "draft", variants := [] }],
        nextId := 100 } none ["pala-x"] false).2.1.products = [] ∧
    (prune_missing_scraper_products { }
      { products := [{ pid := 50, handle := "pala-old", title := "Old",
                       tags := "padel-scraper-1", status := "draft", variants := [] }],
        nextId := 100 } none ["pala-x"] false).2.2.2 = [MutCall.deleteProduct 50] := by
  constructor <;> decide

/-! ### Cache loading (C8) -/

/-- `setdefault` never disturbs an existing entry. -/
theorem cache_lookup_insert_preserve (c : Cache) (h h2 : String) (pid v : Nat)
    (hl : cache_lookup c h = some v) :
    cache_lookup (cache_insert_if_absent c h2 pid) h = some v := by
  unfold cache_insert_if_absent
  split
  · exact hl
  · unfold cache_lookup at hl ⊢
    rw [List.find?_append]
    rcases hf : c.find? (fun e => e.1 = h) with _ | e
    · rw [hf] at hl; simp at hl
    · rw [hf] at hl
      simp [hf]
      simpa using hl

/-- The whole build loop never disturbs an existing entry. -/
theorem cache_fold_preserve (ps : List RProduct) (acc : Cache) (h : String) (v : Nat)
    (hl : cache_lookup acc h = some v) :
    cache_lookup (ps.foldl cache_build_step acc) h = some v := by
  induction ps generalizing acc with
  | nil => exact hl
  | cons q ps ih =>
    rw [List.foldl_cons]
    apply ih
    unfold cache_build_step
    split
    · exact cache_lookup_insert_preserve acc h q.handle q.pid v hl
    · exact hl

/-- Building the cache over pairwise-distinct handles maps every product
with a truthy handle and id to its id — the product's status plays no role,
so drafts and archived products are in the mapping. -/
theorem cache_build_lookup (ps : List RProduct) (acc : Cache)
    (hnodup : (ps.map RProduct.handle).Nodup)
    (hdisj : ∀ e ∈ acc, ∀ p ∈ ps, p.handle ≠ e.1)
    (p : RProduct) (hmem : p ∈ ps) (hh : p.handle ≠ "") (hpid : p.pid ≠ 0) :
    cache_lookup (ps.foldl cache_build_step acc) p.handle = some p.pid := by
  induction ps generalizing acc with
  | nil => simp at hmem
  | cons q ps ih =>
    rw [List.map_cons, List.nodup_cons] at hnodup
    rw [List.foldl_cons]
    rcases List.mem_cons.mp hmem with hpq | hmem'
    · subst hpq
      apply cache_fold_preserve
      unfold cache_build_step
      rw [if_pos ⟨hh, hpid⟩]
      have hfind : acc.find? (fun e => e.1 = p.handle) = none := by
        rcases hf : acc.find? (fun e => e.1 = p.handle) with _ | e
        · exact hf
        · exfalso
          have he2 : e.1 = p.handle := by simpa using List.find?_some hf
          exact hdisj e (List.mem_of_find?_eq_some hf) p (by simp) he2.symm
      have habs : cache_lookup acc p.handle = none := by
        unfold cache_lookup
        rw [hfind]
        rfl
      unfold cache_insert_if_absent
      rw [habs]
      simp only [Option.isSome_none, Bool.false_eq_true, if_false]
      unfold cache_lookup
      rw [List.find?_append, hfind]
      simp
    · refine ih _ hnodup.2 ?_ hmem'
      intro e he r hr
      unfold cache_build_step at he
      split at he
      · unfold cache_insert_if_absent at he
        split at he
        · exact hdisj e he r (by simp [hr])
        · rcases List.mem_append.mp he with hm | hm
          · exact hdisj e hm r (by simp [hr])
          · have heq : e = (q.handle, q.pid) := by simpa using hm
            subst heq
            intro hre
            apply hnodup.1
            have hre' : r.handle = q.handle := hre
            rw [← hre']
            exact List.mem_map_of_mem RProduct.handle hr
      · exact hdisj e he r (by simp [hr])

/-- Every call the scan makes carries no status filter, and the scan makes
at least one call. -/
theorem scan_go_calls (fuel : Nat) :
    ∀ (l : List RProduct) (sinceId : Option Nat),
      (∀ call ∈ (scan_pages.go fuel l sinceId).2, call.statusFilter = none) := by
  induction fuel with
  | zero => intro l s call h; simp [scan_pages.go] at h
  | succ fuel ih =>
    intro l s call h
    rw [scan_pages.go] at h
    dsimp only at h
    split at h
    · simp at h; simp [h]
    · split at h
      · simp at h; simp [h]
      · dsimp only at h
        rcases List.mem_cons.mp h with h1 | h1
        · simp [h1]
        · exact ih _ _ call h1

/-- The first resolve makes at least one listing call. -/
theorem scan_go_calls_nonempty (fuel : Nat) (l : List RProduct) (sinceId : Option Nat) :
    (scan_pages.go (fuel + 1) l sinceId).2 ≠ [] := by
  rw [scan_pages.go]
  dsimp only
  split
  · simp
  · split
    · simp
    · simp

/-- C8 (amended): the first resolve against the existing-state cache
performs one full paginated scan with **no** status filter — under the
platform's default listing, which returns products of every status, the
resulting handle-to-identifier mapping therefore includes draft and
archived products — and every subsequent resolve is a pure lookup in the
built mapping with no further listing calls.  The claim as frozen says the
loader scans "across every remote status value"; the hybrid loader issues
no status-filtered call at all — see the counterexample. -/
theorem claim_c8_cache_first_scan_then_lookup :
    (∀ (s : Store) (p : RProduct),
        (∀ q ∈ s.products, q.pid ≠ 0) →
        (s.products.map RProduct.handle).Nodup →
        p ∈ s.products → p.handle ≠ "" →
        cache_lookup (load_existing_products_cache s none).1 p.handle = some p.pid) ∧
    (∀ s : Store, (load_existing_products_cache s none).2 ≠ [] ∧
        ∀ call ∈ (load_existing_products_cache s none).2, call.statusFilter = none) ∧
    (∀ (s : Store) (m : Cache), load_existing_products_cache s (some m) = (m, [])) ∧
    (∀ (s : Store) (m : Cache) (h : String), h ≠ "" →
        find_existing_product_id s (some m) h = (cache_lookup m h, some m, [])) := by
  refine ⟨?_, ?_, fun s m => rfl, ?_⟩
  · intro s p hnz hnodup hmem hh
    show cache_lookup ((scan_pages s.products none).1.foldl cache_build_step []) p.handle
      = some p.pid
    rw [scan_pages_full s.products hnz]
    exact cache_build_lookup s.products [] hnodup (by simp) p hmem hh (hnz p hmem)
  · intro s
    constructor
    · show (scan_pages.go (s.products.length + 1) s.products none).2 ≠ []
      exact scan_go_calls_nonempty s.products.length s.products none
    · intro call hcall
      exact scan_go_calls (s.products.length + 1) s.products none call hcall
  · intro s m h hne
    simp [find_existing_product_id, load_existing_products_cache, hne]

/-- Witness for C8 (amended): a draft product lands in the mapping built by
the first resolve. -/
theorem claim_c8_witness :
    cache_lookup (load_existing_products_cache
        { products := [⟨7, "draft-p", "T", "", "", "", "", "draft", [], []⟩], nextId := 8 }
        none).1 (⟨7, "draft-p", "T", "", "", "", "", "draft", [], []⟩ : RProduct).handle
      = some (⟨7, "draft-p", "T", "", "", "", "", "draft", [], []⟩ : RProduct).pid :=
  claim_c8_cache_first_scan_then_lookup.1 _ _ (by decide) (by decide) (by decide) (by decide)

/-- Counterexample for C8 as frozen: on a store holding a draft and an
archived product, the first resolve issues exactly one listing call, and
none of its calls carries any status filter — there is no per-status scan. -/
theorem claim_c8_counterexample :
    ((load_existing_products_cache
        { products := [⟨7, "draft-p", "T", "", "", "", "", "draft", [], []⟩,
                       ⟨8, "arch-p", "U", "", "", "", "", "archived", [], []⟩],
          nextId := 9 } none).2.all (fun call => call.statusFilter.isNone) = true) ∧
    (load_existing_products_cache
        { products := [⟨7, "draft-p", "T", "", "", "", "", "draft", [], []⟩,
                       ⟨8, "arch-p", "U", "", "", "", "", "archived", [], []⟩],
          nextId := 9 } none).2.length = 1 := by
  constructor <;> decide

/-! ### Protection of archived / ignored products (C4) -/

/-- Well-formedness of a remote store, as the platform guarantees it: all
identifiers distinct, truthy and below the fresh-id counter; handles
pairwise distinct. -/
def store_wf (s : Store) : Bool :=
  decide ((s.products.map RProduct.pid).Nodup ∧
    (s.products.map RProduct.handle).Nodup ∧
    ((s.products.flatMap (fun p => p.variants)).map RVariant.vid).Nodup ∧
    ((s.products.flatMap (fun p => p.variants)).map RVariant.inventoryItemId).Nodup ∧
    (∀ p ∈ s.products, p.pid ≠ 0 ∧ p.pid < s.nextId ∧
      (∀ v ∈ p.variants, v.vid < s.nextId ∧ v.inventoryItemId < s.nextId) ∧
      (∀ im ∈ p.images, im.iid < s.nextId)))

/-- Does a mutating call touch this product (its id, one of its variants'
ids, or one of its inventory items)?  A redirect creation touches no
product. -/
def targets_product (p : RProduct) : MutCall → Bool
  | MutCall.putHandle pid _ => decide (pid = p.pid)
  | MutCall.postRedirect _ _ => false
  | MutCall.putTags pid _ => decide (pid = p.pid)
  | MutCall.postProduct pid => decide (pid = p.pid)
  | MutCall.deleteProduct pid => decide (pid = p.pid)
  | MutCall.putVariant vid _ => p.variants.any (fun v => v.vid = vid)
  | MutCall.setInventoryLevel _ inv _ => p.variants.any (fun v => v.inventoryItemId = inv)
  | MutCall.postImage pid _ => decide (pid = p.pid)
  | MutCall.deleteImage pid _ => decide (pid = p.pid)
  | MutCall.putProduct pid _ _ => decide (pid = p.pid)

/-- A fetched product is a member with the requested id. -/
theorem fetch_mem (s : Store) (pid : Nat) (q : RProduct)
    (h : Store.fetch s pid = some q) : q ∈ s.products ∧ q.pid = pid := by
  unfold Store.fetch at h
  exact ⟨List.mem_of_find?_eq_some h, by simpa using List.find?_some h⟩

/-- IDENTIFY only ever renames a handle: every product of its output store
is a member of the input store up to the handle field, and the fresh-id
counter is unchanged. -/
theorem identify_phase_products (st : PState) (h : String) (rows : List Row) :
    (∀ q' ∈ (identify_phase st h rows).state.store.products,
      ∃ q ∈ st.store.products, q'.pid = q.pid ∧ q'.tags = q.tags ∧
        q'.status = q.status ∧ q'.variants = q.variants ∧ q'.images = q.images ∧
        q'.title = q.title ∧ q'.bodyHtml = q.bodyHtml) ∧
    (identify_phase st h rows).state.store.nextId = st.store.nextId := by
  unfold identify_phase
  dsimp only
  split
  · split
    · split
      · exact ⟨fun q' hq' => ⟨q', hq', rfl, rfl, rfl, rfl, rfl, rfl, rfl⟩, rfl⟩
      · constructor
        · intro q' hq'
          unfold Store.map_pid at hq'
          dsimp only at hq'
          rcases List.mem_map.mp hq' with ⟨q, hq, hEq⟩
          refine ⟨q, hq, ?_⟩
          subst hEq
          split <;> simp
        · rfl
    · exact ⟨fun q' hq' => ⟨q', hq', rfl, rfl, rfl, rfl, rfl, rfl, rfl⟩, rfl⟩
  · exact ⟨fun q' hq' => ⟨q', hq', rfl, rfl, rfl, rfl, rfl, rfl, rfl⟩, rfl⟩

/-- The identify phase emits at most a handle-rename PUT (for the locally
requested handle) and a redirect POST. -/
theorem identify_phase_muts (st : PState) (h : String) (rows : List Row) :
    ∀ m ∈ (identify_phase st h rows).muts,
      (∃ pid, m = MutCall.putHandle pid h) ∨ (∃ o, m = MutCall.postRedirect o h) := by
  unfold identify_phase
  dsimp only
  split
  · split
    · split
      · simp
      · intro m hm
        rcases List.mem_cons.mp hm with h1 | h1
        · exact Or.inl ⟨_, h1⟩
        · exact Or.inr ⟨_, by simpa using h1⟩
    · simp
  · simp

/-- Calls added by the variant loop are variant PUTs for the snapshot's
variant ids. -/
theorem smart_fold_muts (d : CsvData) (vs : List RVariant) (a : SmartAcc) :
    ∀ m ∈ (vs.foldl (smart_variant_step d) a).muts,
      m ∈ a.muts ∨ ∃ sv ∈ vs, ∃ u, m = MutCall.putVariant sv.vid u := by
  induction vs generalizing a with
  | nil => intro m hm; exact Or.inl hm
  | cons v vs ih =>
    intro m hm
    rw [List.foldl_cons] at hm
    rcases ih (smart_variant_step d a v) m hm with h1 | h1
    · unfold smart_variant_step at h1
      split at h1
      · exact Or.inl h1
      · dsimp only at h1
        split at h1
        · rcases List.mem_append.mp h1 with h2 | h2
          · exact Or.inl h2
          · exact Or.inr ⟨v, by simp, _, by simpa using h2⟩
        · exact Or.inl h1
    · obtain ⟨sv, hsv, u, he⟩ := h1
      exact Or.inr ⟨sv, by simp [hsv], u, he⟩

/-- Calls added by the inventory loop are inventory sets for the snapshot's
inventory item ids. -/
theorem inv_fold_muts (loc : Nat) (d : CsvData) (vs : List RVariant)
    (b : Store × List MutCall) :
    ∀ m ∈ (vs.foldl (smart_inventory_step loc d) b).2,
      m ∈ b.2 ∨ ∃ sv ∈ vs, ∃ q, m = MutCall.setInventoryLevel loc sv.inventoryItemId q := by
  induction vs generalizing b with
  | nil => intro m hm; exact Or.inl hm
  | cons v vs ih =>
    intro m hm
    rw [List.foldl_cons] at hm
    rcases ih (smart_inventory_step loc d b v) m hm with h1 | h1
    · unfold smart_inventory_step at h1
      split at h1
      · exact Or.inl h1
      · split at h1
        · rcases List.mem_append.mp h1 with h2 | h2
          · exact Or.inl h2
          · exact Or.inr ⟨v, by simp, _, by simpa using h2⟩
        · exact Or.inl h1
    · obtain ⟨sv, hsv, q, he⟩ := h1
      exact Or.inr ⟨sv, by simp [hsv], q, he⟩

/-- Calls added by the inventory phase. -/
theorem smart_inventory_phase_muts (cfg : Config) (p : RProduct) (d : CsvData)
    (σ : Store) (muts : List MutCall) :
    ∀ m ∈ (smart_inventory_phase cfg p d σ muts).2.1,
      m ∈ muts ∨ ∃ sv ∈ p.variants, ∃ loc q,
        m = MutCall.setInventoryLevel loc sv.inventoryItemId q := by
  intro m hm
  unfold smart_inventory_phase at hm
  split at hm
  · split at hm
    · exact Or.inl hm
    · next loc _ =>
      dsimp only at hm
      rcases inv_fold_muts _ d p.variants (σ, muts) m hm with h | h
      · exact Or.inl h
      · obtain ⟨sv, hsv, q, he⟩ := h
        exact Or.inr ⟨sv, hsv, _, q, he⟩
  · exact Or.inl hm

/-- Calls added by the image phase. -/
theorem smart_image_phase_muts (b : Bool) (productId : Nat) (p : RProduct)
    (d : CsvData) (σ : Store) (muts : List MutCall) :
    ∀ m ∈ (smart_image_phase b productId p d σ muts).2.1,
      m ∈ muts ∨ (∃ src, m = MutCall.postImage productId src) ∨
        (∃ iid, m = MutCall.deleteImage productId iid) := by
  intro m hm
  unfold smart_image_phase at hm
  dsimp only at hm
  repeat' split at hm
  all_goals
    first
    | exact Or.inl hm
    | (rcases List.mem_append.mp hm with h | h
       · exact Or.inl h
       · exact Or.inr (Or.inl ⟨_, by simpa using h⟩))
    | (rcases List.mem_append.mp hm with h2 | h2
       · rcases List.mem_append.mp h2 with h | h
         · exact Or.inl h
         · exact Or.inr (Or.inl ⟨_, by simpa using h⟩)
       · exact Or.inr (Or.inr ⟨_, by simpa using h2⟩))

/-- Calls added by the title/description phase. -/
theorem smart_title_phase_muts (productId : Nat) (p : RProduct) (d : CsvData)
    (σ : Store) (muts : List MutCall) :
    ∀ m ∈ (smart_title_phase productId p d σ muts).2.1,
      m ∈ muts ∨ ∃ t bo, m = MutCall.putProduct productId t bo := by
  intro m hm
  unfold smart_title_phase at hm
  dsimp only at hm
  split at hm
  · rcases List.mem_append.mp hm with h | h
    · exact Or.inl h
    · exact Or.inr ⟨_, _, by simpa using h⟩
  · exact Or.inl hm

/-- Every call `update_product_smart` issues is a variant PUT or inventory
set on the snapshot's own identifiers, or an image / partial-product call on
the updated product id. -/
theorem update_smart_muts_shape (cfg : Config) (s : Store) (productId : Nat)
    (p : RProduct) (d : CsvData) (b : Bool) :
    ∀ m ∈ (update_product_smart cfg s productId p d b).2.2,
      (∃ sv ∈ p.variants, ∃ u, m = MutCall.putVariant sv.vid u) ∨
      (∃ sv ∈ p.variants, ∃ loc q, m = MutCall.setInventoryLevel loc sv.inventoryItemId q) ∨
      (∃ src, m = MutCall.postImage productId src) ∨
      (∃ iid, m = MutCall.deleteImage productId iid) ∨
      (∃ t bo, m = MutCall.putProduct productId t bo) := by
  intro m hm
  revert hm
  unfold update_product_smart
  dsimp only
  intro hm
  rcases smart_title_phase_muts productId p d _ _ m hm with hm3 | hsh
  · rcases smart_image_phase_muts b productId p d _ _ m hm3 with hm2 | hsh
    · rcases smart_inventory_phase_muts cfg p d _ _ m hm2 with hm1 | hsh
      · rcases smart_fold_muts d p.variants { store := s, muts := [] } m hm1 with h0 | h0
        · simp at h0
        · exact Or.inl h0
      · exact Or.inr (Or.inl hsh)
    · rcases hsh with h | h
      · exact Or.inr (Or.inr (Or.inl h))
      · exact Or.inr (Or.inr (Or.inr (Or.inl h)))
  · exact Or.inr (Or.inr (Or.inr (Or.inr hsh)))

/-- A remote product the specification marks as protected: status archived,
or a tag from the configured ignore list. -/
def untouchable (cfg : Config) (p : RProduct) : Bool :=
  decide (pylower p.status = "archived") ||
    has_ignore_tag cfg.ignoreTags (split_tags p.tags)

/-- In a flat map whose projected elements are pairwise distinct, an
element's key determines its owner. -/
theorem flat_owner_unique {α β γ : Type} (l : List α) (f : α → List β) (g : β → γ)
    (hnodup : ((l.flatMap f).map g).Nodup)
    {p q : α} (hp : p ∈ l) (hq : q ∈ l)
    {x y : β} (hx : x ∈ f p) (hy : y ∈ f q) (hxy : g x = g y) : p = q := by
  by_contra hne
  rw [List.map_flatMap] at hnodup
  have hpair := (List.nodup_flatMap.mp hnodup).2
  have hsym : Symmetric (Function.onFun List.Disjoint (fun a => (f a).map g)) := by
    intro a b h
    intro u hu1 hu2
    exact h hu2 hu1
  have hdisj := hpair.forall hsym hp hq hne
  exact hdisj (List.mem_map_of_mem g hx) (by rw [hxy]; exact List.mem_map_of_mem g hy)

/-- Every call of product creation is a POST on the fresh product id. -/
theorem create_muts_shape (cfg : Config) (s : Store) (rows : List Row) (b : Bool) :
    ∀ m ∈ (create_product_from_csv cfg s rows b).2.2,
      m = MutCall.postProduct s.nextId ∨ ∃ src, m = MutCall.postImage s.nextId src := by
  intro m hm
  unfold create_product_from_csv at hm
  dsimp only at hm
  split at hm
  · rcases (by simpa using hm : m = _ ∨ m = _) with h | h
    · exact Or.inl h
    · exact Or.inr ⟨_, h⟩
  · exact Or.inl (by simpa using hm)

/-- Every mutating call of one group step is (i) an identify-phase rename
of the secondary-key match to the group's handle, (ii) a keep-draft tag
PUT, delete, or selective-update call on a product that was fetched and
passed the ignore/archived protection checks, or (iii) a creation call on
the store's fresh product id. -/
theorem process_group_muts_cases (cfg : Config) (opts : Opts)
    (oracle : String → Option FailPoint) (st0 : PState) (g : String × List Row) :
    ∀ m ∈ (process_group cfg opts oracle st0 g).2.muts,
      m ∈ (identify_phase st0 g.1 g.2).muts ∨
      (∃ pid pp, Store.fetch (identify_phase st0 g.1 g.2).state.store pid = some pp ∧
        ¬(has_ignore_tag cfg.ignoreTags (split_tags pp.tags) = true) ∧
        ¬(pylower pp.status = "archived") ∧
        ((∃ t, m = MutCall.putTags pid t) ∨ m = MutCall.deleteProduct pid ∨
         (∃ st' d b, m ∈ (update_product_smart cfg st' pid pp d b).2.2))) ∨
      (∃ s', s'.nextId = st0.store.nextId ∧
        ∃ rows2 b, m ∈ (create_product_from_csv cfg s' rows2 b).2.2) := by
  intro m hm
  revert hm
  unfold process_group
  dsimp only
  split
  · intro hm
    exact absurd hm (List.not_mem_nil m)
  · split
    · split
      · intro hm
        exact Or.inl hm
      · intro hm
        dsimp only at hm
        rcases List.mem_append.mp hm with h | h
        · exact Or.inl h
        · refine Or.inr (Or.inr ⟨_, ?_, _, _, h⟩)
          exact (identify_phase_products st0 g.1 g.2).2
    · next pid hpe =>
      split
      · intro hm
        exact Or.inl hm
      · split
        · intro hm
          exact Or.inl hm
        · next pp hfe =>
          split
          · intro hm
            exact Or.inl hm
          · next hign =>
            split
            · intro hm
              exact Or.inl hm
            · next harch =>
              split
              · split
                · split
                  · intro hm
                    dsimp only at hm
                    rcases List.mem_append.mp hm with h | h
                    · exact Or.inl h
                    · exact Or.inr (Or.inl ⟨pid, pp, hfe, hign, harch,
                        Or.inl ⟨_, by simpa using h⟩⟩)
                  · intro hm
                    dsimp only at hm
                    rcases List.mem_append.mp hm with h | h
                    · exact Or.inl h
                    · exact absurd h (List.not_mem_nil m)
                · split
                  · intro hm
                    dsimp only at hm
                    rcases List.mem_append.mp hm with h | h
                    · rcases List.mem_append.mp h with h1 | h1
                      · exact Or.inl h1
                      · exact Or.inr (Or.inl ⟨pid, pp, hfe, hign, harch,
                          Or.inl ⟨_, by simpa using h1⟩⟩)
                    · exact Or.inr (Or.inl ⟨pid, pp, hfe, hign, harch,
                        Or.inr (Or.inl (by simpa using h))⟩)
                  · intro hm
                    dsimp only at hm
                    rcases List.mem_append.mp hm with h | h
                    · rcases List.mem_append.mp h with h1 | h1
                      · exact Or.inl h1
                      · exact absurd h1 (List.not_mem_nil m)
                    · exact Or.inr (Or.inl ⟨pid, pp, hfe, hign, harch,
                        Or.inr (Or.inl (by simpa using h))⟩)
                · split
                  · intro hm
                    dsimp only at hm
                    rcases List.mem_append.mp hm with h | h
                    · rcases List.mem_append.mp h with h1 | h1
                      · rcases List.mem_append.mp h1 with h2 | h2
                        · exact Or.inl h2
                        · exact Or.inr (Or.inl ⟨pid, pp, hfe, hign, harch,
                            Or.inl ⟨_, by simpa using h2⟩⟩)
                      · exact Or.inr (Or.inl ⟨pid, pp, hfe, hign, harch,
                          Or.inr (Or.inl (by simpa using h1))⟩)
                    · refine Or.inr (Or.inr ⟨_, ?_, _, _, h⟩)
                      exact (identify_phase_products st0 g.1 g.2).2
                  · intro hm
                    dsimp only at hm
                    rcases List.mem_append.mp hm with h | h
                    · rcases List.mem_append.mp h with h1 | h1
                      · rcases List.mem_append.mp h1 with h2 | h2
                        · exact Or.inl h2
                        · exact absurd h2 (List.not_mem_nil m)
                      · exact Or.inr (Or.inl ⟨pid, pp, hfe, hign, harch,
                          Or.inr (Or.inl (by simpa using h1))⟩)
                    · refine Or.inr (Or.inr ⟨_, ?_, _, _, h⟩)
                      exact (identify_phase_products st0 g.1 g.2).2
              · split
                · split
                  · intro hm
                    dsimp only at hm
                    rcases List.mem_append.mp hm with h | h
                    · exact Or.inl h
                    · exact Or.inr (Or.inl ⟨pid, pp, hfe, hign, harch,
                        Or.inl ⟨_, by simpa using h⟩⟩)
                  · intro hm
                    dsimp only at hm
                    rcases List.mem_append.mp hm with h | h
                    · exact Or.inl h
                    · exact absurd h (List.not_mem_nil m)
                · split
                  · intro hm
                    dsimp only at hm
                    rcases List.mem_append.mp hm with h | h
                    · rcases List.mem_append.mp h with h1 | h1
                      · exact Or.inl h1
                      · exact Or.inr (Or.inl ⟨pid, pp, hfe, hign, harch,
                          Or.inl ⟨_, by simpa using h1⟩⟩)
                    · exact Or.inr (Or.inl ⟨pid, pp, hfe, hign, harch,
                        Or.inr (Or.inr ⟨_, _, _, h⟩)⟩)
                  · intro hm
                    dsimp only at hm
                    rcases List.mem_append.mp hm with h | h
                    · rcases List.mem_append.mp h with h1 | h1
                      · exact Or.inl h1
                      · exact absurd h1 (List.not_mem_nil m)
                    · exact Or.inr (Or.inl ⟨pid, pp, hfe, hign, harch,
                        Or.inr (Or.inr ⟨_, _, _, h⟩)⟩)

/-- C4 (amended): on well-formed remote stores, a protected product —
archived or ignore-tagged — is never the target of a tag change, variant,
inventory, image or partial-product update, recreation delete, or creation
call of a group step, and the pruner neither deletes it nor issues a delete
against it.  The one exception, which refutes the claim as frozen, is the
secondary-key handle rename: the identify phase may still rename the
protected product's handle, because that `PUT` is issued before the
ignore/archived checks run. -/
theorem claim_c4_protected_never_mutated (cfg : Config) (opts : Opts)
    (oracle : String → Option FailPoint) (st0 : PState) (g : String × List Row)
    (s2 : Store) (c2 : Option Cache) (current : List String) (dr : Bool) (p : RProduct)
    (hwf : store_wf st0.store = true) (hmem : p ∈ st0.store.products)
    (hprot : untouchable cfg p = true)
    (hwf2 : store_wf s2 = true) (hmem2 : p ∈ s2.products) :
    (∀ m ∈ (process_group cfg opts oracle st0 g).2.muts,
        targets_product p m = true → m = MutCall.putHandle p.pid g.1) ∧
    p ∈ (prune_missing_scraper_products cfg s2 c2 current dr).2.1.products ∧
    (∀ m ∈ (prune_missing_scraper_products cfg s2 c2 current dr).2.2.2,
        targets_product p m = false) := by
  obtain ⟨hPid, hHandle, hVid, hInv, hBound⟩ := of_decide_eq_true hwf
  have hor : pylower p.status = "archived" ∨
      has_ignore_tag cfg.ignoreTags (split_tags p.tags) = true := by
    have h := hprot
    simp only [untouchable, Bool.or_eq_true, decide_eq_true_eq] at h
    exact h
  have hfetchOrig : ∀ (pid : Nat) (pp : RProduct),
      Store.fetch (identify_phase st0 g.1 g.2).state.store pid = some pp →
      ∃ q ∈ st0.store.products, q.pid = pid ∧ pp.tags = q.tags ∧
        pp.status = q.status ∧ pp.variants = q.variants := by
    intro pid pp hf
    obtain ⟨hppmem, hpppid⟩ := fetch_mem _ _ _ hf
    obtain ⟨q, hq, h1, h2, h3, h4, _, _, _⟩ :=
      (identify_phase_products st0 g.1 g.2).1 pp hppmem
    exact ⟨q, hq, by rw [← h1]; exact hpppid, h2, h3, h4⟩
  have hp_ne : ∀ (pid : Nat) (pp : RProduct),
      Store.fetch (identify_phase st0 g.1 g.2).state.store pid = some pp →
      ¬(has_ignore_tag cfg.ignoreTags (split_tags pp.tags) = true) →
      ¬(pylower pp.status = "archived") → ¬(pid = p.pid) := by
    intro pid pp hf hign harch he
    obtain ⟨q, hq, hqpid, htags, hstat, _⟩ := hfetchOrig pid pp hf
    have hqp : q = p := List.inj_on_of_nodup_map hPid hq hmem (by rw [hqpid, he])
    subst hqp
    rcases hor with h1 | h1
    · exact harch (by rw [hstat]; exact h1)
    · exact hign (by rw [htags]; exact h1)
  obtain ⟨hPid2, hHandle2, _, _, hBound2⟩ := of_decide_eq_true hwf2
  have hnz2 : ∀ q ∈ s2.products, q.pid ≠ 0 := fun q hq => (hBound2 q hq).1
  have hnotdel : p.pid ∉ ((list_scraper_products cfg s2).filter
      (prune_candidate cfg current)).map ScraperMeta.pid := by
    intro hin
    rw [list_scraper_products_eq cfg s2 hnz2 hHandle2] at hin
    rcases List.mem_map.mp hin with ⟨md, hmF, hmp⟩
    rcases List.mem_filter.mp hmF with ⟨hmM, hcand⟩
    rcases List.mem_map.mp hmM with ⟨q, hqF, hqm⟩
    rcases List.mem_filter.mp hqF with ⟨hqmem, _⟩
    have hqp : q = p := by
      apply List.inj_on_of_nodup_map hPid2 hqmem hmem2
      rw [← hmp, ← hqm]
      rfl
    subst hqp
    rw [← hqm] at hcand
    unfold prune_candidate scraper_meta_of at hcand
    simp only [decide_eq_true_eq] at hcand
    rcases hor with h1 | h1
    · exact hcand.2.1 h1
    · exact hcand.2.2 (Or.inl h1)
  refine ⟨?_, ?_, ?_⟩
  · intro m hm htar
    rcases process_group_muts_cases cfg opts oracle st0 g m hm with h | h | h
    · rcases identify_phase_muts st0 g.1 g.2 m h with ⟨pid, he⟩ | ⟨o, he⟩
      · subst he
        simp only [targets_product, decide_eq_true_eq] at htar
        rw [htar]
      · subst he
        simp [targets_product] at htar
    · obtain ⟨pid, pp, hfe, hign, harch, hc⟩ := h
      have hne := hp_ne pid pp hfe hign harch
      rcases hc with ⟨t, he⟩ | he | ⟨st', d, b, hmm⟩
      · subst he
        simp only [targets_product, decide_eq_true_eq] at htar
        exact absurd htar hne
      · subst he
        simp only [targets_product, decide_eq_true_eq] at htar
        exact absurd htar hne
      · obtain ⟨q, hq, hqpid, _, _, hvars⟩ := hfetchOrig pid pp hfe
        rcases update_smart_muts_shape cfg st' pid pp d b m hmm with
          ⟨sv, hsv, u, he⟩ | ⟨sv, hsv, loc, qty, he⟩ | ⟨src, he⟩ | ⟨iid, he⟩ | ⟨t, bo, he⟩
        · subst he
          simp only [targets_product, List.any_eq_true, decide_eq_true_eq] at htar
          obtain ⟨v, hv, hvv⟩ := htar
          rw [hvars] at hsv
          have hpq : p = q := flat_owner_unique st0.store.products
            (fun r => r.variants) RVariant.vid hVid hmem hq hv hsv hvv
          exact absurd (by rw [hpq]; exact hqpid.symm : pid = p.pid) hne
        · subst he
          simp only [targets_product, List.any_eq_true, decide_eq_true_eq] at htar
          obtain ⟨v, hv, hvv⟩ := htar
          rw [hvars] at hsv
          have hpq : p = q := flat_owner_unique st0.store.products
            (fun r => r.variants) RVariant.inventoryItemId hInv hmem hq hv hsv hvv
          exact absurd (by rw [hpq]; exact hqpid.symm : pid = p.pid) hne
        · subst he
          simp only [targets_product, decide_eq_true_eq] at htar
          exact absurd htar hne
        · subst he
          simp only [targets_product, decide_eq_true_eq] at htar
          exact absurd htar hne
        · subst he
          simp only [targets_product, decide_eq_true_eq] at htar
          exact absurd htar hne
    · obtain ⟨s', hnext, rows2, b, hmm⟩ := h
      have hlt : p.pid < st0.store.nextId := (hBound p hmem).2.1
      rcases create_muts_shape cfg s' rows2 b m hmm with he | ⟨src, he⟩ <;> subst he <;>
        simp only [targets_product, decide_eq_true_eq] at htar <;>
        rw [hnext] at htar <;> omega
  · unfold prune_missing_scraper_products
    split
    · exact hmem2
    · dsimp only
      rw [prune_fold_products]
      exact ⟨hmem2, hnotdel⟩
  · intro m hm
    unfold prune_missing_scraper_products at hm
    split at hm
    · simp at hm
    · dsimp only at hm
      rw [(prune_fold_count_muts _ _).2] at hm
      simp only [List.nil_append] at hm
      rcases List.mem_map.mp hm with ⟨md, hmd, hmdm⟩
      subst hmdm
      simp only [targets_product, decide_eq_false_iff_not]
      intro he
      exact hnotdel (List.mem_map.mpr ⟨md, hmd, he⟩)

/-- C4 scenario: an archived, scraper-tagged remote product whose variant
barcode matches the incoming CSV row. -/
def c4_archived : RProduct :=
  { pid := 60, handle := "old-h", title := "Old", tags := "padel-scraper-1",
    status := "archived",
    variants := [{ vid := 61, option1 := "M", price := "10.00",
                   barcode := "8400000000017", inventoryQuantity := 1,
                   inventoryItemId := 62 }] }

/-- C4 scenario: the CSV row carrying the same barcode under a new handle. -/
def c4_row : Row :=
  { urlHandle := "new-h", title := "New", option1Value := "M", price := "10,00 €",
    barcode := "8400000000017", inventoryQuantity := "1", status := "Active" }

/-- C4 scenario: the reconciler state holding only the archived product. -/
def c4_state : PState :=
  { store := { products := [c4_archived], nextId := 100 }, cache := none }

/-- Counterexample for C4 as frozen: the group step on an archived product
matched by barcode emits a handle-rename `PUT` (plus a redirect `POST`)
against that product — the claim's "never mutated (no handle rename)" is
violated, because the secondary-key rename runs before the archived
check. -/
theorem claim_c4_counterexample :
    untouchable { } c4_archived = true ∧
    pylower c4_archived.status = "archived" ∧
    (process_group { } { } (fun _ => none) c4_state ("new-h", [c4_row])).2.muts
      = [MutCall.putHandle 60 "new-h", MutCall.postRedirect "old-h" "new-h"] ∧
    targets_product c4_archived (MutCall.putHandle 60 "new-h") = true := by
  refine ⟨by decide, by decide, by decide, by decide⟩

/-- Witness for C4 (amended): on the concrete archived-product scenario,
every group-step call that targets the product is the identify-phase handle
rename, and the pruner leaves the product alone. -/
theorem claim_c4_witness :
    store_wf c4_state.store = true ∧ untouchable { } c4_archived = true ∧
    (∀ m ∈ (process_group { } { } (fun _ => none) c4_state ("new-h", [c4_row])).2.muts,
        targets_product c4_archived m = true →
          m = MutCall.putHandle c4_archived.pid "new-h") ∧
    c4_archived ∈
      (prune_missing_scraper_products { } c4_state.store none ["pala-x"]
        false).2.1.products ∧
    (∀ m ∈ (prune_missing_scraper_products { } c4_state.store none ["pala-x"]
        false).2.2.2, targets_product c4_archived m = false) := by
  have h := claim_c4_protected_never_mutated { } { } (fun _ => none) c4_state
    ("new-h", [c4_row]) c4_state.store none ["pala-x"] false c4_archived
    (by decide) (by decide) (by decide) (by decide) (by decide)
  exact ⟨by decide, by decide, h.1, h.2.1, h.2.2⟩

/-! ### Case-invariance of variant comparison (C7) -/

/-- Characters are equal exactly when their code points are. -/
theorem char_eq_iff_toNat (c d : Char) : c = d ↔ c.toNat = d.toNat := by
  constructor
  · intro h
    rw [h]
  · intro h
    have h2 := congrArg Char.ofNat h
    rwa [Char.ofNat_toNat, Char.ofNat_toNat] at h2

/-- Packing a valid code point round-trips. -/
theorem char_toNat_ofNat (n : Nat) (h : n.isValidChar) : (Char.ofNat n).toNat = n := by
  rw [Char.ofNat, dif_pos h]
  rfl

/-- Whitespace-ness in terms of code points. -/
theorem isWhitespace_iff (c : Char) :
    c.isWhitespace = true ↔
      (c.toNat = 32 ∨ c.toNat = 9 ∨ c.toNat = 13 ∨ c.toNat = 10) := by
  unfold Char.isWhitespace
  simp only [Bool.or_eq_true, decide_eq_true_eq, char_eq_iff_toNat]
  rw [show (' ').toNat = 32 from rfl, show ('\t').toNat = 9 from rfl,
      show ('\r').toNat = 13 from rfl, show ('\n').toNat = 10 from rfl]
  tauto

/-- Lowercasing never creates or destroys whitespace. -/
theorem isWhitespace_toLower (c : Char) :
    (Char.toLower c).isWhitespace = c.isWhitespace := by
  unfold Char.toLower
  dsimp only
  split
  · next h =>
    obtain ⟨h1, h2⟩ := h
    have hval : (Char.ofNat (c.toNat + 32)).toNat = c.toNat + 32 :=
      char_toNat_ofNat _ (Or.inl (by omega))
    have hL : (Char.ofNat (c.toNat + 32)).isWhitespace = false := by
      rw [Bool.eq_false_iff]
      intro hw
      rw [isWhitespace_iff, hval] at hw
      rcases hw with hw | hw | hw | hw <;> omega
    have hR : c.isWhitespace = false := by
      rw [Bool.eq_false_iff]
      intro hw
      rw [isWhitespace_iff] at hw
      rcases hw with hw | hw | hw | hw <;> omega
    rw [hL, hR]
  · rfl

/-- Trimming commutes with lowercasing. -/
theorem py_trim_map_toLower (l : List Char) :
    py_trim_chars (l.map Char.toLower) = (py_trim_chars l).map Char.toLower := by
  have hfun : (Char.isWhitespace ∘ Char.toLower) = Char.isWhitespace :=
    funext isWhitespace_toLower
  unfold py_trim_chars
  rw [List.dropWhile_map, hfun, ← List.map_reverse, List.dropWhile_map, hfun,
    ← List.map_reverse]

/-- `strip` before `lower` equals `lower` before `strip`. -/
theorem pylower_pystrip (s : String) : pylower (pystrip s) = pystrip (pylower s) := by
  show String.mk ((py_trim_chars s.toList).map Char.toLower)
    = String.mk (py_trim_chars (s.toList.map Char.toLower))
  rw [py_trim_map_toLower]

/-- Strings with equal lowercasings normalise identically. -/
theorem norm_opt_congr {s t : String} (h : pylower s = pylower t) :
    norm_opt s = norm_opt t := by
  unfold norm_opt
  rw [pylower_pystrip, pylower_pystrip, h]

/-- Two remote variants that agree except possibly in the letter case of
their option value. -/
abbrev rv_case_eq (a b : RVariant) : Prop :=
  pylower a.option1 = pylower b.option1 ∧ a.vid = b.vid ∧ a.price = b.price ∧
  a.compareAtPrice = b.compareAtPrice ∧ a.sku = b.sku ∧ a.barcode = b.barcode ∧
  a.inventoryQuantity = b.inventoryQuantity ∧ a.inventoryItemId = b.inventoryItemId

/-- Two CSV variants that agree except possibly in option-value case. -/
abbrev cv_case_eq (a b : CsvVariant) : Prop :=
  pylower a.option1 = pylower b.option1 ∧ a.price = b.price ∧
  a.compareAtPrice = b.compareAtPrice ∧ a.sku = b.sku ∧ a.barcode = b.barcode ∧
  a.inventoryQuantity = b.inventoryQuantity

/-- A remote/CSV pair that agrees on every diffable value and whose option
values differ at most in case. -/
abbrev rv_cv_match (a : RVariant) (b : CsvVariant) : Prop :=
  pylower a.option1 = pylower b.option1 ∧ a.price = b.price ∧
  a.compareAtPrice = b.compareAtPrice ∧ a.sku = b.sku ∧ a.barcode = b.barcode ∧
  a.inventoryQuantity = b.inventoryQuantity

/-- Case-equivalence of the optional pairing results. -/
def cv_opt_case_eq : Option CsvVariant → Option CsvVariant → Prop
  | none, none => True
  | some a, some b => cv_case_eq a b
  | _, _ => False

/-- Pointwise-related lists have equal images under key functions that
agree across the relation. -/
theorem forall2_map_eq {α β γ : Type} {r : α → β → Prop} {f : α → γ} {g : β → γ}
    {l : List α} {l' : List β} (h : List.Forall₂ r l l')
    (hfg : ∀ a b, r a b → f a = g b) : l.map f = l'.map g := by
  induction h with
  | nil => rfl
  | cons hr _ ih => simp only [List.map_cons, hfg _ _ hr, ih]

/-- Ordered insertion respects a pointwise relation across which the order
keys agree. -/
theorem orderedInsert_forall2 {α β : Type} {r : α → β → Prop}
    (le : α → α → Prop) [DecidableRel le] (le' : β → β → Prop) [DecidableRel le']
    (hcomp : ∀ a a' b b', r a a' → r b b' → (le a b ↔ le' a' b'))
    {a : α} {a' : β} (ha : r a a') :
    ∀ {l : List α} {l' : List β}, List.Forall₂ r l l' →
      List.Forall₂ r (l.orderedInsert le a) (l'.orderedInsert le' a') := by
  intro l l' h
  induction h with
  | nil => exact List.Forall₂.cons ha List.Forall₂.nil
  | @cons b b' tl tl' hb htl ih =>
    simp only [List.orderedInsert]
    by_cases hle : le a b
    · rw [if_pos hle, if_pos ((hcomp a a' b b' ha hb).mp hle)]
      exact List.Forall₂.cons ha (List.Forall₂.cons hb htl)
    · rw [if_neg hle, if_neg (fun hc => hle ((hcomp a a' b b' ha hb).mpr hc))]
      exact List.Forall₂.cons hb ih

/-- Insertion sort respects a pointwise relation across which the order
keys agree. -/
theorem insertionSort_forall2 {α β : Type} {r : α → β → Prop}
    (le : α → α → Prop) [DecidableRel le] (le' : β → β → Prop) [DecidableRel le']
    (hcomp : ∀ a a' b b', r a a' → r b b' → (le a b ↔ le' a' b'))
    {l : List α} {l' : List β} (h : List.Forall₂ r l l') :
    List.Forall₂ r (l.insertionSort le) (l'.insertionSort le') := by
  induction h with
  | nil => exact List.Forall₂.nil
  | cons hb _ ih =>
    simp only [List.insertionSort]
    exact orderedInsert_forall2 le le' hcomp hb ih

/-- `any` over zipped, pointwise-related lists agrees when the predicates
do. -/
theorem zip_any_congr {α α' β β' : Type} {r : α → α' → Prop} {q : β → β' → Prop}
    {f : α × β → Bool} {g : α' × β' → Bool}
    (hf : ∀ a a' b b', r a a' → q b b' → f (a, b) = g (a', b')) :
    ∀ {l1 : List α} {l1' : List α'} {l2 : List β} {l2' : List β'},
      List.Forall₂ r l1 l1' → List.Forall₂ q l2 l2' →
      (l1.zip l2).any f = (l1'.zip l2').any g := by
  intro l1 l1' l2 l2' h1
  induction h1 generalizing l2 l2' with
  | nil =>
    intro h2
    rfl
  | @cons a a' t t' ha htl ih =>
    intro h2
    cases h2 with
    | nil => rfl
    | @cons b b' u u' hb htl2 =>
      simp only [List.zip_cons_cons, List.any_cons]
      rw [hf a a' b b' ha hb, ih htl2]

/-- Every pair a zip of pointwise-related lists produces is related. -/
theorem forall2_zip_mem {α β : Type} {r : α → β → Prop} :
    ∀ {l : List α} {l' : List β}, List.Forall₂ r l l' →
      ∀ p ∈ l.zip l', r p.1 p.2 := by
  intro l l' h
  induction h with
  | nil =>
    intro p hp
    simp at hp
  | @cons a a' t t' ha htl ih =>
    intro p hp
    rcases List.mem_cons.mp (by simpa [List.zip_cons_cons] using hp) with he | he
    · subst he
      exact ha
    · exact ih p he

/-- Binary64 subtraction of a value from itself is exactly zero. -/
theorem dbl_sub_self (a : Dbl) : dbl_sub a a = ⟨0, 0⟩ := by
  unfold dbl_sub
  simp only [min_self, sub_self]
  unfold dbl_round_int
  rw [if_pos rfl]

/-- The tolerance test never fires on equal inputs. -/
theorem abs_diff_gt_tol_self (a : Dbl) : abs_diff_gt_tol a a = false := by
  unfold abs_diff_gt_tol
  rw [dbl_sub_self]
  decide

/-- The pairing of `update_product_smart` is case-invariant: lowercase-equal
lookups into case-equivalent CSV lists land on case-equivalent results. -/
theorem find_csv_variant_congr {cv cv' : List CsvVariant}
    (hcv : List.Forall₂ cv_case_eq cv cv') {s s' : String}
    (hs : pylower s = pylower s') :
    cv_opt_case_eq (find_csv_variant cv s) (find_csv_variant cv' s') := by
  have hns := norm_opt_congr hs
  induction hcv with
  | nil => exact trivial
  | @cons b b' t t' hb htl ih =>
    unfold find_csv_variant
    by_cases hcond : norm_opt b.option1 = norm_opt s
    · have hcond' : norm_opt b'.option1 = norm_opt s' := by
        rw [← norm_opt_congr hb.1, ← hns]
        exact hcond
      rw [List.find?_cons_of_pos _ (by simpa using hcond),
          List.find?_cons_of_pos _ (by simpa using hcond')]
      exact hb
    · have hcond' : ¬(norm_opt b'.option1 = norm_opt s') := by
        rw [← norm_opt_congr hb.1, ← hns]
        exact hcond
      rw [List.find?_cons_of_neg _ (by simpa using hcond),
          List.find?_cons_of_neg _ (by simpa using hcond')]
      exact ih

/-- The per-pair diff is case-invariant. -/
theorem variant_update_fields_congr {a a' : RVariant} {b b' : CsvVariant}
    (ha : rv_case_eq a a') (hb : cv_case_eq b b') :
    variant_update_fields a b = variant_update_fields a' b' := by
  unfold variant_update_fields
  rw [ha.2.2.1, ha.2.2.2.1, ha.2.2.2.2.1, ha.2.2.2.2.2.1,
      hb.2.1, hb.2.2.1, hb.2.2.2.1, hb.2.2.2.2.1]

/-- A pair matched up to option-value case produces an empty diff. -/
theorem matched_no_update {a : RVariant} {b : CsvVariant} (h : rv_cv_match a b) :
    variant_update_fields a b = { } := by
  unfold variant_update_fields
  rw [h.2.1, h.2.2.1, h.2.2.2.1, h.2.2.2.2.1]
  simp [abs_diff_gt_tol_self]

/-- Lists matched up to option-value case trigger none of the three
comparators. -/
theorem matched_no_change {svl : List RVariant} {cvl : List CsvVariant}
    (hmatch : List.Forall₂ rv_cv_match svl cvl) :
    compare_variants_structure svl cvl = false ∧ compare_prices svl cvl = false ∧
    compare_inventory svl cvl = false := by
  have hlen := hmatch.length_eq
  have hsorted : List.Forall₂ rv_cv_match (sort_rvariants svl) (sort_cvariants cvl) := by
    unfold sort_rvariants sort_cvariants
    exact insertionSort_forall2 _ _ (fun a a' b b' ha hb => by rw [ha.1, hb.1]) hmatch
  refine ⟨?_, ?_, ?_⟩
  · unfold compare_variants_structure
    rw [if_neg (fun h => h hlen)]
    have hmap : svl.map (fun v => norm_opt v.option1)
        = cvl.map (fun v => norm_opt v.option1) :=
      forall2_map_eq hmatch (fun a b hr => norm_opt_congr hr.1)
    dsimp only
    rw [hmap]
    simp
  · unfold compare_prices
    rw [if_neg (fun h => h hlen)]
    rw [List.any_eq_false]
    intro pr hp
    have hr := forall2_zip_mem hsorted pr hp
    simp [hr.2.1, hr.2.2.1, abs_diff_gt_tol_self]
  · unfold compare_inventory
    rw [if_neg (fun h => h hlen)]
    rw [List.any_eq_false]
    intro pr hp
    have hr := forall2_zip_mem hsorted pr hp
    simp [hr.2.2.2.2.2]

/-- C7: variant comparison is case-invariant.  Replacing the remote and
local option values by case-variants changes neither the structural
decision, nor the price and inventory comparisons, nor which CSV variant a
remote option value is paired with, nor the per-pair diff; and a matched
pair of lists whose option values differ only in case triggers no
structural or value change at all. -/
theorem claim_c7_case_invariance (sv sv' svl : List RVariant)
    (cv cv' cvl : List CsvVariant)
    (hsv : List.Forall₂ rv_case_eq sv sv') (hcv : List.Forall₂ cv_case_eq cv cv')
    (hmatch : List.Forall₂ rv_cv_match svl cvl) :
    (compare_variants_structure sv cv = compare_variants_structure sv' cv') ∧
    (compare_prices sv cv = compare_prices sv' cv') ∧
    (compare_inventory sv cv = compare_inventory sv' cv') ∧
    (∀ s s' : String, pylower s = pylower s' →
      cv_opt_case_eq (find_csv_variant cv s) (find_csv_variant cv' s')) ∧
    (∀ (a a' : RVariant) (b b' : CsvVariant), rv_case_eq a a' → cv_case_eq b b' →
      variant_update_fields a b = variant_update_fields a' b') ∧
    (compare_variants_structure svl cvl = false ∧ compare_prices svl cvl = false ∧
     compare_inventory svl cvl = false ∧
     ∀ (a : RVariant) (b : CsvVariant), rv_cv_match a b →
       variant_update_fields a b = { }) := by
  have hlen_sv := hsv.length_eq
  have hlen_cv := hcv.length_eq
  have hsort_sv : List.Forall₂ rv_case_eq (sort_rvariants sv) (sort_rvariants sv') := by
    unfold sort_rvariants
    exact insertionSort_forall2 _ _ (fun a a' b b' ha hb => by rw [ha.1, hb.1]) hsv
  have hsort_cv : List.Forall₂ cv_case_eq (sort_cvariants cv) (sort_cvariants cv') := by
    unfold sort_cvariants
    exact insertionSort_forall2 _ _ (fun a a' b b' ha hb => by rw [ha.1, hb.1]) hcv
  refine ⟨?_, ?_, ?_, fun s s' hs => find_csv_variant_congr hcv hs,
    fun a a' b b' ha hb => variant_update_fields_congr ha hb,
    (matched_no_change hmatch).1, (matched_no_change hmatch).2.1,
    (matched_no_change hmatch).2.2, fun a b h => matched_no_update h⟩
  · unfold compare_variants_structure
    rw [hlen_sv, hlen_cv,
      forall2_map_eq hsv (fun a b hr => norm_opt_congr hr.1),
      forall2_map_eq hcv (fun a b hr => norm_opt_congr hr.1)]
  · unfold compare_prices
    rw [hlen_sv, hlen_cv]
    by_cases hl : sv'.length ≠ cv'.length
    · rw [if_pos hl, if_pos hl]
    · rw [if_neg hl, if_neg hl]
      exact zip_any_congr
        (fun a a' b b' ha hb => by
          dsimp only
          rw [ha.2.2.1, ha.2.2.2.1, hb.2.1, hb.2.2.1])
        hsort_sv hsort_cv
  · unfold compare_inventory
    rw [hlen_sv, hlen_cv]
    by_cases hl : sv'.length ≠ cv'.length
    · rw [if_pos hl, if_pos hl]
    · rw [if_neg hl, if_neg hl]
      exact zip_any_congr
        (fun a a' b b' ha hb => by
          dsimp only
          rw [ha.2.2.2.2.2.2.1, hb.2.2.2.2.2])
        hsort_sv hsort_cv

/-- C7 witness scenario: remote variants with mixed-case options. -/
def c7_sv : List RVariant :=
  [{ vid := 1, option1 := "M", price := "10.00", inventoryQuantity := 2,
     inventoryItemId := 2 },
   { vid := 3, option1 := "s", price := "12.00", inventoryQuantity := 1,
     inventoryItemId := 4 }]

/-- C7 witness scenario: the same remote variants with cases flipped. -/
def c7_svL : List RVariant :=
  [{ vid := 1, option1 := "m", price := "10.00", inventoryQuantity := 2,
     inventoryItemId := 2 },
   { vid := 3, option1 := "S", price := "12.00", inventoryQuantity := 1,
     inventoryItemId := 4 }]

/-- C7 witness scenario: matching CSV variants, mixed case. -/
def c7_cv : List CsvVariant :=
  [{ option1 := "m", price := "10.00", inventoryQuantity := 2 },
   { option1 := "S", price := "12.00", inventoryQuantity := 1 }]

/-- C7 witness scenario: the same CSV variants with cases flipped. -/
def c7_cvL : List CsvVariant :=
  [{ option1 := "M", price := "10.00", inventoryQuantity := 2 },
   { option1 := "s", price := "12.00", inventoryQuantity := 1 }]

/-- Witness for C7: on concrete mixed-case lists, flipping every option
value's case changes none of the three comparator results, and the
case-only mismatched pairing triggers no change at all. -/
theorem claim_c7_witness :
    compare_variants_structure c7_sv c7_cv
      = compare_variants_structure c7_svL c7_cvL ∧
    compare_prices c7_sv c7_cv = compare_prices c7_svL c7_cvL ∧
    compare_inventory c7_sv c7_cv = compare_inventory c7_svL c7_cvL ∧
    compare_variants_structure c7_sv c7_cv = false ∧
    compare_prices c7_sv c7_cv = false ∧
    compare_inventory c7_sv c7_cv = false := by
  have h := claim_c7_case_invariance c7_sv c7_svL c7_sv c7_cv c7_cvL c7_cv
    (List.Forall₂.cons (by decide) (List.Forall₂.cons (by decide) List.Forall₂.nil))
    (List.Forall₂.cons (by decide) (List.Forall₂.cons (by decide) List.Forall₂.nil))
    (List.Forall₂.cons (by decide) (List.Forall₂.cons (by decide) List.Forall₂.nil))
  exact ⟨h.1, h.2.1, h.2.2.1, h.2.2.2.2.2.1, h.2.2.2.2.2.2.1, h.2.2.2.2.2.2.2.1⟩

/-! ### Second-run idempotence (C2) -/

/-- Dropping a prefix twice drops it once. -/
theorem dropWhile_self {α : Type} (p : α → Bool) (l : List α) :
    (l.dropWhile p).dropWhile p = l.dropWhile p := by
  induction l with
  | nil => rfl
  | cons a l ih =>
    by_cases h : p a
    · simp [List.dropWhile_cons, h, ih]
    · simp [List.dropWhile_cons, h]

/-- The head surviving a `dropWhile` fails the predicate. -/
theorem dropWhile_head_false {α : Type} {p : α → Bool} {l : List α} {a : α}
    {as : List α} (h : l.dropWhile p = a :: as) : p a = false := by
  induction l with
  | nil => simp at h
  | cons x xs ih =>
    rw [List.dropWhile_cons] at h
    split at h
    · exact ih h
    · next hx =>
      cases h
      simpa using hx

/-- Trimming is idempotent. -/
theorem py_trim_chars_idem (l : List Char) :
    py_trim_chars (py_trim_chars l) = py_trim_chars l := by
  unfold py_trim_chars
  have h1 : (((l.dropWhile Char.isWhitespace).reverse.dropWhile
      Char.isWhitespace).reverse).dropWhile Char.isWhitespace
      = ((l.dropWhile Char.isWhitespace).reverse.dropWhile Char.isWhitespace).reverse := by
    cases hX : ((l.dropWhile Char.isWhitespace).reverse.dropWhile
        Char.isWhitespace).reverse with
    | nil => simp
    | cons a as =>
      have hA : ((l.dropWhile Char.isWhitespace).reverse.dropWhile
            Char.isWhitespace).reverse
          ++ ((l.dropWhile Char.isWhitespace).reverse.takeWhile
            Char.isWhitespace).reverse
          = l.dropWhile Char.isWhitespace := by
        rw [← List.reverse_append, List.takeWhile_append_dropWhile, List.reverse_reverse]
      rw [hX] at hA
      have hfalse : Char.isWhitespace a = false :=
        dropWhile_head_false (l := l) (by rw [← hA]; rfl)
      rw [List.dropWhile_cons, hfalse]
      simp
  rw [h1, List.reverse_reverse, dropWhile_self]

/-- Stripping is idempotent. -/
theorem pystrip_idem (s : String) : pystrip (pystrip s) = pystrip s := by
  show String.mk (py_trim_chars (py_trim_chars s.toList)) = _
  rw [py_trim_chars_idem]
  rfl

/-- Setting a key makes it readable. -/
theorem find_set_helper (h : String) (pid : Nat) :
    ∀ (c : Cache), (cache_lookup c h).isSome = true →
      (c.map (fun e => if e.1 = h then (h, pid) else e)).find? (fun e => e.1 = h)
        = some (h, pid) := by
  intro c hp
  induction c with
  | nil => simp [cache_lookup] at hp
  | cons e es ih =>
    by_cases he : e.1 = h
    · simp only [List.map_cons, if_pos he]
      rw [List.find?_cons_of_pos _ (by simp)]
    · have hp2 : (cache_lookup es h).isSome = true := by
        unfold cache_lookup at hp ⊢
        rw [List.find?_cons_of_neg _ (by simpa using he)] at hp
        exact hp
      simp only [List.map_cons, if_neg he]
      rw [List.find?_cons_of_neg _ (by simpa using he)]
      exact ih hp2

/-- Looking up the key just set. -/
theorem cache_lookup_set_self (c : Cache) (h : String) (pid : Nat) :
    cache_lookup (cache_set c h pid) h = some pid := by
  unfold cache_set
  split
  · next hp =>
    unfold cache_lookup
    rw [find_set_helper h pid c hp]
    rfl
  · next hp =>
    unfold cache_lookup
    rw [List.find?_append]
    cases hf : List.find? (fun e => e.1 = h) c with
    | some e =>
      exact absurd (by unfold cache_lookup; rw [hf]; rfl) hp
    | none =>
      simp [List.find?]

/-- Setting one key leaves every other key's lookup unchanged. -/
theorem cache_lookup_set_other (c : Cache) (h h2 : String) (pid : Nat)
    (hne : h2 ≠ h) : cache_lookup (cache_set c h pid) h2 = cache_lookup c h2 := by
  unfold cache_set
  split
  · next hp =>
    clear hp
    unfold cache_lookup
    congr 1
    induction c with
    | nil => rfl
    | cons e es ih =>
      by_cases he : e.1 = h
      · simp only [List.map_cons, if_pos he]
        rw [List.find?_cons_of_neg _ (by simpa using Ne.symm hne),
          List.find?_cons_of_neg _ (by rw [he]; simpa using Ne.symm hne)]
        exact ih
      · simp only [List.map_cons, if_neg he]
        by_cases he2 : e.1 = h2
        · rw [List.find?_cons_of_pos _ (by simpa using he2),
            List.find?_cons_of_pos _ (by simpa using he2)]
        · rw [List.find?_cons_of_neg _ (by simpa using he2),
            List.find?_cons_of_neg _ (by simpa using he2)]
          exact ih
  · unfold cache_lookup
    rw [List.find?_append]
    cases hf : List.find? (fun e => e.1 = h2) c with
    | some e => rfl
    | none =>
      rw [List.find?_cons_of_neg _ (by simpa using Ne.symm hne)]
      rfl

/-- Building the cache never creates an entry for an unlisted handle. -/
theorem cache_build_absent (ps : List RProduct) (acc : Cache) (h : String)
    (habs : ∀ p ∈ ps, p.handle ≠ h) :
    cache_lookup (ps.foldl cache_build_step acc) h = cache_lookup acc h := by
  induction ps generalizing acc with
  | nil => rfl
  | cons p ps ih =>
    rw [List.foldl_cons, ih _ (fun q hq => habs q (by simp [hq]))]
    unfold cache_build_step
    split
    · unfold cache_insert_if_absent
      split
      · rfl
      · unfold cache_lookup
        rw [List.find?_append]
        cases hf : List.find? (fun e => e.1 = h) acc with
        | some e => rfl
        | none =>
          rw [List.find?_cons_of_neg _ (by simpa using habs p (by simp))]
          rfl
    · rfl

/-- Every id the built cache maps to is an id of a listed product. -/
theorem cache_build_pids (ps : List RProduct) (acc : Cache) (h : String) (pid : Nat) :
    cache_lookup (ps.foldl cache_build_step acc) h = some pid →
    cache_lookup acc h = some pid ∨ ∃ p ∈ ps, p.pid = pid := by
  induction ps generalizing acc with
  | nil =>
    intro hl
    exact Or.inl hl
  | cons p ps ih =>
    intro hl
    rw [List.foldl_cons] at hl
    rcases ih _ hl with h1 | ⟨q, hq, he⟩
    · unfold cache_build_step at h1
      split at h1
      · unfold cache_insert_if_absent at h1
        split at h1
        · exact Or.inl h1
        · unfold cache_lookup at h1
          rw [List.find?_append] at h1
          cases hf : List.find? (fun e => e.1 = h) acc with
          | some e =>
            rw [hf] at h1
            exact Or.inl (by unfold cache_lookup; rw [hf]; exact h1)
          | none =>
            rw [hf] at h1
            by_cases hph : p.handle = h
            · refine Or.inr ⟨p, by simp, ?_⟩
              have : some ((p.handle, p.pid)).2 = some pid := by
                rw [← h1]
                rw [List.find?_cons_of_pos _ (by simpa using hph)]
                rfl
              simpa using this
            · rw [List.find?_cons_of_neg _ (by simpa using hph)] at h1
              simp at h1
      · exact Or.inl h1
    · exact Or.inr ⟨q, by simp [hq], he⟩

/-- Whatever the paginated scan returns was listed. -/
theorem scan_go_sub (fuel : Nat) : ∀ (l : List RProduct) (s : Option Nat),
    ∀ p ∈ (scan_pages.go fuel l s).1, p ∈ l := by
  induction fuel with
  | zero =>
    intro l s p hp
    simp [scan_pages.go] at hp
  | succ fuel ih =>
    intro l s p hp
    rw [scan_pages.go] at hp
    dsimp only at hp
    split at hp
    · simp at hp
    · split at hp
      · exact List.mem_of_mem_take hp
      · rcases List.mem_append.mp hp with h | h
        · exact List.mem_of_mem_take h
        · exact List.mem_of_mem_drop (ih _ _ p h)

/-- Fetching an id resolved in the original listing is unaffected by
appended products. -/
theorem fetch_append_old (l l2 : List RProduct) (n n2 : Nat) (pid : Nat)
    (q : RProduct) (hq : Store.fetch ⟨l, n⟩ pid = some q) :
    Store.fetch ⟨l ++ l2, n2⟩ pid = some q := by
  unfold Store.fetch at hq ⊢
  rw [List.find?_append, hq]
  rfl

/-- Fetching a freshly appended product finds it. -/
theorem fetch_append_fresh (l : List RProduct) (P : RProduct) (n2 : Nat)
    (habs : ∀ q ∈ l, q.pid ≠ P.pid) :
    Store.fetch ⟨l ++ [P], n2⟩ P.pid = some P := by
  unfold Store.fetch
  rw [List.find?_append]
  have hnone : List.find? (fun p => p.pid = P.pid) l = none := by
    rw [List.find?_eq_none]
    intro q hqm
    simpa using habs q hqm
  rw [hnone]
  simp [List.find?]

/-- A pid-preserving in-place product edit does not affect other fetches. -/
theorem fetch_map_pid_ne (s : Store) (pid pid2 : Nat) (f : RProduct → RProduct)
    (hf : ∀ q, (f q).pid = q.pid) (hne : pid2 ≠ pid) :
    Store.fetch (Store.map_pid s pid f) pid2 = Store.fetch s pid2 := by
  unfold Store.fetch Store.map_pid
  dsimp only
  induction s.products with
  | nil => rfl
  | cons q qs ih =>
    simp only [List.map_cons]
    by_cases hq : q.pid = pid
    · rw [if_pos hq,
        List.find?_cons_of_neg _ (by simp [hf, hq]; exact fun hc => hne hc.symm),
        List.find?_cons_of_neg _ (by simp [hq]; exact fun hc => hne hc.symm)]
      exact ih
    · rw [if_neg hq]
      by_cases hq2 : q.pid = pid2
      · rw [List.find?_cons_of_pos _ (by simpa using hq2),
          List.find?_cons_of_pos _ (by simpa using hq2)]
      · rw [List.find?_cons_of_neg _ (by simpa using hq2),
          List.find?_cons_of_neg _ (by simpa using hq2)]
        exact ih

/-- Attaching an image to one product does not affect other fetches. -/
theorem fetch_add_image_ne (s : Store) (pid pid2 : Nat) (src : String)
    (hne : pid2 ≠ pid) :
    Store.fetch (Store.add_image s pid src) pid2 = Store.fetch s pid2 := by
  unfold Store.fetch Store.add_image
  dsimp only
  induction s.products with
  | nil => rfl
  | cons q qs ih =>
    simp only [List.map_cons]
    by_cases hq : q.pid = pid
    · rw [if_pos hq,
        List.find?_cons_of_neg _ (by simp [hq]; exact fun hc => hne hc.symm),
        List.find?_cons_of_neg _ (by simp [hq]; exact fun hc => hne hc.symm)]
      exact ih
    · rw [if_neg hq]
      by_cases hq2 : q.pid = pid2
      · rw [List.find?_cons_of_pos _ (by simpa using hq2),
          List.find?_cons_of_pos _ (by simpa using hq2)]
      · rw [List.find?_cons_of_neg _ (by simpa using hq2),
          List.find?_cons_of_neg _ (by simpa using hq2)]
        exact ih

/-- The keys of a row upsert: unchanged when present, appended when new. -/
theorem upsert_row_keys (acc : List (String × List Row)) (h : String) (r : Row) :
    (upsert_row acc h r).map Prod.fst
      = if h ∈ acc.map Prod.fst then acc.map Prod.fst
        else acc.map Prod.fst ++ [h] := by
  induction acc with
  | nil => simp [upsert_row]
  | cons e es ih =>
    unfold upsert_row
    by_cases he : e.1 = h
    · rw [if_pos he]
      simp [he]
    · rw [if_neg he]
      simp only [List.map_cons, ih]
      by_cases hm : h ∈ es.map Prod.fst
      · rw [if_pos hm, if_pos (by simp [hm])]
      · rw [if_neg hm,
          if_neg (by simp only [List.mem_cons, not_or]; exact ⟨fun hc => he hc.symm, hm⟩)]
        rfl

/-- Group keys are pairwise distinct. -/
theorem group_keys_nodup (rows : List Row) :
    ((group_rows_by_handle rows).map Prod.fst).Nodup := by
  unfold group_rows_by_handle
  suffices h : ∀ acc : List (String × List Row), (acc.map Prod.fst).Nodup →
      ((rows.foldl (fun acc r =>
        if pystrip r.urlHandle = "" then acc
        else upsert_row acc (pystrip r.urlHandle) r) acc).map Prod.fst).Nodup by
    exact h [] (by simp)
  induction rows with
  | nil =>
    intro acc hacc
    exact hacc
  | cons r rs ih =>
    intro acc hacc
    rw [List.foldl_cons]
    apply ih
    dsimp only
    split
    · exact hacc
    · rw [upsert_row_keys]
      split
      · exact hacc
      · next hnm =>
        simp [List.nodup_append, hacc, hnm]

/-- The CSV data's variant list is the row-wise build. -/
theorem build_variants_eq (rows : List Row) :
    (build_product_data_from_csv rows).variants
      = rows.map build_product_data_from_csv.build_variant := rfl

/-- With pairwise-distinct normalised option values, the first-match lookup
finds exactly the matching variant. -/
theorem find_csv_variant_self (l : List CsvVariant)
    (hnd : (l.map (fun v => norm_opt v.option1)).Nodup) :
    ∀ cv ∈ l, ∀ s : String, norm_opt s = norm_opt cv.option1 →
      find_csv_variant l s = some cv := by
  induction l with
  | nil =>
    intro cv hmem
    simp at hmem
  | cons b bs ih =>
    rw [List.map_cons, List.nodup_cons] at hnd
    intro cv hmem s hs
    unfold find_csv_variant
    rcases List.mem_cons.mp hmem with he | hmem2
    · subst he
      rw [List.find?_cons_of_pos _ (by simp [hs])]
    · by_cases hb : norm_opt b.option1 = norm_opt s
      · exfalso
        apply hnd.1
        rw [hb, hs]
        exact List.mem_map_of_mem _ hmem2
      · rw [List.find?_cons_of_neg _ (by simpa using hb)]
        exact ih hnd.2 cv hmem2 s hs

/-- An indexed variant builder whose values copy the CSV build is pointwise
matched with it. -/
theorem enum_map_match {f : Nat × Row → RVariant}
    (hf : ∀ ir : Nat × Row,
      rv_cv_match (f ir) (build_product_data_from_csv.build_variant ir.2))
    (rows : List Row) :
    List.Forall₂ rv_cv_match (rows.enum.map f)
      (rows.map build_product_data_from_csv.build_variant) := by
  suffices h : ∀ n, List.Forall₂ rv_cv_match ((List.enumFrom n rows).map f)
      (rows.map build_product_data_from_csv.build_variant) from h 0
  induction rows with
  | nil =>
    intro n
    exact List.Forall₂.nil
  | cons r rs ih =>
    intro n
    simp only [List.enumFrom, List.map_cons]
    exact List.Forall₂.cons (hf (n, r)) (ih (n + 1))

/-- The variant loop is a no-op when every matched pair diffs empty. -/
theorem smart_fold_noop (d : CsvData) (vs : List RVariant) (a : SmartAcc)
    (hv : ∀ sv ∈ vs, ∀ cv, find_csv_variant d.variants sv.option1 = some cv →
      variant_update_fields sv cv = { }) :
    vs.foldl (smart_variant_step d) a = a := by
  induction vs generalizing a with
  | nil => rfl
  | cons v vs ih =>
    rw [List.foldl_cons]
    have hstep : smart_variant_step d a v = a := by
      unfold smart_variant_step
      cases hf : find_csv_variant d.variants v.option1 with
      | none => rfl
      | some cv =>
        dsimp only
        rw [hv v (by simp) cv hf]
        simp [VariantUpdate.nonempty, VariantUpdate.touches_price,
          VariantUpdate.touches_other]
    rw [hstep]
    exact ih a (fun sv hm => hv sv (by simp [hm]))

/-- `update_product_smart` is a complete no-op — no flags, no store change,
no calls — when nothing differs. -/
theorem update_smart_noop (cfg : Config) (s : Store) (pid : Nat) (p : RProduct)
    (d : CsvData) (skip : Bool)
    (hV : ∀ sv ∈ p.variants, ∀ cv, find_csv_variant d.variants sv.option1 = some cv →
      variant_update_fields sv cv = { })
    (hI : compare_inventory p.variants d.variants = false)
    (hIM : skip = true ∨ pystrip d.imageUrl = "" ∨
      p.images.any (fun img => norm_url (pystrip d.imageUrl) = norm_url img.src ∨
        url_filename (pystrip d.imageUrl) = url_filename img.src) = true)
    (hT : p.title = d.title)
    (hD : is_description_empty p.bodyHtml = false ∨
      is_description_empty d.bodyHtml = true) :
    update_product_smart cfg s pid p d skip = ({ }, s, []) := by
  have h2 : smart_inventory_phase cfg p d s [] = (s, [], false) := by
    unfold smart_inventory_phase
    simp [hI]
  have h3 : smart_image_phase skip pid p d s [] = (s, [], false) := by
    unfold smart_image_phase
    rcases hIM with hsk | himg | hpres
    · simp [hsk]
    · split
      · rfl
      · simp [himg]
    · split
      · rfl
      · dsimp only
        split
        · rfl
        · simp [hpres]
  have h4 : smart_title_phase pid p d s [] = (s, [], false) := by
    unfold smart_title_phase
    dsimp only
    rw [hT]
    rcases hD with hD1 | hD2
    · rw [show is_description_empty p.bodyHtml = false from hD1]
      simp
    · rw [hD2]
      simp
  unfold update_product_smart
  dsimp only
  rw [smart_fold_noop d p.variants _ hV]
  rw [show ({ store := s, muts := [] } : SmartAcc).store = s from rfl]
  rw [show ({ store := s, muts := [] } : SmartAcc).muts = [] from rfl]
  rw [h2]
  dsimp only
  rw [h3]
  dsimp only
  rw [h4]
  rfl

/-- The conditions a local group must satisfy for a clean second run: a
truthy handle, no secondary keys on the base row, pairwise-distinct
normalised option values, and no ignore tag among the tags the creation
payload carries. -/
abbrev group_ok (cfg : Config) (g : String × List Row) : Prop :=
  g.1 ≠ "" ∧
  normalize_barcode g.2.headI.barcode = "" ∧
  pystrip g.2.headI.sku = "" ∧
  (((build_product_data_from_csv g.2).variants.map
    (fun v => norm_opt v.option1)).Nodup) ∧
  has_ignore_tag cfg.ignoreTags (split_tags (py_join ", "
    (py_sorted_str ((split_tags g.2.headI.tags ++ [cfg.scraperTag]).dedup)))) = false

/-- A group the reconciler state has fully absorbed: the cache maps its
handle to a fetchable, unprotected product whose diffable content equals
the group's build data. -/
def SettledG (cfg : Config) (opts : Opts) (st : PState)
    (g : String × List Row) : Prop :=
  g.1 ≠ "" ∧
  normalize_barcode g.2.headI.barcode = "" ∧
  pystrip g.2.headI.sku = "" ∧
  ∃ m, st.cache = some m ∧ ∃ pid p,
    cache_lookup m g.1 = some pid ∧
    Store.fetch st.store pid = some p ∧
    has_ignore_tag cfg.ignoreTags (split_tags p.tags) = false ∧
    pylower p.status ≠ "archived" ∧
    compare_variants_structure p.variants
      (build_product_data_from_csv g.2).variants = false ∧
    (∀ sv ∈ p.variants, ∀ cv,
      find_csv_variant (build_product_data_from_csv g.2).variants sv.option1 = some cv →
      variant_update_fields sv cv = { }) ∧
    compare_inventory p.variants (build_product_data_from_csv g.2).variants = false ∧
    (opts.skipImages = true ∨
      pystrip (build_product_data_from_csv g.2).imageUrl = "" ∨
      p.images.any (fun img =>
        norm_url (pystrip (build_product_data_from_csv g.2).imageUrl)
          = norm_url img.src ∨
        url_filename (pystrip (build_product_data_from_csv g.2).imageUrl)
          = url_filename img.src) = true) ∧
    p.title = (build_product_data_from_csv g.2).title ∧
    (is_description_empty p.bodyHtml = false ∨
      is_description_empty (build_product_data_from_csv g.2).bodyHtml = true)

/-- A whole batch the state has absorbed, with distinct owners. -/
def AllSettled (cfg : Config) (opts : Opts) (st : PState)
    (gs : List (String × List Row)) : Prop :=
  (∀ g ∈ gs, SettledG cfg opts st g) ∧
  ∀ m : Cache, st.cache = some m → (gs.map (fun g => cache_lookup m g.1)).Nodup

/-- Without secondary keys, IDENTIFY is a pure cache lookup. -/
theorem identify_no_keys (st : PState) (h : String) (rows : List Row)
    (hb : normalize_barcode rows.headI.barcode = "")
    (hsk : pystrip rows.headI.sku = "") (hne : h ≠ "") :
    identify_phase st h rows =
      { existingId := cache_lookup (load_existing_products_cache st.store st.cache).1 h
        handle := h
        state := { store := st.store
                   cache := some (load_existing_products_cache st.store st.cache).1 }
        muts := [] } := by
  unfold identify_phase
  dsimp only
  rw [hb, hsk, if_neg (by simp)]
  unfold find_existing_product_id
  rw [if_neg hne]

/-- L2: a settled group is classified SKIP; the step leaves the state
unchanged except for at most the keep-draft tag PUT on the group's own
product. -/
theorem process_group_settled (cfg : Config) (opts : Opts)
    (oracle : String → Option FailPoint) (st : PState) (g : String × List Row)
    (horacle : oracle g.1 = none) (hs : SettledG cfg opts st g) :
    (process_group cfg opts oracle st g
        = (st, { delta := { skipped := 1 }, muts := [], handleDone := g.1 })) ∨
    (∃ pid t, (∀ m, st.cache = some m → cache_lookup m g.1 = some pid) ∧
      process_group cfg opts oracle st g
        = ({ store := Store.map_pid st.store pid (fun q => { q with tags := t })
             cache := st.cache },
           { delta := { skipped := 1 }, muts := [MutCall.putTags pid t],
             handleDone := g.1 })) := by
  obtain ⟨hne, hb, hsk, m, hcache, pid, p, hlook, hfetch, hign, harch,
    hstruct, hV, hI, hIM, hT, hD⟩ := hs
  by_cases hdry : opts.dryRun = true
  · left
    unfold process_group
    rw [if_pos hdry]
  · have hnoop := fun (s2 : Store) => update_smart_noop cfg s2
      pid p (build_product_data_from_csv g.2) opts.skipImages hV hI hIM hT hD
    by_cases htag : (pylower p.status = "draft" ∨ cfg.keepDraftTag ∈ split_tags p.tags)
        ∧ cfg.keepDraftTag ∉ split_tags p.tags
    · right
      refine ⟨pid, py_join ", "
        (py_sorted_str ((split_tags p.tags ++ [cfg.keepDraftTag]).dedup)), ?_, ?_⟩
      · intro m2 hm2
        rw [hcache] at hm2
        cases hm2
        exact hlook
      · unfold process_group
        rw [if_neg hdry, identify_no_keys st g.1 g.2 hb hsk hne]
        dsimp only
        rw [hcache]
        simp only [load_existing_products_cache]
        rw [hlook]
        dsimp only
        rw [horacle]
        dsimp only
        rw [hfetch]
        dsimp only
        rw [hign]
        rw [if_neg (by simp)]
        rw [if_neg harch]
        rw [if_pos htag]
        dsimp only
        rw [hstruct]
        rw [if_neg (by simp)]
        rw [hnoop _]
        dsimp only
        rw [if_neg (by simp)]
        rfl
    · left
      unfold process_group
      rw [if_neg hdry, identify_no_keys st g.1 g.2 hb hsk hne]
      dsimp only
      rw [hcache]
      simp only [load_existing_products_cache]
      rw [hlook]
      dsimp only
      rw [horacle]
      dsimp only
      rw [hfetch]
      dsimp only
      rw [hign]
      rw [if_neg (by simp)]
      rw [if_neg harch]
      rw [if_neg htag]
      dsimp only
      rw [hstruct]
      rw [if_neg (by simp)]
      rw [hnoop _]
      dsimp only
      rw [if_neg (by simp)]
      rw [← hcache]
      rfl

/-- Tagging one product preserves the settledness of a group owned by any
other product. -/
theorem settled_preserved_tags (cfg : Config) (opts : Opts) (st : PState)
    (pid : Nat) (t : String) (g : String × List Row)
    (hs : SettledG cfg opts st g)
    (hdiff : ∀ m, st.cache = some m → cache_lookup m g.1 ≠ some pid) :
    SettledG cfg opts
      { store := Store.map_pid st.store pid (fun q => { q with tags := t })
        cache := st.cache } g := by
  obtain ⟨h1, h2, h3, m, hc, pid2, p, hl, hf, rest⟩ := hs
  refine ⟨h1, h2, h3, m, hc, pid2, p, hl, ?_, rest⟩
  have hne2 : pid2 ≠ pid := fun he => hdiff m hc (by rw [hl, he])
  show Store.fetch (Store.map_pid st.store pid (fun q => { q with tags := t })) pid2
    = some p
  rw [fetch_map_pid_ne st.store pid pid2 (fun q => { q with tags := t })
    (fun q => rfl) hne2]
  exact hf

/-- Run-2 composition: over a fully settled batch, every group is counted
SKIP and the only calls are keep-draft tag PUTs. -/
theorem process_groups_settled (cfg : Config) (opts : Opts)
    (oracle : String → Option FailPoint)
    (horacle : ∀ h, oracle h = none) :
    ∀ (gs : List (String × List Row)) (st : PState),
      AllSettled cfg opts st gs →
      (process_groups cfg opts oracle st gs).summary = { skipped := gs.length } ∧
      (∀ mt ∈ (process_groups cfg opts oracle st gs).muts,
        ∃ pid t, mt = MutCall.putTags pid t) ∧
      (process_groups cfg opts oracle st gs).processedHandles = gs.map Prod.fst := by
  intro gs
  induction gs with
  | nil =>
    intro st hall
    refine ⟨rfl, ?_, rfl⟩
    intro mt hmt
    simp [process_groups] at hmt
  | cons g gs ih =>
    intro st hall
    obtain ⟨hsets, hnodup⟩ := hall
    have hsg := hsets g (by simp)
    rcases process_group_settled cfg opts oracle st g (horacle g.1) hsg with
      hcase | ⟨pid, t, hpid, hcase⟩
    · have hall2 : AllSettled cfg opts st gs :=
        ⟨fun g2 hg2 => hsets g2 (by simp [hg2]),
         fun m hm => (List.nodup_cons.mp (by simpa using hnodup m hm)).2⟩
      obtain ⟨ihs, ihm, ihh⟩ := ih st hall2
      simp only [process_groups, hcase, List.nil_append]
      refine ⟨?_, ?_, ?_⟩
      · rw [ihs]
        show Summary.add { skipped := 1 } { skipped := gs.length } = _
        unfold Summary.add
        simp only [Summary.mk.injEq, List.length_cons, true_and, and_true]
        omega
      · intro mt hmt
        exact ihm mt hmt
      · rw [ihh]
        rfl
    · have hall2 : AllSettled cfg opts
          { store := Store.map_pid st.store pid (fun q => { q with tags := t })
            cache := st.cache } gs := by
        constructor
        · intro g2 hg2
          apply settled_preserved_tags cfg opts st pid t g2 (hsets g2 (by simp [hg2]))
          intro m hm heq
          have hnd := hnodup m hm
          rw [List.map_cons, List.nodup_cons] at hnd
          apply hnd.1
          rw [hpid m hm]
          exact List.mem_map.mpr ⟨g2, hg2, heq⟩
        · intro m hm
          have hm2 : st.cache = some m := hm
          exact (List.nodup_cons.mp (by simpa using hnodup m hm2)).2
      obtain ⟨ihs, ihm, ihh⟩ := ih _ hall2
      simp only [process_groups, hcase]
      refine ⟨?_, ?_, ?_⟩
      · rw [ihs]
        show Summary.add { skipped := 1 } { skipped := gs.length } = _
        unfold Summary.add
        simp only [Summary.mk.injEq, List.length_cons, true_and, and_true]
        omega
      · intro mt hmt
        rcases List.mem_append.mp hmt with h | h
        · exact ⟨pid, t, by simpa using h⟩
        · exact ihm mt h
      · rw [ihh]
        rfl

/-- Appending a differently-numbered product does not affect a fetch. -/
theorem fetch_append_single_ne (l : List RProduct) (P : RProduct) (n n2 : Nat)
    (pid2 : Nat) (hne : P.pid ≠ pid2) :
    Store.fetch ⟨l ++ [P], n2⟩ pid2 = Store.fetch ⟨l, n⟩ pid2 := by
  unfold Store.fetch
  dsimp only
  rw [List.find?_append]
  cases hf : List.find? (fun p => p.pid = pid2) l with
  | some q => rfl
  | none => simp [hne]

/-- Fetching the product an image was just attached to. -/
theorem fetch_add_image_self (s : Store) (pid : Nat) (src : String) (q : RProduct)
    (hq : Store.fetch s pid = some q) :
    Store.fetch (Store.add_image s pid src) pid
      = some { q with images := ⟨s.nextId, src, 1⟩ ::
          q.images.map (fun im => { im with position := im.position + 1 }) } := by
  unfold Store.fetch at hq
  unfold Store.fetch Store.add_image
  dsimp only
  revert hq
  induction s.products with
  | nil =>
    intro hq
    simp at hq
  | cons r rs ih =>
    intro hq
    simp only [List.map_cons]
    by_cases hr : r.pid = pid
    · rw [List.find?_cons_of_pos _ (by simpa using hr)] at hq
      injection hq with he
      subst he
      rw [if_pos hr, List.find?_cons_of_pos _ (by simpa using hr)]
    · rw [List.find?_cons_of_neg _ (by simpa using hr)] at hq
      rw [if_neg hr, List.find?_cons_of_neg _ (by simpa using hr)]
      exact ih hq

/-- Every left element of a pointwise-related pair of lists has a partner. -/
theorem forall2_mem_left {α β : Type} {r : α → β → Prop} :
    ∀ {l : List α} {l2 : List β}, List.Forall₂ r l l2 →
      ∀ {a}, a ∈ l → ∃ b ∈ l2, r a b := by
  intro l l2 h
  induction h with
  | nil =>
    intro a ha
    simp at ha
  | cons hr htl ih =>
    intro a ha
    rcases List.mem_cons.mp ha with he | he
    · subst he
      exact ⟨_, by simp, hr⟩
    · obtain ⟨b, hb, hrb⟩ := ih he
      exact ⟨b, by simp [hb], hrb⟩

/-- A variant list pointwise matching the CSV build, with distinct
normalised options, passes every comparator and diffs empty. -/
theorem matched_list_settles {V : List RVariant} {rows : List Row}
    (hmatch : List.Forall₂ rv_cv_match V
      (rows.map build_product_data_from_csv.build_variant))
    (hnd : ((rows.map build_product_data_from_csv.build_variant).map
      (fun v => norm_opt v.option1)).Nodup) :
    compare_variants_structure V
      (rows.map build_product_data_from_csv.build_variant) = false ∧
    compare_inventory V
      (rows.map build_product_data_from_csv.build_variant) = false ∧
    ∀ sv ∈ V, ∀ cv, find_csv_variant
        (rows.map build_product_data_from_csv.build_variant) sv.option1 = some cv →
      variant_update_fields sv cv = { } := by
  obtain ⟨h1, _, h2⟩ := matched_no_change hmatch
  refine ⟨h1, h2, ?_⟩
  intro sv hsv cv hfind
  obtain ⟨cv2, hcv2mem, hr⟩ := forall2_mem_left hmatch hsv
  have hfind2 : find_csv_variant
      (rows.map build_product_data_from_csv.build_variant) sv.option1 = some cv2 :=
    find_csv_variant_self _ hnd cv2 hcv2mem sv.option1 (norm_opt_congr hr.1)
  rw [hfind] at hfind2
  injection hfind2 with he
  subst he
  exact matched_no_update hr

/-- Creation settles its group: the new product sits at the fresh id,
fetches of older ids are untouched, id bounds grow, and the product's
diffable content equals the build data. -/
theorem create_settles (cfg : Config) (opts : Opts) (s : Store)
    (g : String × List Row) (hok : group_ok cfg g) (hnz : s.nextId ≠ 0)
    (hfresh : ∀ q ∈ s.products, q.pid < s.nextId) :
    (create_product_from_csv cfg s g.2 opts.skipImages).1 = s.nextId ∧
    (∀ pid2, pid2 < s.nextId →
      Store.fetch (create_product_from_csv cfg s g.2 opts.skipImages).2.1 pid2
        = Store.fetch s pid2) ∧
    (∀ q ∈ (create_product_from_csv cfg s g.2 opts.skipImages).2.1.products,
      q.pid < (create_product_from_csv cfg s g.2 opts.skipImages).2.1.nextId) ∧
    s.nextId < (create_product_from_csv cfg s g.2 opts.skipImages).2.1.nextId ∧
    ∃ p, Store.fetch (create_product_from_csv cfg s g.2 opts.skipImages).2.1
        s.nextId = some p ∧
      has_ignore_tag cfg.ignoreTags (split_tags p.tags) = false ∧
      pylower p.status ≠ "archived" ∧
      compare_variants_structure p.variants
        (build_product_data_from_csv g.2).variants = false ∧
      (∀ sv ∈ p.variants, ∀ cv, find_csv_variant
          (build_product_data_from_csv g.2).variants sv.option1 = some cv →
        variant_update_fields sv cv = { }) ∧
      compare_inventory p.variants
        (build_product_data_from_csv g.2).variants = false ∧
      (opts.skipImages = true ∨
        pystrip (build_product_data_from_csv g.2).imageUrl = "" ∨
        p.images.any (fun img =>
          norm_url (pystrip (build_product_data_from_csv g.2).imageUrl)
            = norm_url img.src ∨
          url_filename (pystrip (build_product_data_from_csv g.2).imageUrl)
            = url_filename img.src) = true) ∧
      p.title = (build_product_data_from_csv g.2).title ∧
      (is_description_empty p.bodyHtml = false ∨
        is_description_empty (build_product_data_from_csv g.2).bodyHtml = true) := by
  obtain ⟨hne, hb, hsk, hnd, hign⟩ := hok
  have himgurl : pystrip (build_product_data_from_csv g.2).imageUrl
      = pystrip g.2.headI.productImageUrl := by
    show pystrip (pystrip g.2.headI.productImageUrl) = _
    exact pystrip_idem _
  unfold create_product_from_csv
  dsimp only
  rw [build_variants_eq]
  have hmatch : List.Forall₂ rv_cv_match
      (g.2.enum.map (fun ir =>
        ({ vid := s.nextId + 1 + 2 * ir.1
           option1 := (build_product_data_from_csv.build_variant ir.2).option1
           price := (build_product_data_from_csv.build_variant ir.2).price
           compareAtPrice := (build_product_data_from_csv.build_variant ir.2).compareAtPrice
           sku := (build_product_data_from_csv.build_variant ir.2).sku
           barcode := (build_product_data_from_csv.build_variant ir.2).barcode
           inventoryQuantity := (build_product_data_from_csv.build_variant ir.2).inventoryQuantity
           inventoryItemId := s.nextId + 2 + 2 * ir.1 } : RVariant)))
      (g.2.map build_product_data_from_csv.build_variant) :=
    enum_map_match (fun ir => ⟨rfl, rfl, rfl, rfl, rfl, rfl⟩) g.2
  obtain ⟨hstruct, hinv, hV⟩ := matched_list_settles hmatch (by
    rw [build_variants_eq] at hnd
    exact hnd)
  have hstatus : pylower (if pylower (pystrip g.2.headI.status) = "active"
      then "active" else "draft") ≠ "archived" := by
    split
    · decide
    · decide
  split
  · next hcond =>
    obtain ⟨hskf, himg, hpidnz⟩ := hcond
    refine ⟨rfl, ?_, ?_, ?_, ?_⟩
    · intro pid2 hlt
      rw [fetch_add_image_ne _ _ _ _ (by omega)]
      exact fetch_append_single_ne s.products _ s.nextId _ pid2 (by
        show s.nextId ≠ pid2
        omega)
    · intro q hq
      unfold Store.add_image at hq
      dsimp only at hq
      rcases List.mem_map.mp hq with ⟨q0, hq0, hqe⟩
      have hq0pid : q0.pid < s.nextId + 2 * g.2.length + 2 := by
        rcases List.mem_append.mp hq0 with hm | hm
        · have := hfresh q0 hm
          omega
        · have : q0.pid = s.nextId := by
            rcases (by simpa using hm : q0 = _) with rfl
            rfl
          omega
      have hqpid : q.pid = q0.pid := by
        subst hqe
        split <;> rfl
      unfold Store.add_image
      dsimp only
      rw [hqpid]
      omega
    · unfold Store.add_image
      dsimp only
      omega
    · have hfe := fetch_append_fresh s.products
        ({ pid := s.nextId
           handle := g.2.headI.urlHandle
           title := pystrip g.2.headI.title
           bodyHtml := g.2.headI.description
           vendor := g.2.headI.vendor
           ptype := g.2.headI.ptype
           tags := py_join ", "
             (py_sorted_str ((split_tags g.2.headI.tags ++ [cfg.scraperTag]).dedup))
           status := if pylower (pystrip g.2.headI.status) = "active"
             then "active" else "draft"
           variants := g.2.enum.map (fun ir =>
             ({ vid := s.nextId + 1 + 2 * ir.1
                option1 := (build_product_data_from_csv.build_variant ir.2).option1
                price := (build_product_data_from_csv.build_variant ir.2).price
                compareAtPrice := (build_product_data_from_csv.build_variant ir.2).compareAtPrice
                sku := (build_product_data_from_csv.build_variant ir.2).sku
                barcode := (build_product_data_from_csv.build_variant ir.2).barcode
                inventoryQuantity := (build_product_data_from_csv.build_variant ir.2).inventoryQuantity
                inventoryItemId := s.nextId + 2 + 2 * ir.1 } : RVariant))
           images := [] } : RProduct)
        (s.nextId + 2 * g.2.length + 2)
        (fun q hq => by
          have := hfresh q hq
          show q.pid ≠ s.nextId
          omega)
      refine ⟨_, fetch_add_image_self _ s.nextId _ _ hfe, hign, hstatus, hstruct, hV,
        hinv, ?_, rfl, ?_⟩
      · right
        right
        rw [himgurl]
        simp
      · by_cases hde : is_description_empty (build_product_data_from_csv g.2).bodyHtml = true
        · exact Or.inr hde
        · left
          show is_description_empty g.2.headI.description = false
          have : (build_product_data_from_csv g.2).bodyHtml = g.2.headI.description := rfl
          rw [← this]
          exact Bool.eq_false_iff.mpr hde
  · next hcond =>
    refine ⟨rfl, ?_, ?_, by dsimp only; omega, ?_⟩
    · intro pid2 hlt
      exact fetch_append_single_ne s.products _ s.nextId _ pid2 (by
        show s.nextId ≠ pid2
        omega)
    · intro q hq
      dsimp only at hq
      rcases List.mem_append.mp hq with hm | hm
      · have := hfresh q hm
        dsimp only
        omega
      · have : q.pid = s.nextId := by
          rcases (by simpa using hm : q = _) with rfl
          rfl
        dsimp only
        omega
    · have himgempty : opts.skipImages = true ∨ pystrip g.2.headI.productImageUrl = "" := by
        by_cases hskt : opts.skipImages = true
        · exact Or.inl hskt
        · by_cases himz : pystrip g.2.headI.productImageUrl = ""
          · exact Or.inr himz
          · exfalso
            exact hcond ⟨by simpa using hskt, himz, hnz⟩
      have hfe := fetch_append_fresh s.products
        ({ pid := s.nextId
           handle := g.2.headI.urlHandle
           title := pystrip g.2.headI.title
           bodyHtml := g.2.headI.description
           vendor := g.2.headI.vendor
           ptype := g.2.headI.ptype
           tags := py_join ", "
             (py_sorted_str ((split_tags g.2.headI.tags ++ [cfg.scraperTag]).dedup))
           status := if pylower (pystrip g.2.headI.status) = "active"
             then "active" else "draft"
           variants := g.2.enum.map (fun ir =>
             ({ vid := s.nextId + 1 + 2 * ir.1
                option1 := (build_product_data_from_csv.build_variant ir.2).option1
                price := (build_product_data_from_csv.build_variant ir.2).price
                compareAtPrice := (build_product_data_from_csv.build_variant ir.2).compareAtPrice
                sku := (build_product_data_from_csv.build_variant ir.2).sku
                barcode := (build_product_data_from_csv.build_variant ir.2).barcode
                inventoryQuantity := (build_product_data_from_csv.build_variant ir.2).inventoryQuantity
                inventoryItemId := s.nextId + 2 + 2 * ir.1 } : RVariant))
           images := [] } : RProduct)
        (s.nextId + 2 * g.2.length + 2)
        (fun q hq => by
          have := hfresh q hq
          show q.pid ≠ s.nextId
          omega)
      refine ⟨_, hfe, hign, hstatus, hstruct, hV, hinv, ?_, rfl, ?_⟩
      · rcases himgempty with h | h
        · exact Or.inl h
        · right
          left
          rw [himgurl]
          exact h
      · by_cases hde : is_description_empty (build_product_data_from_csv g.2).bodyHtml = true
        · exact Or.inr hde
        · left
          show is_description_empty g.2.headI.description = false
          have hbe : (build_product_data_from_csv g.2).bodyHtml = g.2.headI.description := rfl
          rw [← hbe]
          exact Bool.eq_false_iff.mpr hde

/-- A group with no secondary keys and a cache miss takes the CREATE path. -/
theorem process_group_creates (cfg : Config) (opts : Opts)
    (oracle : String → Option FailPoint) (st : PState) (g : String × List Row)
    (horacle : oracle g.1 = none) (hdry : opts.dryRun = false)
    (hne : g.1 ≠ "") (hb : normalize_barcode g.2.headI.barcode = "")
    (hsk : pystrip g.2.headI.sku = "")
    (hmiss : cache_lookup (load_existing_products_cache st.store st.cache).1 g.1
      = none) :
    process_group cfg opts oracle st g =
      ({ store := (create_product_from_csv cfg st.store g.2 opts.skipImages).2.1
         cache := some (cache_set (load_existing_products_cache st.store st.cache).1
           g.1 (create_product_from_csv cfg st.store g.2 opts.skipImages).1) },
       { delta := { created := 1 }
         muts := (create_product_from_csv cfg st.store g.2 opts.skipImages).2.2
         handleDone := g.1 }) := by
  unfold process_group
  rw [if_neg (by simp [hdry]), identify_no_keys st g.1 g.2 hb hsk hne]
  dsimp only
  rw [hmiss]
  dsimp only
  rw [horacle]
  dsimp only
  rfl

/-- Keys left of an occurrence differ from it. -/
theorem keys_disjoint {A B : List (String × List Row)} {x : String × List Row}
    (h : ((A ++ x :: B).map Prod.fst).Nodup) : ∀ a ∈ A, a.1 ≠ x.1 := by
  intro a ha he
  rw [List.map_append] at h
  rcases List.nodup_append.mp h with ⟨_, _, hdisj⟩
  exact hdisj (a := x.1) (by rw [← he]; exact List.mem_map_of_mem _ ha) (by simp)

/-- Keys right of an occurrence differ from it. -/
theorem keys_head_tail {B : List (String × List Row)} {x : String × List Row}
    (h : ((x :: B).map Prod.fst).Nodup) : ∀ b ∈ B, b.1 ≠ x.1 := by
  intro b hb he
  rw [List.map_cons, List.nodup_cons] at h
  exact h.1 (by rw [← he]; exact List.mem_map_of_mem _ hb)

/-- L1: processing a batch of cache-missing, well-conditioned groups from a
bounded store leaves every group — those already settled and those just
created — settled, with pairwise-distinct owners. -/
theorem process_groups_fresh (cfg : Config) (opts : Opts)
    (oracle : String → Option FailPoint) (horacle : ∀ h, oracle h = none)
    (hdry : opts.dryRun = false) :
    ∀ (gs : List (String × List Row)) (st : PState)
      (done : List (String × List Row)),
      (∀ g ∈ done, SettledG cfg opts st g) →
      ((done.map (fun g2 =>
        cache_lookup (load_existing_products_cache st.store st.cache).1 g2.1)).Nodup) →
      (∀ g2 ∈ done, ∀ pid,
        cache_lookup (load_existing_products_cache st.store st.cache).1 g2.1
          = some pid → pid < st.store.nextId) →
      (∀ g2 ∈ gs, group_ok cfg g2 ∧
        cache_lookup (load_existing_products_cache st.store st.cache).1 g2.1 = none) →
      ((done ++ gs).map Prod.fst).Nodup →
      (∀ q ∈ st.store.products, q.pid < st.store.nextId) →
      st.store.nextId ≠ 0 →
      AllSettled cfg opts (process_groups cfg opts oracle st gs).state
        (done ++ gs) := by
  intro gs
  induction gs with
  | nil =>
    intro st done hdone hnods hbnd hrest hkeys hfresh hnz
    rw [List.append_nil]
    refine ⟨hdone, ?_⟩
    intro m hm
    have hm2 : st.cache = some m := hm
    have hmeq : (load_existing_products_cache st.store st.cache).1 = m := by
      rw [hm2]
      rfl
    rw [← hmeq]
    exact hnods
  | cons g gs ih =>
    intro st done hdone hnods hbnd hrest hkeys hfresh hnz
    obtain ⟨hok, hmiss⟩ := hrest g (by simp)
    obtain ⟨hne, hb, hsk, hndopts, hignore⟩ := hok
    have hstep := process_group_creates cfg opts oracle st g (horacle g.1) hdry
      hne hb hsk hmiss
    obtain ⟨hcr1, hframe, hbound2, hlt, p, hfp, hpign, hparch, hpstruct, hpV,
      hpinv, hpim, hptitle, hpdesc⟩ :=
      create_settles cfg opts st.store g ⟨hne, hb, hsk, hndopts, hignore⟩ hnz hfresh
    have hkeyd : ∀ g2 ∈ done, g2.1 ≠ g.1 := keys_disjoint hkeys
    have hkeyr : ∀ g2 ∈ gs, g2.1 ≠ g.1 := by
      have hpart : ((g :: gs).map Prod.fst).Nodup := by
        rw [List.map_append] at hkeys
        exact (List.nodup_append.mp hkeys).2.1
      exact keys_head_tail hpart
    have hres := ih
      { store := (create_product_from_csv cfg st.store g.2 opts.skipImages).2.1
        cache := some (cache_set (load_existing_products_cache st.store st.cache).1
          g.1 (create_product_from_csv cfg st.store g.2 opts.skipImages).1) }
      (done ++ [g]) ?_ ?_ ?_ ?_ ?_ ?_ ?_
    · simp only [process_groups, hstep]
      have hl : (done ++ [g]) ++ gs = done ++ g :: gs := by simp
      rw [hl] at hres
      exact hres
    · intro g2 hg2
      rcases List.mem_append.mp hg2 with hg2d | hg2g
      · obtain ⟨e1, e2, e3, m, hcm, pid2, p2, hl2, hf2, rest2⟩ := hdone g2 hg2d
        have hmeq : (load_existing_products_cache st.store st.cache).1 = m := by
          rw [hcm]
          rfl
        refine ⟨e1, e2, e3,
          cache_set (load_existing_products_cache st.store st.cache).1 g.1
            (create_product_from_csv cfg st.store g.2 opts.skipImages).1,
          rfl, pid2, p2, ?_, ?_, rest2⟩
        · rw [cache_lookup_set_other _ _ _ _ (hkeyd g2 hg2d), hmeq]
          exact hl2
        · show Store.fetch (create_product_from_csv cfg st.store g.2
            opts.skipImages).2.1 pid2 = some p2
          rw [hframe pid2 (hbnd g2 hg2d pid2 (by rw [hmeq]; exact hl2))]
          exact hf2
      · have hg2e : g2 = g := by simpa using hg2g
        subst hg2e
        refine ⟨hne, hb, hsk,
          cache_set (load_existing_products_cache st.store st.cache).1 g2.1
            (create_product_from_csv cfg st.store g2.2 opts.skipImages).1,
          rfl, st.store.nextId, p, ?_, hfp, hpign, hparch, hpstruct, hpV, hpinv,
          hpim, hptitle, hpdesc⟩
        rw [cache_lookup_set_self, hcr1]
    · rw [show (load_existing_products_cache
          (create_product_from_csv cfg st.store g.2 opts.skipImages).2.1
          (some (cache_set (load_existing_products_cache st.store st.cache).1 g.1
            (create_product_from_csv cfg st.store g.2 opts.skipImages).1))).1
        = cache_set (load_existing_products_cache st.store st.cache).1 g.1
            (create_product_from_csv cfg st.store g.2 opts.skipImages).1 from rfl]
      rw [List.map_append]
      apply List.Nodup.append
      · rw [List.map_congr_left (fun g2 hg2 => by
          rw [cache_lookup_set_other _ _ _ _ (hkeyd g2 hg2)])]
        exact hnods
      · simp
      · intro x hx1 hx2
        rcases List.mem_map.mp hx1 with ⟨g2, hg2, hxe⟩
        have hx2e : x = cache_lookup (cache_set
            (load_existing_products_cache st.store st.cache).1 g.1
            (create_product_from_csv cfg st.store g.2 opts.skipImages).1) g.1 := by
          simpa using hx2
        rw [cache_lookup_set_self, hcr1] at hx2e
        rw [cache_lookup_set_other _ _ _ _ (hkeyd g2 hg2)] at hxe
        obtain ⟨_, _, _, m, hcm, pid2, p2, hl2, _, _⟩ := hdone g2 hg2
        have hmeq : (load_existing_products_cache st.store st.cache).1 = m := by
          rw [hcm]
          rfl
        rw [hmeq, hl2] at hxe
        have hpid2 := hbnd g2 hg2 pid2 (by rw [hmeq]; exact hl2)
        rw [hx2e] at hxe
        injection hxe with he
        omega
    · intro g2 hg2 pid hlk
      rcases List.mem_append.mp hg2 with hg2d | hg2g
      · rw [show (load_existing_products_cache
            (create_product_from_csv cfg st.store g.2 opts.skipImages).2.1
            (some (cache_set (load_existing_products_cache st.store st.cache).1 g.1
              (create_product_from_csv cfg st.store g.2 opts.skipImages).1))).1
          = cache_set (load_existing_products_cache st.store st.cache).1 g.1
              (create_product_from_csv cfg st.store g.2 opts.skipImages).1 from rfl,
          cache_lookup_set_other _ _ _ _ (hkeyd g2 hg2d)] at hlk
        have := hbnd g2 hg2d pid hlk
        show pid < (create_product_from_csv cfg st.store g.2 opts.skipImages).2.1.nextId
        omega
      · have hg2e : g2 = g := by simpa using hg2g
        subst hg2e
        rw [show (load_existing_products_cache
            (create_product_from_csv cfg st.store g2.2 opts.skipImages).2.1
            (some (cache_set (load_existing_products_cache st.store st.cache).1 g2.1
              (create_product_from_csv cfg st.store g2.2 opts.skipImages).1))).1
          = cache_set (load_existing_products_cache st.store st.cache).1 g2.1
              (create_product_from_csv cfg st.store g2.2 opts.skipImages).1 from rfl,
          cache_lookup_set_self, hcr1] at hlk
        injection hlk with he
        show pid < (create_product_from_csv cfg st.store g2.2 opts.skipImages).2.1.nextId
        omega
    · intro g2 hg2
      refine ⟨(hrest g2 (by simp [hg2])).1, ?_⟩
      rw [show (load_existing_products_cache
          (create_product_from_csv cfg st.store g.2 opts.skipImages).2.1
          (some (cache_set (load_existing_products_cache st.store st.cache).1 g.1
            (create_product_from_csv cfg st.store g.2 opts.skipImages).1))).1
        = cache_set (load_existing_products_cache st.store st.cache).1 g.1
            (create_product_from_csv cfg st.store g.2 opts.skipImages).1 from rfl,
        cache_lookup_set_other _ _ _ _ (hkeyr g2 hg2)]
      exact (hrest g2 (by simp [hg2])).2
    · rw [show (done ++ [g]) ++ gs = done ++ g :: gs by simp]
      exact hkeys
    · exact hbound2
    · show (create_product_from_csv cfg st.store g.2 opts.skipImages).2.1.nextId ≠ 0
      omega

/-- In dry-run mode every group is SKIP and nothing is called. -/
theorem process_groups_dry (cfg : Config) (opts : Opts)
    (oracle : String → Option FailPoint) (hdry : opts.dryRun = true) :
    ∀ (gs : List (String × List Row)) (st : PState),
      (process_groups cfg opts oracle st gs).summary = { skipped := gs.length } ∧
      (process_groups cfg opts oracle st gs).muts = [] ∧
      (process_groups cfg opts oracle st gs).processedHandles = gs.map Prod.fst := by
  intro gs
  induction gs with
  | nil =>
    intro st
    exact ⟨rfl, rfl, rfl⟩
  | cons g gs ih =>
    intro st
    have hstep : process_group cfg opts oracle st g
        = (st, { delta := { skipped := 1 }, muts := [], handleDone := g.1 }) := by
      unfold process_group
      rw [if_pos hdry]
    obtain ⟨ihs, ihm, ihh⟩ := ih st
    simp only [process_groups, hstep, List.nil_append]
    refine ⟨?_, ihm, ?_⟩
    · rw [ihs]
      show Summary.add { skipped := 1 } { skipped := gs.length } = _
      unfold Summary.add
      simp only [Summary.mk.injEq, List.length_cons, true_and, and_true]
      omega
    · rw [ihh]
      rfl

/-- `process_csv_hybrid` is the grouped batch run. -/
theorem process_csv_hybrid_eq (cfg : Config) (opts : Opts)
    (oracle : String → Option FailPoint) (st : PState) (rows : List Row) :
    process_csv_hybrid cfg opts oracle st rows
      = process_groups cfg opts oracle st (group_rows_by_handle rows) := rfl

/-- C2 (amended): for a batch of new products — every group handle absent
remotely, no secondary keys, pairwise-distinct normalised option values, no
ignore tags in the creation payload — and no injected failures, running
reconciliation a second time against the state the first run produced
classifies every group as SKIP; the only mutating calls the second run may
issue are keep-draft tag PUTs (on products created in draft status).  The
claim as frozen — literally no mutating call and never an UPDATE — is
refuted by the counterexample: with duplicate case-normalised option
values the second run issues a variant PUT and counts an UPDATE. -/
theorem claim_c2_second_run_all_skip (cfg : Config) (opts : Opts)
    (oracle : String → Option FailPoint) (st0 : PState) (rows : List Row)
    (horacle : ∀ h, oracle h = none)
    (hcache : st0.cache = none)
    (hok : ∀ g ∈ group_rows_by_handle rows, group_ok cfg g)
    (habsent : ∀ g ∈ group_rows_by_handle rows, ∀ p ∈ st0.store.products,
      p.handle ≠ g.1)
    (hfresh : ∀ p ∈ st0.store.products, p.pid < st0.store.nextId)
    (hnz : st0.store.nextId ≠ 0) :
    (process_csv_hybrid cfg opts oracle
        (process_csv_hybrid cfg opts oracle st0 rows).state rows).summary
      = { skipped := (group_rows_by_handle rows).length } ∧
    (∀ mt ∈ (process_csv_hybrid cfg opts oracle
        (process_csv_hybrid cfg opts oracle st0 rows).state rows).muts,
      ∃ pid t, mt = MutCall.putTags pid t) ∧
    (process_csv_hybrid cfg opts oracle
        (process_csv_hybrid cfg opts oracle st0 rows).state rows).processedHandles
      = (group_rows_by_handle rows).map Prod.fst := by
  rw [process_csv_hybrid_eq, process_csv_hybrid_eq]
  by_cases hdry : opts.dryRun = true
  · obtain ⟨hs, hm, hh⟩ := process_groups_dry cfg opts oracle hdry
      (group_rows_by_handle rows)
      (process_groups cfg opts oracle st0 (group_rows_by_handle rows)).state
    refine ⟨hs, ?_, hh⟩
    intro mt hmt
    rw [hm] at hmt
    simp at hmt
  · have hdry2 : opts.dryRun = false := Bool.eq_false_iff.mpr hdry
    have hall := process_groups_fresh cfg opts oracle horacle hdry2
      (group_rows_by_handle rows) st0 []
      (by intro g hg; simp at hg)
      (by simp)
      (by intro g2 hg2 pid hpid; simp at hg2)
      ?_ (by simpa using group_keys_nodup rows) hfresh hnz
    · exact process_groups_settled cfg opts oracle horacle
        (group_rows_by_handle rows)
        (process_groups cfg opts oracle st0 (group_rows_by_handle rows)).state
        (by simpa using hall)
    · intro g2 hg2
      refine ⟨hok g2 hg2, ?_⟩
      show cache_lookup (load_existing_products_cache st0.store st0.cache).1 g2.1
        = none
      rw [hcache]
      show cache_lookup
        ((scan_pages st0.store.products none).1.foldl cache_build_step []) g2.1 = none
      rw [cache_build_absent _ _ _ ?_]
      · rfl
      · intro p hp
        exact habsent g2 hg2 p
          (scan_go_sub (st0.store.products.length + 1) st0.store.products none p hp)

/-- C2 counterexample scenario: first duplicate-option row (uppercase). -/
def c2c_rowM : Row :=
  { urlHandle := "pala-d", title := "Pala D", option1Value := "M",
    price := "10,00 €", inventoryQuantity := "3", status := "Active" }

/-- C2 counterexample scenario: second duplicate-option row (lowercase,
other price). -/
def c2c_rowm : Row :=
  { urlHandle := "pala-d", title := "Pala D", option1Value := "m",
    price := "12,00 €", inventoryQuantity := "2", status := "Active" }

/-- Counterexample for C2 as frozen: a batch with two variants whose option
values collapse to the same normalised value ("M" and "m") is created on
the first run; the unchanged second run then counts an UPDATE and issues a
real variant PUT — the first-match pairing diffs the second remote variant
against the first CSV row's price. -/
theorem claim_c2_counterexample :
    (process_csv_hybrid { } { } (fun _ => none)
      (process_csv_hybrid { } { } (fun _ => none)
        { store := { products := [], nextId := 1 }, cache := none }
        [c2c_rowM, c2c_rowm]).state [c2c_rowM, c2c_rowm]).summary.updated = 1 ∧
    (process_csv_hybrid { } { } (fun _ => none)
      (process_csv_hybrid { } { } (fun _ => none)
        { store := { products := [], nextId := 1 }, cache := none }
        [c2c_rowM, c2c_rowm]).state [c2c_rowM, c2c_rowm]).muts
      = [MutCall.putVariant 4
          { price := some "10.00", compareAtPrice := none, sku := none,
            barcode := none }] := by
  refine ⟨by decide, by decide⟩

/-- C2 witness scenario: two distinct-option draft rows. -/
def c2w_rowM : Row :=
  { urlHandle := "pala-x", title := "Pala X", option1Value := "M",
    price := "10,00 €", inventoryQuantity := "3", status := "Draft",
    productImageUrl := "https://img.example.com/pala-x.jpg?v=2" }

/-- C2 witness scenario: the second row. -/
def c2w_rowL : Row :=
  { urlHandle := "pala-x", title := "Pala X", option1Value := "L",
    price := "12,00 €", inventoryQuantity := "2", status := "Draft",
    productImageUrl := "https://img.example.com/pala-x.jpg?v=2" }

/-- C2 witness scenario: the empty initial state. -/
def c2w_st0 : PState := { store := { products := [], nextId := 1 }, cache := none }

/-- Witness for C2 (amended): on a concrete two-variant draft batch created
by the first run, the second run is all-SKIP with only keep-draft tag PUTs
and records the same processed handle. -/
theorem claim_c2_witness :
    (process_csv_hybrid { } { } (fun _ => none)
        (process_csv_hybrid { } { } (fun _ => none) c2w_st0
          [c2w_rowM, c2w_rowL]).state [c2w_rowM, c2w_rowL]).summary
      = { skipped := (group_rows_by_handle [c2w_rowM, c2w_rowL]).length } ∧
    (∀ mt ∈ (process_csv_hybrid { } { } (fun _ => none)
        (process_csv_hybrid { } { } (fun _ => none) c2w_st0
          [c2w_rowM, c2w_rowL]).state [c2w_rowM, c2w_rowL]).muts,
      ∃ pid t, mt = MutCall.putTags pid t) ∧
    (process_csv_hybrid { } { } (fun _ => none)
        (process_csv_hybrid { } { } (fun _ => none) c2w_st0
          [c2w_rowM, c2w_rowL]).state [c2w_rowM, c2w_rowL]).processedHandles
      = (group_rows_by_handle [c2w_rowM, c2w_rowL]).map Prod.fst :=
  claim_c2_second_run_all_skip { } { } (fun _ => none) c2w_st0 [c2w_rowM, c2w_rowL]
    (fun _ => rfl) rfl (by decide) (by decide) (by decide) (by decide)

/-! ### Structural variant comparison (C6) -/

/-- `compare_variants_structure` fires exactly on a count difference or a
difference of the sorted lists (multisets) of normalised option values. -/
theorem compare_variants_structure_iff (sv : List RVariant) (cv : List CsvVariant) :
    compare_variants_structure sv cv = true ↔
      (sv.length ≠ cv.length ∨
       py_sorted_str (sv.map (fun v => norm_opt v.option1)) ≠
         py_sorted_str (cv.map (fun v => norm_opt v.option1))) := by
  unfold compare_variants_structure
  split
  · next h => simp [h]
  · next h => simp [h]

/-- C6 (amended): for a group whose identity resolves to a fetched remote
product that is neither ignore-tagged nor archived (and with no injected
failure), the reconciler recreates exactly when the variant count differs
or the sorted lists (multisets) of trimmed, lowercased option values
differ.  A SKU or barcode difference alone therefore never recreates.  The
claim as frozen compares the *sets* of option values; the code compares
sorted lists, i.e. multisets — see the counterexample with repeated
normalised values. -/
theorem claim_c6_recreate_iff_structure (cfg : Config) (opts : Opts)
    (oracle : String → Option FailPoint) (st : PState) (g : String × List Row)
    (pid : Nat) (p : RProduct)
    (hdry : opts.dryRun = false)
    (hor : oracle g.1 = none)
    (hid : (identify_phase st g.1 g.2).existingId = some pid)
    (hfetch : Store.fetch (identify_phase st g.1 g.2).state.store pid = some p)
    (hig : has_ignore_tag cfg.ignoreTags (split_tags p.tags) = false)
    (harch : pylower p.status ≠ "archived") :
    ((process_group cfg opts oracle st g).2.delta.recreated = 1 ↔
      (p.variants.length ≠ (build_product_data_from_csv g.2).variants.length ∨
       py_sorted_str (p.variants.map (fun v => norm_opt v.option1)) ≠
         py_sorted_str ((build_product_data_from_csv g.2).variants.map
           (fun v => norm_opt v.option1)))) := by
  rw [← compare_variants_structure_iff]
  unfold process_group
  dsimp only
  rw [hdry]
  simp only [Bool.false_eq_true, if_false]
  rw [hid, hor]
  dsimp only
  rw [hfetch]
  dsimp only
  rw [hig]
  simp only [Bool.false_eq_true, if_false]
  rw [if_neg harch]
  repeat' split
  all_goals simp_all

/-- Witness scenario for C6: remote product with variants S, M. -/
def c6w_remote : RProduct :=
  { pid := 10, handle := "pala-x", title := "Pala X", tags := "padel-scraper-1",
    status := "active",
    variants := [{ vid := 11, option1 := "S", price := "29.99",
                   inventoryQuantity := 5, inventoryItemId := 12 },
                 { vid := 13, option1 := "M", price := "29.99",
                   inventoryQuantity := 5, inventoryItemId := 14 }] }

/-- Witness scenario for C6: local rows with variants S, M, L. -/
def c6w_rows : List Row :=
  [{ urlHandle := "pala-x", title := "Pala X", option1Value := "S",
     price := "29.99", inventoryQuantity := "5", status := "Active" },
   { urlHandle := "pala-x", title := "Pala X", option1Value := "M",
     price := "29.99", inventoryQuantity := "5", status := "Active" },
   { urlHandle := "pala-x", title := "Pala X", option1Value := "L",
     price := "29.99", inventoryQuantity := "5", status := "Active" }]

/-- Witness state for C6. -/
def c6w_state : PState :=
  { store := { products := [c6w_remote], nextId := 100 }, cache := none }

/-- Witness for C6 (amended): local variants S, M, L against remote S, M —
the recreate decision is exactly the structural difference. -/
theorem claim_c6_witness :
    (process_group { } { } (fun _ => none) c6w_state ("pala-x", c6w_rows)).2.delta.recreated = 1
      ↔
      (c6w_remote.variants.length
          ≠ (build_product_data_from_csv c6w_rows).variants.length ∨
       py_sorted_str (c6w_remote.variants.map (fun v => norm_opt v.option1))
          ≠ py_sorted_str ((build_product_data_from_csv c6w_rows).variants.map
              (fun v => norm_opt v.option1))) :=
  claim_c6_recreate_iff_structure { } { } (fun _ => none) c6w_state ("pala-x", c6w_rows)
    10 c6w_remote rfl rfl (by decide) (by decide) (by decide) (by decide)

/-- Counterexample scenario for C6: remote normalised options m, m, l. -/
def c6c_remote : RProduct :=
  { pid := 10, handle := "p", title := "T", status := "active",
    variants := [{ vid := 11, option1 := "M", price := "10.00",
                   inventoryQuantity := 0, inventoryItemId := 21 },
                 { vid := 12, option1 := "m", price := "10.00",
                   inventoryQuantity := 0, inventoryItemId := 22 },
                 { vid := 13, option1 := "L", price := "10.00",
                   inventoryQuantity := 0, inventoryItemId := 23 }] }

/-- Counterexample scenario for C6: local normalised options m, l, l. -/
def c6c_rows : List Row :=
  [{ urlHandle := "p", title := "T", option1Value := "M",
     price := "10.00", status := "Active" },
   { urlHandle := "p", title := "T", option1Value := "L",
     price := "10.00", status := "Active" },
   { urlHandle := "p", title := "T", option1Value := "l",
     price := "10.00", status := "Active" }]

/-- Counterexample for C6 as frozen: equal variant counts and equal *sets*
of normalised option values (m, l on both sides), yet the reconciler
recreates, because the multisets differ (m, m, l against m, l, l). -/
theorem claim_c6_counterexample :
    (process_group { } { } (fun _ => none)
        { store := { products := [c6c_remote], nextId := 100 }, cache := none }
        ("p", c6c_rows)).2.delta.recreated = 1 ∧
    c6c_remote.variants.length = (build_product_data_from_csv c6c_rows).variants.length ∧
    py_sorted_str ((c6c_remote.variants.map (fun v => norm_opt v.option1)).dedup)
      = py_sorted_str
          (((build_product_data_from_csv c6c_rows).variants.map
            (fun v => norm_opt v.option1)).dedup) := by
  refine ⟨by decide, by decide, by decide⟩

/-! ### The 0.01 tolerance (C3) -/

/-- Powers of two are positive in `ℚ`. -/
theorem two_zpow_pos (e : Int) : (0 : ℚ) < (2 : ℚ) ^ e := zpow_pos (by norm_num) e

/-- Split a rational power of two at a smaller exponent. -/
theorem two_zpow_split (e emin : Int) (h : emin ≤ e) :
    (2 : ℚ) ^ e = (2 : ℚ) ^ ((e - emin).toNat) * (2 : ℚ) ^ emin := by
  rw [← zpow_natCast, ← zpow_add₀ (by norm_num : (2 : ℚ) ≠ 0)]
  congr 1
  rw [Int.toNat_of_nonneg (by omega)]
  ring

/-- `dbl_gt` decides the exact value order of two binary64 numbers. -/
theorem dbl_gt_iff (a b : Dbl) : dbl_gt a b = true ↔ b.toRat < a.toRat := by
  unfold dbl_gt Dbl.toRat
  rw [decide_eq_true_iff]
  rw [two_zpow_split a.exp (min a.exp b.exp) (min_le_left _ _),
      two_zpow_split b.exp (min a.exp b.exp) (min_le_right _ _)]
  rw [← mul_assoc, ← mul_assoc]
  rw [mul_lt_mul_right (two_zpow_pos _)]
  constructor
  · intro h
    exact_mod_cast h
  · intro h
    exact_mod_cast h

/-- `dbl_abs` computes the exact absolute value. -/
theorem dbl_abs_toRat (a : Dbl) : (dbl_abs a).toRat = |a.toRat| := by
  unfold dbl_abs Dbl.toRat
  dsimp only
  rw [abs_mul, abs_of_pos (two_zpow_pos _)]
  push_cast
  ring

/-- The binary64 number the literal `0.01` denotes, as the language rounds
it: `5764607523034235 * 2 ^ (-59)`, strictly greater than `1/100`. -/
theorem tol_value : dbl_of_dec ⟨1, 2⟩ = ⟨5764607523034235, -59⟩ := by decide

/-- The rational value of the rounded `0.01` literal. -/
theorem tol_toRat : (Dbl.mk 5764607523034235 (-59)).toRat
    = (5764607523034235 : ℚ) / 2 ^ 59 := by
  unfold Dbl.toRat
  rw [(by norm_num : ((-59 : ℤ)) = -((59 : ℕ) : ℤ)), zpow_neg, zpow_natCast,
      div_eq_mul_inv]
  norm_num

/-- The embedded tolerance test means exactly: the correctly rounded
binary64 difference exceeds the binary64 value of the literal `0.01`,
namely `5764607523034235 / 2 ^ 59` (strictly greater than `1/100`). -/
theorem abs_diff_gt_tol_iff (a b : Dbl) :
    abs_diff_gt_tol a b = true ↔
      |(dbl_sub a b).toRat| > (5764607523034235 : ℚ) / 2 ^ 59 := by
  unfold abs_diff_gt_tol
  rw [tol_value, dbl_gt_iff, dbl_abs_toRat, tol_toRat]

/-- The per-variant diff sets a price field exactly when one of the two
tolerance tests fires. -/
theorem variant_update_touches_price (sv : RVariant) (cv : CsvVariant) :
    (variant_update_fields sv cv).touches_price
      = (abs_diff_gt_tol (to_float sv.price) (to_float cv.price) ||
         abs_diff_gt_tol (to_float sv.compareAtPrice) (to_float cv.compareAtPrice)) := by
  unfold variant_update_fields VariantUpdate.touches_price
  dsimp only
  split <;> split <;> simp_all

/-- The `precio` flag accumulated by the variant loop is the existence of a
matched pair whose prices differ beyond tolerance. -/
theorem smart_fold_precio (d : CsvData) (vs : List RVariant) (a : SmartAcc) :
    (vs.foldl (smart_variant_step d) a).precio
      = (a.precio || vs.any (fun sv =>
          match find_csv_variant d.variants sv.option1 with
          | some cv => (variant_update_fields sv cv).touches_price
          | none => false)) := by
  induction vs generalizing a with
  | nil => simp
  | cons v vs ih =>
    simp only [List.foldl_cons, List.any_cons]
    rw [ih]
    cases h : find_csv_variant d.variants v.option1 <;>
      simp [smart_variant_step, h, Bool.or_assoc]

/-- C3 (amended): the price tests run in IEEE-754 binary64 arithmetic, so
the effective threshold is the double nearest `0.01` —
`5764607523034235 / 2 ^ 59`, strictly greater than `1/100` — applied to the
correctly rounded difference of the parsed prices.  The `precio` flag of
`update_product_smart` and the `compare_prices` comparator fire exactly
when that computation exceeds that threshold.  Whether a decimal difference
of exactly 0.01 triggers therefore depends on rounding: `8.21` against
`8.20` triggers (the doubles differ by `0.010000000000001563`), while
`10.01` against `10.00` does not (`0.009999999999999787`); both decimal
pairs differ by exactly `1/100`.  The claim as frozen — a difference of
exactly 0.01 always triggers — fails on the latter pair (see the
counterexample), and its other direction — strictly below 0.01 never
triggers — is decided by the same rounded computation. -/
theorem claim_c3_price_tolerance :
    (∀ (a b : Dbl), abs_diff_gt_tol a b = true ↔
        |(dbl_sub a b).toRat| > (5764607523034235 : ℚ) / 2 ^ 59) ∧
    (∀ (cfg : Config) (s : Store) (productId : Nat) (p : RProduct)
        (d : CsvData) (b : Bool),
      (update_product_smart cfg s productId p d b).1.precio = true ↔
        ∃ sv ∈ p.variants, ∃ cv, find_csv_variant d.variants sv.option1 = some cv ∧
          (|(dbl_sub (to_float sv.price) (to_float cv.price)).toRat|
              > (5764607523034235 : ℚ) / 2 ^ 59 ∨
           |(dbl_sub (to_float sv.compareAtPrice) (to_float cv.compareAtPrice)).toRat|
              > (5764607523034235 : ℚ) / 2 ^ 59)) ∧
    (∀ (svl : List RVariant) (cvl : List CsvVariant),
      compare_prices svl cvl = true ↔
        svl.length ≠ cvl.length ∨
        ∃ pr ∈ (sort_rvariants svl).zip (sort_cvariants cvl),
          (|(dbl_sub (to_float pr.1.price) (to_float pr.2.price)).toRat|
              > (5764607523034235 : ℚ) / 2 ^ 59 ∨
           |(dbl_sub (to_float pr.1.compareAtPrice) (to_float pr.2.compareAtPrice)).toRat|
              > (5764607523034235 : ℚ) / 2 ^ 59)) ∧
    ((parse_decimal "8.21").toRat - (parse_decimal "8.20").toRat = 1/100 ∧
      abs_diff_gt_tol (to_float "8.21") (to_float "8.20") = true) ∧
    ((parse_decimal "10.01").toRat - (parse_decimal "10.00").toRat = 1/100 ∧
      abs_diff_gt_tol (to_float "10.01") (to_float "10.00") = false) := by
  refine ⟨abs_diff_gt_tol_iff, ?_, ?_, ⟨?_, by decide⟩, ⟨?_, by decide⟩⟩
  · intro cfg s productId p d b
    have hp : (update_product_smart cfg s productId p d b).1.precio
        = (p.variants.foldl (smart_variant_step d) { store := s, muts := [] }).precio := by
      unfold update_product_smart
      dsimp only
    rw [hp, smart_fold_precio, Bool.false_or, List.any_eq_true]
    constructor
    · rintro ⟨sv, hmem, hcond⟩
      rcases hfind : find_csv_variant d.variants sv.option1 with _ | cv
      · rw [hfind] at hcond; simp at hcond
      · rw [hfind] at hcond
        dsimp only at hcond
        refine ⟨sv, hmem, cv, hfind, ?_⟩
        rw [variant_update_touches_price] at hcond
        rcases Bool.or_eq_true_iff.mp hcond with h | h
        · exact Or.inl ((abs_diff_gt_tol_iff _ _).mp h)
        · exact Or.inr ((abs_diff_gt_tol_iff _ _).mp h)
    · rintro ⟨sv, hmem, cv, hfind, hcond⟩
      refine ⟨sv, hmem, ?_⟩
      rw [hfind]
      dsimp only
      rw [variant_update_touches_price]
      rcases hcond with h | h
      · exact Bool.or_eq_true_iff.mpr (Or.inl ((abs_diff_gt_tol_iff _ _).mpr h))
      · exact Bool.or_eq_true_iff.mpr (Or.inr ((abs_diff_gt_tol_iff _ _).mpr h))
  · intro svl cvl
    unfold compare_prices
    split
    · simp_all
    · next hlen =>
      rw [List.any_eq_true]
      simp only [hlen, false_or]
      constructor
      · rintro ⟨pr, hmem, hcond⟩
        refine ⟨pr, hmem, ?_⟩
        rcases Bool.or_eq_true_iff.mp hcond with h | h
        · exact Or.inl ((abs_diff_gt_tol_iff _ _).mp h)
        · exact Or.inr ((abs_diff_gt_tol_iff _ _).mp h)
      · rintro ⟨pr, hmem, hcond⟩
        refine ⟨pr, hmem, ?_⟩
        rcases hcond with h | h
        · exact Bool.or_eq_true_iff.mpr (Or.inl ((abs_diff_gt_tol_iff _ _).mpr h))
        · exact Bool.or_eq_true_iff.mpr (Or.inr ((abs_diff_gt_tol_iff _ _).mpr h))
  · have h1 : parse_decimal "8.21" = ⟨821, 2⟩ := by decide
    have h2 : parse_decimal "8.20" = ⟨820, 2⟩ := by decide
    rw [h1, h2]
    show Rat.divInt 821 (10 ^ 2) - Rat.divInt 820 (10 ^ 2) = 1/100
    rw [Rat.divInt_eq_div, Rat.divInt_eq_div]
    norm_num
  · have h1 : parse_decimal "10.01" = ⟨1001, 2⟩ := by decide
    have h2 : parse_decimal "10.00" = ⟨1000, 2⟩ := by decide
    rw [h1, h2]
    show Rat.divInt 1001 (10 ^ 2) - Rat.divInt 1000 (10 ^ 2) = 1/100
    rw [Rat.divInt_eq_div, Rat.divInt_eq_div]
    norm_num

/-- Counterexample for C3 as frozen: a decimal price difference of exactly
0.01 (locally "10.00" against the remote "10.01") triggers neither
`compare_prices` nor any `update_product_smart` flag — in binary64
arithmetic `float("10.01") - float("10.00")` is `0.009999999999999787`,
which the strict `> 0.01` test rejects. -/
theorem claim_c3_counterexample :
    ((parse_decimal "10.01").toRat - (parse_decimal "10.00").toRat = 1/100) ∧
    compare_prices
      [{ vid := 1, option1 := "M", price := "10.01", inventoryQuantity := 0,
         inventoryItemId := 2 }]
      [{ option1 := "M", price := "10.00", inventoryQuantity := 0 }] = false ∧
    (update_product_smart { } { products := [], nextId := 1 } 1
      { pid := 1, handle := "h", title := "t", status := "active",
        variants := [{ vid := 1, option1 := "M", price := "10.01",
                       inventoryQuantity := 0, inventoryItemId := 2 }] }
      { title := "t", bodyHtml := "", imageUrl := "", optionName := "Title",
        variants := [{ option1 := "M", price := "10.00", inventoryQuantity := 0 }] }
      true).1 = { } := by
  refine ⟨?_, by decide, by decide⟩
  have h1 : parse_decimal "10.01" = ⟨1001, 2⟩ := by decide
  have h2 : parse_decimal "10.00" = ⟨1000, 2⟩ := by decide
  rw [h1, h2]
  show Rat.divInt 1001 (10 ^ 2) - Rat.divInt 1000 (10 ^ 2) = 1/100
  rw [Rat.divInt_eq_div, Rat.divInt_eq_div]
  norm_num

/-- Witness for C10: a batch whose only row lacks a handle yields an empty
processed set, and the run deletes and mutates nothing. -/
theorem claim_c10_witness :
    (Hybrid.run { } { } (fun _ => none) false [[{ urlHandle := " " }]]
        { products := [], nextId := 1 }).summary = { } ∧
    (Hybrid.run { } { } (fun _ => none) false [[{ urlHandle := " " }]]
        { products := [], nextId := 1 }).muts = [] ∧
    (Hybrid.run { } { } (fun _ => none) false [[{ urlHandle := " " }]]
        { products := [], nextId := 1 }).store = { products := [], nextId := 1 } :=
  claim_c10_empty_processed_no_prune _ _ _ _ _ _ (by decide)

end Hybrid
